import Mathlib

/-! # vipl point-cloud recorder: container codec and frame navigation

Shallow embedding of `src/vipl/PointCloud/PointCloudRecorder.{h,cpp}`.

* A byte is a natural number; the encoders only produce values below 256.
* A `double` is carried as its 64-bit pattern (a natural number): the code only
  copies, byte-swaps and stores the pattern.
* `int` / `int32_t` values are integers; every place where the C code can leave
  the 32-bit range goes through `wrap32`.
* The file behind the descriptor is the byte list `storage` with the offset of
  the open file description; `limit` is the capacity of the storage device, so
  that a `write` can come back short, and `present` tells whether the path
  exists.  The model follows the single path the recorder is opened on.
* `fault` is raised when the C code performs an out-of-bounds memory access
  (undefined behaviour).  The fields reported afterwards are those of an
  execution in which the access was harmless; statements of successful
  outcomes say that `fault` stays `false`.
-/

namespace PointCloudRecorder

abbrev Byte := Nat

/-- Two-complement reading of an integer as an `int32_t`. -/
def wrap32 (x : Int) : Int := (x + 2147483648) % 4294967296 - 2147483648

/-- The four bytes `htonl` followed by a 4-byte `write` put on storage. -/
def be32 (x : Int) : List Byte :=
  let n := (x % 4294967296).toNat
  [n / 16777216 % 256, n / 65536 % 256, n / 256 % 256, n % 256]

/-- Big-endian value of a byte chunk (`ntohl` / `ntohll` after a `read`). -/
def beVal (bs : List Byte) : Nat := bs.foldl (fun acc b => acc * 256 + b) 0

/-- A 4-byte chunk read as `int32_t` in network order. -/
def rd32 (bs : List Byte) : Int := wrap32 (beVal bs)

/-- The eight bytes `htonll` followed by an 8-byte `write` put on storage. -/
def be64 (x : Nat) : List Byte :=
  let n := x % 18446744073709551616
  [n / 72057594037927936 % 256, n / 281474976710656 % 256, n / 1099511627776 % 256,
   n / 4294967296 % 256, n / 16777216 % 256, n / 65536 % 256, n / 256 % 256, n % 256]

/-- An 8-byte chunk read as a 64-bit pattern in network order. -/
def rd64 (bs : List Byte) : Nat := beVal bs % 18446744073709551616

/-- `const char *magic = "PointCld"`. -/
def magic : List Byte := [80, 111, 105, 110, 116, 67, 108, 100]

/-- `const uint32_t version = 0x01`. -/
def version : Int := 1

/-- `strlen` over the memory `data` stands for: the index of the first NUL.  The
flag is `true` when there is none, so that the scan runs past the buffer. -/
def strlen (data : List Byte) : Nat × Bool :=
  ((data.takeWhile (fun b => b != 0)).length, !(data.contains 0))

/-- The recorder object together with the file behind its path. -/
structure Recorder where
  fd : Int
  forWrite : Bool
  startTime : Nat
  endTime : Nat
  currentTime : Nat
  frameNumber : Int
  frameCount : Int
  frameSize : Int
  info : List Byte
  depths : Option (List Byte)
  colors : Option (List Byte)
  present : Bool
  storage : List Byte
  offset : Nat
  limit : Nat
  fault : Bool
deriving DecidableEq, Repr

/-- A freshly constructed object (the in-class initialisers of the header file)
next to a path without a file. -/
def fresh (limit : Nat) : Recorder :=
  { fd := -1, forWrite := false, startTime := 0, endTime := 0, currentTime := 0,
    frameNumber := 0, frameCount := 0, frameSize := 0, info := [], depths := none,
    colors := none, present := false, storage := [], offset := 0, limit := limit,
    fault := false }

/-! ## System calls -/

/-- `read(fd, buf, n)`: the bytes obtained (fewer than `n` at the end of storage,
none on a bad descriptor); the offset advances by what was obtained. -/
def sysRead (s : Recorder) (n : Nat) : List Byte × Recorder :=
  if s.fd < 0 then ([], s)
  else
    let got := (s.storage.drop s.offset).take n
    (got, { s with offset := s.offset + got.length })

/-- `write(fd, buf, n)` of the bytes `data`: the count written, or -1.  Only what
fits below `limit` is written; a gap left by an earlier `lseek` past the end reads
as zeros. -/
def sysWrite (s : Recorder) (data : List Byte) : Int × Recorder :=
  if s.fd < 0 then (-1, s)
  else if data.length = 0 then (0, s)
  else
    let put := data.take (s.limit - s.offset)
    if put.length < data.length ∧ put.length = 0 then (-1, s)
    else
      (put.length,
        { s with
          storage := s.storage.take s.offset ++ List.replicate (s.offset - s.storage.length) 0
            ++ put ++ s.storage.drop (s.offset + put.length)
          offset := s.offset + put.length })

/-- `lseek(fd, off, whence)`: the new offset, or -1 (bad descriptor, negative
target, unknown whence). -/
def sysSeek (s : Recorder) (off : Int) (whence : Int) : Int × Recorder :=
  if s.fd < 0 then (-1, s)
  else
    let base : Int :=
      if whence = 0 then 0 else if whence = 1 then s.offset else s.storage.length
    if whence < 0 ∨ 2 < whence ∨ base + off < 0 then (-1, s)
    else (base + off, { s with offset := (base + off).toNat })

/-! ## Field codec -/

/-- `readn(data, size)`.  `data` is the buffer the pointer refers to (`none` for
NULL); the result carries the return code and the buffer afterwards.  A `read`
that stores more bytes than the buffer holds raises `fault`. -/
def readn (s : Recorder) (data : Option (List Byte)) (size : Int) :
    Int × Option (List Byte) × Recorder :=
  let r1 := sysRead s 4
  if r1.1.length ≠ 4 then (-1, data, r1.2)
  else
    let len := rd32 r1.1
    if len ≤ 0 then (-1, data, r1.2)
    else
      if data.isSome ∧ 0 < size ∧ size < len then (-1, data, r1.2)
      else
        let buf := match data with
          | none => List.replicate len.toNat 0
          | some b => b
        let r2 := sysRead r1.2 len.toNat
        let got := r2.1
        let s2 := { r2.2 with fault := r2.2.fault || decide (buf.length < got.length) }
        let buf1 := got ++ buf.drop got.length
        if (got.length : Int) ≠ len then (-1, some buf1, s2)
        else if len < size then
          (0, some (buf1.set len.toNat 0),
            { s2 with fault := s2.fault || decide (buf1.length ≤ len.toNat) })
        else (0, some buf1, s2)

/-- `writen(data, len)`.  `data` is the memory the pointer refers to. -/
def writen (s : Recorder) (data : List Byte) (len : Int) : Int × Recorder :=
  let sl := strlen data
  let len1 : Int := if len = 0 then wrap32 sl.1 else len
  let s0 := if len = 0 then { s with fault := s.fault || sl.2 } else s
  let w1 := sysWrite s0 (be32 len1)
  if w1.1 ≠ 4 then (-1, w1.2)
  else if len1 < 0 then (-1, w1.2)
  else
    let payload := data.take len1.toNat
    let s1 := { w1.2 with fault := w1.2.fault || decide (data.length < len1.toNat) }
    let w2 := sysWrite s1 payload
    if w2.1 ≠ len1 then (-1, w2.2) else (len1, w2.2)

/-! ## Writer -/

/-- `PointCloudRecorder::record`.  `info` is the content of the `std::string`,
`depths` and `colors` the memory behind the two pointers. -/
def record (s : Recorder) (time : Nat) (info : List Byte) (count : Int)
    (depths colors : List Byte) : Int × Recorder :=
  if s.forWrite = false then (-1, s)
  else
    let k0 := sysSeek s 0 2
    if k0.1 = -1 then (-1, k0.2)
    else
      let fsz := wrap32 (wrap32 ((strlen (info ++ [0])).1 + count * 8) + 32)
      let a : Recorder :=
        { k0.2 with
          currentTime := time
          endTime := time
          startTime := if k0.2.frameCount = 0 then time else k0.2.startTime
          frameNumber := k0.2.frameCount
          frameCount := wrap32 (k0.2.frameCount + 1)
          frameSize := fsz }
      let w1 := sysWrite a (be32 a.frameSize)
      if w1.1 ≠ 4 then (-1, w1.2)
      else
        let w2 := sysWrite w1.2 (be32 a.frameNumber)
        if w2.1 ≠ 4 then (-1, w2.2)
        else
          let w3 := sysWrite w2.2 (be64 time)
          if w3.1 ≠ 8 then (-1, w3.2)
          else
            let w4 := writen w3.2 (info ++ [0]) 0
            if w4.1 = -1 then (-1, w4.2)
            else
              let w5 := writen w4.2 depths (wrap32 (count * 4))
              if w5.1 = -1 then (-1, w5.2)
              else
                let w6 := writen w5.2 colors (wrap32 (count * 4))
                if w6.1 = -1 then (-1, w6.2)
                else
                  let w7 := sysWrite w6.2 (be32 a.frameSize)
                  if w7.1 ≠ 4 then (-1, w7.2)
                  else
                    let k1 := sysSeek w7.2 12 0
                    if k1.1 = -1 then (-1, k1.2)
                    else
                      let w8 := sysWrite k1.2 (be32 a.frameCount)
                      if w8.1 ≠ 4 then (-1, w8.2)
                      else
                        let k2 := sysSeek w8.2 0 2
                        if k2.1 = -1 then (-1, k2.2) else (0, k2.2)

/-! ## Navigator -/

/-- The local array `char info[8192]` of `readFrame`.  Its initial content is
indeterminate in C; no byte of it is read back before it has been written. -/
def infoBuffer : List Byte := List.replicate 8192 0

/-- `PointCloudRecorder::readFrame`. -/
def readFrame (skip : Bool) (s : Recorder) : Int × Recorder :=
  let (b1, s1) := sysRead s 4
  if b1.length ≠ 4 then (-1, s1)
  else
    let (b2, s2) := sysRead s1 4
    if b2.length ≠ 4 then (-1, s2)
    else
      let (b3, s3) := sysRead s2 8
      if b3.length ≠ 8 then (-1, s3)
      else if skip then
        let (k, s4) := sysSeek s3 (rd32 b1 - 16) 1
        if k = -1 then (-1, s4)
        else (0, { s4 with currentTime := rd64 b3, frameSize := rd32 b1, frameNumber := rd32 b2 })
      else
        let (rc1, text, s4) := readn s3 (some infoBuffer) 8192
        if rc1 = -1 then (-1, s4)
        else
          let (rc2, dbuf, s5) := readn s4 s4.depths 0
          if rc2 = -1 then
            (-1, { s5 with depths := if s4.depths.isSome then dbuf else none })
          else
            let (rc3, cbuf, s6) := readn { s5 with depths := dbuf } s5.colors 0
            if rc3 = -1 then
              (-1, { s6 with colors := if s5.colors.isSome then cbuf else none })
            else
              let (b4, s7) := sysRead { s6 with colors := cbuf } 4
              if b4.length ≠ 4 then (-1, s7)
              else
                (0, { s7 with
                      currentTime := rd64 b3
                      frameNumber := rd32 b2
                      frameSize := rd32 b4
                      info := (text.getD []).take (strlen (text.getD [])).1
                      fault := s7.fault || (strlen (text.getD [])).2 })

/-- `PointCloudRecorder::prevFrame`. -/
def prevFrame (skip : Bool) (s : Recorder) : Int × Recorder :=
  let (k1, s1) := sysSeek s (-4) 1
  if k1 = -1 then (-1, s1)
  else
    let (b1, s2) := sysRead s1 4
    if b1.length ≠ 4 then (-1, s2)
    else if rd32 b1 = 0 then (-1, s2)
    else
      let (k2, s3) := sysSeek s2 (wrap32 (-(rd32 b1))) 1
      if k2 = -1 then (-1, s3)
      else
        let (k3, s4) := sysSeek s3 (-4) 1
        if k3 = -1 then (-1, s4)
        else
          let (b2, s5) := sysRead s4 4
          if b2.length ≠ 4 then (-1, s5)
          else if rd32 b2 = 0 then (-1, s5)
          else
            let (k4, s6) := sysSeek s5 (wrap32 (-(rd32 b2))) 1
            if k4 = -1 then (-1, s6)
            else readFrame skip s6

/-- `PointCloudRecorder::nextFrame`. -/
def nextFrame (skip : Bool) (s : Recorder) : Int × Recorder := readFrame skip s

/-- The from-start and from-end loops of `seek`: `n` hops of `hop`, skip requested
on every hop but the last. -/
def hops (hop : Bool → Recorder → Int × Recorder) : Nat → Recorder → Int × Recorder
  | 0, s => (0, s)
  | n + 1, s =>
    let r := hop (n != 0) s
    if r.1 = -1 then (-1, r.2) else hops hop n r.2

/-- The from-current loop of `seek`: in each of the `n` rounds a backward hop when
`off` is below the frame number, then a forward hop when `off` is above it. -/
def walk (off : Int) : Nat → Recorder → Int × Recorder
  | 0, s => (0, s)
  | n + 1, s =>
    let b := if off < s.frameNumber then prevFrame (n != 0) s else (0, s)
    if b.1 = -1 then (-1, b.2)
    else
      let f := if off > b.2.frameNumber then nextFrame (n != 0) b.2 else (0, b.2)
      if f.1 = -1 then (-1, f.2) else walk off n f.2

/-- The absolute target of `seek` before clamping; `none` for an unknown whence. -/
def resolve (s : Recorder) (count : Int) (whence : Int) : Option Int :=
  if whence = 0 then some count
  else if whence = 1 then some (wrap32 (s.frameNumber + count))
  else if whence = 2 then some (wrap32 (s.frameCount + count))
  else none

/-- The clamping step of `seek`. -/
def clamp (s : Recorder) (off : Int) : Int :=
  if off < 0 then 0 else if off ≥ s.frameCount then wrap32 (s.frameCount - 1) else off

/-- `PointCloudRecorder::seek`. -/
def seek (s : Recorder) (count : Int) (whence : Int) : Int × Recorder :=
  match resolve s count whence with
  | none => (-1, s)
  | some off0 =>
    let off := clamp s off0
    let off1 := off
    let off2 := wrap32 (Int.natAbs (wrap32 (s.frameNumber - off)))
    let off3 := wrap32 (s.frameCount - off)
    if off = s.frameNumber then (0, s)
    else if off1 < off2 ∧ off1 ≤ off3 then
      let k := sysSeek s 32 0
      if k.1 = -1 then (-1, k.2) else hops nextFrame (off1 + 1).toNat k.2
    else if off3 ≤ off1 ∧ off3 < off2 then
      let k := sysSeek s 0 2
      if k.1 = -1 then (-1, k.2) else hops prevFrame off3.toNat k.2
    else walk off off2.toNat s

/-- `inline int next(int count = 1) { return seek(1, 1); }` -/
def next (s : Recorder) (_count : Int) : Int × Recorder := seek s 1 1

/-- `int prev(int count = 1) { return seek(-1, 1); }` -/
def prev (s : Recorder) (_count : Int) : Int × Recorder := seek s (-1) 1

/-- `int first(void) { return seek(0, 0); }` -/
def first (s : Recorder) : Int × Recorder := seek s 0 0

/-- `int last(void) { return seek(0, 2); }` -/
def last (s : Recorder) : Int × Recorder := seek s 0 2

/-! ## Container header -/

/-- `PointCloudRecorder::open` (the path is the one the model follows).  The
descriptor handed out by the system is 3. -/
def openFile (s : Recorder) (forWrite : Bool) : Int × Recorder :=
  if 0 < s.fd then (-1, s)
  else
    let a : Recorder :=
      { s with
        fd := -1
        forWrite := forWrite
        startTime := 0
        endTime := 0
        currentTime := 0
        frameCount := 0
        frameNumber := -1
        info := []
        depths := none
        colors := none }
    if forWrite = false ∧ a.present = false then (-1, a)
    else
      let b : Recorder :=
        { a with
          fd := 3
          present := true
          storage := if forWrite then [] else a.storage
          offset := 0 }
      if forWrite then
        let w1 := sysWrite b magic
        if w1.1 ≠ 8 then (-1, w1.2)
        else
          let w2 := sysWrite w1.2 (be32 version)
          if w2.1 ≠ 4 then (-1, w2.2)
          else
            let w3 := sysWrite w2.2 (be32 0)
            if w3.1 ≠ 4 then (-1, w3.2)
            else
              let w4 := sysWrite w3.2 (be64 b.startTime)
              if w4.1 ≠ 8 then (-1, w4.2)
              else
                let w5 := sysWrite w4.2 (be64 b.endTime)
                if w5.1 ≠ 8 then (-1, w5.2) else (0, w5.2)
      else
        let (m, s1) := sysRead b 8
        if m.length ≠ 8 then (-1, s1)
        else if m ≠ magic then (-1, s1)
        else
          let (v, s2) := sysRead s1 4
          if v.length ≠ 4 then (-1, s2)
          else
            let (c, s3) := sysRead s2 4
            if c.length ≠ 4 then (-1, s3)
            else
              let (st, s4) := sysRead s3 8
              if st.length ≠ 8 then (-1, s4)
              else
                let (et, s5) := sysRead s4 8
                if et.length ≠ 8 then (-1, s5)
                else
                  first { s5 with
                          frameCount := rd32 c
                          startTime := rd64 st
                          endTime := rd64 et }

/-- `PointCloudRecorder::close`.  Failures of the header rewrite are ignored, as
in the code. -/
def close (s : Recorder) : Recorder :=
  let a : Recorder :=
    if 0 < s.fd ∧ s.forWrite = true then
      let k := sysSeek s 12 0
      if k.1 = -1 then k.2
      else
        let w1 := sysWrite k.2 (be32 s.frameCount)
        if w1.1 ≠ 4 then w1.2
        else
          let w2 := sysWrite w1.2 (be64 s.startTime)
          if w2.1 ≠ 8 then w2.2 else (sysWrite w2.2 (be64 s.endTime)).2
    else s
  { a with
    fd := -1
    forWrite := false
    frameCount := 0
    frameNumber := 0
    info := []
    depths := none
    colors := none }

def fieldLen (data : List Byte) (len : Int) : Int :=
  if len = 0 then wrap32 (strlen data).1 else len

def fieldBytes (data : List Byte) (len : Int) : List Byte :=
  be32 (fieldLen data len) ++ data.take (fieldLen data len).toNat

def frameSizeOf (info : List Byte) (count : Int) : Int :=
  wrap32 (wrap32 ((strlen (info ++ [0])).1 + count * 8) + 32)

def recordBytes (ix : Int) (time : Nat) (info : List Byte) (count : Int)
    (depths colors : List Byte) : List Byte :=
  be32 (frameSizeOf info count) ++ be32 ix ++ be64 time ++ fieldBytes (info ++ [0]) 0
    ++ fieldBytes depths (wrap32 (count * 4)) ++ fieldBytes colors (wrap32 (count * 4))
    ++ be32 (frameSizeOf info count)


/-- The 32-byte container header: `[magic:8][version:4][count:4][start-time:8][end-time:8]`. -/
def header (cnt : Int) (st et : Nat) : List Byte :=
  magic ++ (be32 version ++ (be32 cnt ++ (be64 st ++ be64 et)))

/-- The arguments of one `record` call. -/
structure Sample where
  time : Nat
  info : List Byte
  count : Int
  depths : List Byte
  colors : List Byte
deriving DecidableEq, Repr

/-- Consecutive `record` calls: the return codes in call order and the final object. -/
def recordAll (s : Recorder) : List Sample → List Int × Recorder
  | [] => ([], s)
  | f :: fs =>
    let r := record s f.time f.info f.count f.depths f.colors
    let rest := recordAll r.2 fs
    (r.1 :: rest.1, rest.2)

/-- The bytes successful `record` calls append for the samples, the first one with
index `ix`. -/
def recordsFrom (ix : Int) : List Sample → List Byte
  | [] => []
  | f :: fs => recordBytes ix f.time f.info f.count f.depths f.colors ++ recordsFrom (ix + 1) fs

/-- The fields no read-side operation assigns agree in `s` and `t`. -/
def Kept (s t : Recorder) : Prop :=
  t.fd = s.fd ∧ t.forWrite = s.forWrite ∧ t.startTime = s.startTime ∧ t.endTime = s.endTime ∧
  t.frameCount = s.frameCount ∧ t.present = s.present ∧ t.storage = s.storage ∧ t.limit = s.limit

/-- What `strlen` sees of `info.c_str()`: the string up to its first NUL byte. -/
def cstr (info : List Byte) : List Byte := info.takeWhile (fun b => b != 0)

/-- Layout of one frame record:
`[size:4][index:4][time:8][info-size:4][info][depths-size:4][depths][colors-size:4][colors][size:4]`,
the same `size` in front and at the end. -/
def encodeRecord (size ix : Int) (time : Nat) (info depths colors : List Byte) : List Byte :=
  be32 size ++ (be32 ix ++ (be64 time ++ (be32 info.length ++ (info ++ (be32 depths.length
    ++ (depths ++ (be32 colors.length ++ (colors ++ be32 size))))))))

/-- Open for write, record the samples in order, close. -/
def writeSession (s0 : Recorder) (fs : List Sample) : Recorder :=
  close (recordAll (openFile s0 true).2 fs).2

/-- The length fields `writen` computed for the sample are non-negative and the two
payloads lie inside the buffers the caller passed. -/
def Written (f : Sample) : Prop :=
  0 ≤ fieldLen (f.info ++ [0]) 0 ∧ 0 ≤ fieldLen f.depths (wrap32 (f.count * 4)) ∧
  0 ≤ fieldLen f.colors (wrap32 (f.count * 4)) ∧
  (fieldLen f.depths (wrap32 (f.count * 4))).toNat ≤ f.depths.length ∧
  (fieldLen f.colors (wrap32 (f.count * 4))).toNat ≤ f.colors.length

/-- Number of calls in a list of return codes that returned success. -/
def successes (rcs : List Int) : Nat := (rcs.filter (fun rc => rc == 0)).length

/-- The frameCount field of the header on storage (bytes 12 to 15). -/
def storedCount (s : Recorder) : Int := rd32 ((s.storage.drop 12).take 4)

/-- Three samples used to exercise the model: one and two points, short texts. -/
def sampleA : Sample := ⟨4607182418800017408, [97], 2, [63, 128, 0, 0, 64, 0, 0, 0], [0, 0, 0, 0, 1, 1, 1, 1]⟩

def sampleB : Sample := ⟨4611686018427387904, [98], 1, [64, 64, 0, 0], [2, 2, 2, 2]⟩

def sampleC : Sample := ⟨4613937818241073152, [99], 1, [64, 128, 0, 0], [3, 3, 3, 3]⟩

/-- The record a successful `record` call lays out for sample `f` under index `ix`:
the text up to its first NUL, and `4 * count` bytes of depths and of colors. -/
def sampleRecord (ix : Int) (f : Sample) : List Byte :=
  encodeRecord (frameSizeOf f.info f.count) ix f.time (cstr f.info)
    (f.depths.take (4 * f.count).toNat) (f.colors.take (4 * f.count).toNat)

/-- Concatenation of the records of the samples, indexes counting up from `ix`. -/
def layoutFrom (ix : Int) : List Sample → List Byte
  | [] => []
  | f :: fs => sampleRecord ix f ++ layoutFrom (ix + 1) fs

/-- A call with no points whose depth pointer refers to memory starting with a
non-zero byte. -/
def sampleZ : Sample := ⟨4607182418800017408, [97], 0, [7, 0], [0]⟩

/-- A record whose two size markers agree (both say 100) although the record is 41
bytes long. -/
def looseRecord : List Byte :=
  be32 100 ++ be32 0 ++ be64 4607182418800017408 ++ (be32 1 ++ [97])
    ++ (be32 4 ++ [63, 128, 0, 0]) ++ (be32 4 ++ [1, 1, 1, 1]) ++ be32 100

/-- A reader positioned at the start of `looseRecord`, the only record of a container. -/
def looseState : Recorder :=
  { fresh 1000 with
    fd := 3
    present := true
    frameCount := 1
    frameNumber := -1
    storage := header 1 4607182418800017408 4607182418800017408 ++ looseRecord
    offset := 32 }

/-- A reader positioned at the start of the first record of a two-frame container. -/
def atFirstRecord : Recorder :=
  (sysSeek (openFile (writeSession (fresh 1000) [sampleA, sampleB]) false).2 32 0).2

/-- A sample that `readFrame` takes back as it was given to `record`: a text of 1 to
8191 bytes without NUL, at least one point, buffers of `4 * count` bytes that fit the
32-bit length field, and a time that is a 64-bit pattern. -/
def Readable (f : Sample) : Prop :=
  0 < f.info.length ∧ f.info.length < 8192 ∧ 0 ∉ f.info ∧ 0 < f.count ∧ f.count < 536870912 ∧
  (f.depths.length : Int) = 4 * f.count ∧ (f.colors.length : Int) = 4 * f.count ∧
  f.time < 18446744073709551616

instance decidableReadable (f : Sample) : Decidable (Readable f) := by
  unfold Readable
  infer_instance

/-- After `first()` and `k` calls of `next()`: the return code of the last call and the
object. -/
def stepTo : Nat → Recorder → Int × Recorder
  | 0, s => first s
  | k + 1, s => next (stepTo k s).2 1

/-- The cursor is on frame `k` of the container written from `fs`: the offset is right
after record `k`, the fields of sample `k` are materialized, and the two buffers have
the size they were allocated with for the first sample `f0`. -/
def OnFrame (fs : List Sample) (f0 : Sample) (k : Nat) (s : Recorder) : Prop :=
  0 ≤ s.fd ∧ s.frameCount = fs.length ∧ s.frameNumber = k ∧ s.fault = false ∧
  s.storage.drop s.offset = layoutFrom ((k + 1 : Nat) : Int) (fs.drop (k + 1)) ∧
  (∃ db, s.depths = some db ∧ db.length = f0.depths.length) ∧
  (∃ cb, s.colors = some cb ∧ cb.length = f0.colors.length) ∧
  (∀ f, fs[k]? = some f → s.currentTime = f.time ∧ s.info = f.info ∧
    (s.depths.getD []).take f.depths.length = f.depths ∧
    (s.colors.getD []).take f.colors.length = f.colors)

/-- A sample with an empty text. -/
def sampleE : Sample := ⟨4607182418800017408, [], 1, [63, 128, 0, 0], [1, 1, 1, 1]⟩

/-- A reader on a container of three frames, as open for read leaves it. -/
def readerABC : Recorder :=
  (openFile (writeSession (fresh 1000) [sampleA, sampleB, sampleC]) false).2

/-- A reader on a container without frames, as open for read leaves it. -/
def readerEmpty : Recorder := (openFile (writeSession (fresh 1000) []) false).2

/-- A reader on a container whose second frame has more points than its first. -/
def readerBA : Recorder := (openFile (writeSession (fresh 1000) [sampleB, sampleA]) false).2

/-- An object next to a file of 32 bytes whose tag ends in `e` instead of `d`. -/
def badTagFile : Recorder :=
  { fresh 1000 with
    present := true
    storage := [80, 111, 105, 110, 116, 67, 108, 101] ++ List.replicate 24 0 }

/-- An object next to a file that holds the 8-byte tag and nothing after it. -/
def tagOnlyFile : Recorder := { fresh 1000 with present := true, storage := magic }

/-- A frame of 2^30 points: `4 * count` is 2^32, which the 32-bit length argument of
`writen` receives as 0. -/
def sampleHuge : Sample :=
  ⟨4607182418800017408, [97], 1073741824, List.replicate 4294967296 0,
    List.replicate 4294967296 0⟩

/-- The record laid out for the sample states its own length in its size markers: the
count is not negative, the buffers hold `4 * count` bytes, the length fits an `int`
and the time is a 64-bit pattern. -/
def Framed (f : Sample) : Prop :=
  0 ≤ f.count ∧ 4 * f.count ≤ f.depths.length ∧ 4 * f.count ≤ f.colors.length ∧
  ((cstr f.info).length : Int) + 8 * f.count + 32 < 2147483648 ∧
  f.time < 18446744073709551616

instance decidableFramed (f : Sample) : Decidable (Framed f) := by
  unfold Framed
  infer_instance

/-- Offset at which record `k` of the container laid out from `fs` starts; it is the
offset at which record `k - 1` ends. -/
def recordStart (fs : List Sample) (k : Nat) : Nat := 32 + (layoutFrom 0 (fs.take k)).length

/-- A reader on a container of three frames whose middle frame has an empty info,
moved to the end of storage (the end of record 2). -/
def readerBEC : Recorder :=
  (sysSeek (openFile (writeSession (fresh 1000) [sampleB, sampleE, sampleC]) false).2 0 2).2

/-- The reader `readerABC` moved to the end of storage (the end of record 2). -/
def readerABCEnd : Recorder := (sysSeek readerABC 0 2).2

/-- The reader `readerABC` after `first()` and two `next()`: the cursor is on the last
frame. -/
def readerABCLast : Recorder := (stepTo 2 readerABC).2

/-- The three traversal distances `seek` compares (`off1`, `off2`, `off3` in the code). -/
def distStart (off : Int) : Int := off

def distCurrent (frameNumber off : Int) : Int :=
  wrap32 (Int.natAbs (wrap32 (frameNumber - off)))

def distEnd (frameCount off : Int) : Int := wrap32 (frameCount - off)

/-- The four branches of `seek` after clamping. -/
inductive Strategy where
  | stay
  | fromStart
  | fromEnd
  | fromCurrent
deriving DecidableEq, Repr

/-- The branch `seek` takes for the clamped target `off`: its chain of tests. -/
def choose (frameNumber frameCount off : Int) : Strategy :=
  if off = frameNumber then Strategy.stay
  else if distStart off < distCurrent frameNumber off ∧ distStart off ≤ distEnd frameCount off
  then Strategy.fromStart
  else if distEnd frameCount off ≤ distStart off
    ∧ distEnd frameCount off < distCurrent frameNumber off
  then Strategy.fromEnd
  else Strategy.fromCurrent

/-- The distance `seek` attributes to a branch. -/
def hopDistance (frameNumber frameCount off : Int) : Strategy → Int
  | Strategy.stay => 0
  | Strategy.fromStart => distStart off
  | Strategy.fromEnd => distEnd frameCount off
  | Strategy.fromCurrent => distCurrent frameNumber off

/-- A descriptor on a storage that holds one field: length 8 and eight payload bytes. -/
def fieldFile : Recorder :=
  { fresh 1000 with
    fd := 3
    present := true
    storage := be32 8 ++ [1, 2, 3, 4, 5, 6, 7, 8] }

/-- What `seek` executes in each of its branches for the clamped target `off`. -/
def perform (s : Recorder) (off : Int) : Strategy → Int × Recorder
  | Strategy.stay => (0, s)
  | Strategy.fromStart =>
    let k := sysSeek s 32 0
    if k.1 = -1 then (-1, k.2) else hops nextFrame (distStart off + 1).toNat k.2
  | Strategy.fromEnd =>
    let k := sysSeek s 0 2
    if k.1 = -1 then (-1, k.2) else hops prevFrame (distEnd s.frameCount off).toNat k.2
  | Strategy.fromCurrent => walk off (distCurrent s.frameNumber off).toNat s

attribute [irreducible] sysRead sysWrite sysSeek readn writen rd32 rd64 wrap32

/-! ## Theorems -/

theorem be32_length (x : Int) : (be32 x).length = 4 := rfl

theorem be64_length (x : Nat) : (be64 x).length = 8 := rfl

theorem rd32_be32 (x : Int) (h1 : -2147483648 ≤ x) (h2 : x < 2147483648) :
    rd32 (be32 x) = x := by
  simp only [rd32, be32, beVal, List.foldl, wrap32]
  omega

theorem rd64_be64 (t : Nat) (h : t < 18446744073709551616) : rd64 (be64 t) = t := by
  simp only [rd64, be64, beVal, List.foldl]
  omega

theorem ite_fail {c : Prop} [Decidable c] {x : Recorder} {y : Int × Recorder} {s1 : Recorder}
    (h : (if c then ((-1 : Int), x) else y) = (0, s1)) : ¬ c ∧ y = (0, s1) := by
  by_cases hc : c
  · rw [if_pos hc] at h
    have := congrArg Prod.fst h
    simp at this
  · rw [if_neg hc] at h
    exact ⟨hc, h⟩

theorem sysWrite_inv (s : Recorder) (d : List Byte) (w : Int × Recorder)
    (hw : sysWrite s d = w) (hrc : w.1 = d.length) (hpos : s.offset ≤ s.storage.length) :
    0 ≤ s.fd ∧ w.2 = { s with
      storage := s.storage.take s.offset ++ d ++ s.storage.drop (s.offset + d.length)
      offset := s.offset + d.length } := by
  subst hw
  unfold sysWrite at hrc ⊢
  by_cases hfd : s.fd < 0
  · simp only [if_pos hfd] at hrc
    omega
  · simp only [if_neg hfd] at hrc ⊢
    refine ⟨by omega, ?_⟩
    by_cases hd : d.length = 0
    · have hd2 : d = [] := List.length_eq_zero.mp hd
      subst hd2
      simp
    · simp only [if_neg hd] at hrc ⊢
      split at hrc
      · rename_i hc
        simp only at hrc
        omega
      · rename_i hc
        simp only at hrc
        have hlen : (List.take (s.limit - s.offset) d).length = d.length := by exact_mod_cast hrc
        have htake : List.take (s.limit - s.offset) d = d := by
          apply List.take_of_length_le
          rw [List.length_take] at hlen
          omega
        rw [if_neg hc]
        simp only [htake]
        have : s.offset - s.storage.length = 0 := by omega
        simp [this]

theorem sysSeek_end (s : Recorder) (k : Int × Recorder) (hk : sysSeek s 0 2 = k) (hrc : k.1 ≠ -1) :
    0 ≤ s.fd ∧ k.2 = { s with offset := s.storage.length } := by
  subst hk
  unfold sysSeek at hrc ⊢
  by_cases hfd : s.fd < 0
  · simp [hfd] at hrc
  · have h1 : ¬ ((s.storage.length : Int) < 0) := by omega
    simp [hfd, h1]
    omega

theorem sysSeek_set (s : Recorder) (n : Int) (m : Nat) (hm : n = (m : Int))
    (hc : ¬ (sysSeek s n 0).1 = -1) : 0 ≤ s.fd ∧ (sysSeek s n 0).2 = { s with offset := m } := by
  subst hm
  unfold sysSeek at hc ⊢
  by_cases hfd : s.fd < 0
  · simp [hfd] at hc
  · have h1 : ¬ ((m : Int) < 0) := by omega
    simp [hfd, h1]
    omega

theorem sysWrite_inv_end (s : Recorder) (d : List Byte) (w : Int × Recorder)
    (hw : sysWrite s d = w) (hrc : w.1 = d.length) (hend : s.offset = s.storage.length) :
    0 ≤ s.fd ∧ w.2 = { s with
      storage := s.storage ++ d
      offset := (s.storage ++ d).length } := by
  obtain ⟨h1, h2⟩ := sysWrite_inv s d w hw hrc (by omega)
  refine ⟨h1, ?_⟩
  rw [h2, hend]
  have hd : List.drop (s.storage.length + d.length) s.storage = [] :=
    List.drop_eq_nil_of_le (by omega)
  simp [hd]

theorem sysWrite_app (s : Recorder) (d : List Byte) (n : Int) (hc : ¬ (sysWrite s d).1 ≠ n)
    (hn : (d.length : Int) = n) (hend : s.offset = s.storage.length) :
    (sysWrite s d).2 = { s with
      storage := s.storage ++ d
      offset := (s.storage ++ d).length } :=
  (sysWrite_inv_end s d _ rfl (by rw [hn]; exact not_not.mp hc) hend).2

theorem sysWrite_at (s : Recorder) (d : List Byte) (n : Int) (hc : ¬ (sysWrite s d).1 ≠ n)
    (hn : (d.length : Int) = n) (hpos : s.offset ≤ s.storage.length) :
    (sysWrite s d).2 = { s with
      storage := s.storage.take s.offset ++ d ++ s.storage.drop (s.offset + d.length)
      offset := s.offset + d.length } :=
  (sysWrite_inv s d _ rfl (by rw [hn]; exact not_not.mp hc) hpos).2

theorem sysWrite_room (s : Recorder) (d : List Byte) (n : Int) (hc : ¬ (sysWrite s d).1 ≠ n)
    (hn : (d.length : Int) = n) (hne : 0 < d.length) : s.offset + d.length ≤ s.limit := by
  have hrc : (sysWrite s d).1 = d.length := by rw [hn]; exact not_not.mp hc
  unfold sysWrite at hrc
  by_cases hfd : s.fd < 0
  · simp only [if_pos hfd] at hrc
    omega
  · simp only [if_neg hfd] at hrc
    have hd : ¬ d.length = 0 := by omega
    simp only [if_neg hd] at hrc
    split at hrc
    · simp only at hrc
      omega
    · simp only at hrc
      have hlen : (List.take (s.limit - s.offset) d).length = d.length := by exact_mod_cast hrc
      rw [List.length_take] at hlen
      omega

theorem sysWrite_fwd (s : Recorder) (d : List Byte) (hfd : 0 ≤ s.fd)
    (hroom : s.offset + d.length ≤ s.limit) (hpos : s.offset ≤ s.storage.length) :
    sysWrite s d = ((d.length : Int), { s with
      storage := s.storage.take s.offset ++ d ++ s.storage.drop (s.offset + d.length)
      offset := s.offset + d.length }) := by
  have h1 : (sysWrite s d).1 = d.length := by
    unfold sysWrite
    have hfd2 : ¬ s.fd < 0 := by omega
    simp only [if_neg hfd2]
    by_cases hd : d.length = 0
    · simp [hd]
    · simp only [if_neg hd]
      have ht : List.take (s.limit - s.offset) d = d := List.take_of_length_le (by omega)
      rw [ht]
      have : ¬ (d.length < d.length ∧ d.length = 0) := by omega
      simp [this]
  have h2 := (sysWrite_inv s d _ rfl h1 hpos).2
  exact Prod.ext h1 h2

theorem sysWrite_le (s : Recorder) (d : List Byte) : (sysWrite s d).1 ≤ d.length := by
  unfold sysWrite
  split
  · simp only; omega
  · split
    · simp only; omega
    · simp only
      split
      · simp only; omega
      · simp only [List.length_take]; omega

theorem writen_inv (s : Recorder) (data : List Byte) (len : Int) (w : Int × Recorder)
    (hw : writen s data len = w) (hrc : w.1 ≠ -1) (hend : s.offset = s.storage.length) :
    0 ≤ s.fd ∧ 0 ≤ fieldLen data len ∧
    (data.take (fieldLen data len).toNat).length = (fieldLen data len).toNat ∧
    w.2 = { s with
      storage := s.storage ++ fieldBytes data len
      offset := (s.storage ++ fieldBytes data len).length
      fault := s.fault || (decide (len = 0) && (strlen data).2) } := by
  subst hw
  unfold writen at hrc ⊢
  simp only [] at hrc ⊢
  rw [show (if len = 0 then wrap32 ((strlen data).1 : Nat) else len) = fieldLen data len from rfl]
    at hrc ⊢
  generalize hs0 : (if len = 0 then { s with fault := s.fault || (strlen data).2 } else s) = s0
    at hrc ⊢
  have hs0f : s0 = { s with fault := s.fault || (decide (len = 0) && (strlen data).2) } := by
    subst hs0
    by_cases hl : len = 0 <;> simp [hl]
  generalize hw1 : sysWrite s0 (be32 (fieldLen data len)) = w1 at hrc ⊢
  by_cases c1 : w1.1 ≠ 4
  · simp [c1] at hrc
  · simp only [if_neg c1] at hrc ⊢
    have c1x : w1.1 = ((be32 (fieldLen data len)).length : Int) := by
      rw [be32_length]; push_neg at c1; exact_mod_cast c1
    obtain ⟨hfd0, e1⟩ := sysWrite_inv_end s0 _ w1 hw1 c1x (by rw [hs0f]; simp [hend])
    by_cases c2 : fieldLen data len < 0
    · simp [c2] at hrc
    · simp only [if_neg c2] at hrc ⊢
      generalize hw2 : sysWrite _ (List.take (fieldLen data len).toNat data) = w2 at hrc ⊢
      by_cases c3 : w2.1 ≠ fieldLen data len
      · simp [c3] at hrc
      · simp only [if_neg c3] at hrc ⊢
        push_neg at c3
        have hle : w2.1 ≤ ((List.take (fieldLen data len).toNat data).length : Int) := by
          rw [← hw2]; exact sysWrite_le _ _
        rw [c3] at hle
        have hlt := List.length_take_le (fieldLen data len).toNat data
        have hpl : (List.take (fieldLen data len).toNat data).length = (fieldLen data len).toNat := by
          omega
        have c3x : w2.1 = ((List.take (fieldLen data len).toNat data).length : Int) := by
          rw [c3, hpl]; omega
        have hdl : ¬ data.length < (fieldLen data len).toNat := by
          rw [List.length_take] at hpl; omega
        obtain ⟨_, e2⟩ := sysWrite_inv_end _ _ w2 hw2 c3x (by rw [e1])
        refine ⟨by rw [hs0f] at hfd0; exact hfd0, by omega, hpl, ?_⟩
        rw [e2, e1, hs0f]
        simp [fieldBytes, hend, hdl, hpl, be32_length]

theorem record_inv (s s1 : Recorder) (time : Nat) (info : List Byte) (count : Int)
    (depths colors : List Byte) (h : record s time info count depths colors = (0, s1))
    (hhdr : 16 ≤ s.storage.length) :
    s.forWrite = true ∧ 0 ≤ s.fd ∧
    (0 ≤ fieldLen (info ++ [0]) 0 ∧ 0 ≤ fieldLen depths (wrap32 (count * 4)) ∧
      0 ≤ fieldLen colors (wrap32 (count * 4))) ∧
    ((fieldLen depths (wrap32 (count * 4))).toNat ≤ depths.length ∧
      (fieldLen colors (wrap32 (count * 4))).toNat ≤ colors.length) ∧
    s.storage.length + (recordBytes s.frameCount time info count depths colors).length ≤ s.limit ∧
    s1 = { s with
      startTime := if s.frameCount = 0 then time else s.startTime
      endTime := time
      currentTime := time
      frameNumber := s.frameCount
      frameCount := wrap32 (s.frameCount + 1)
      frameSize := frameSizeOf info count
      storage := s.storage.take 12 ++ be32 (wrap32 (s.frameCount + 1)) ++ s.storage.drop 16
        ++ recordBytes s.frameCount time info count depths colors
      offset := s.storage.length
        + (recordBytes s.frameCount time info count depths colors).length
      fault := s.fault || (decide (wrap32 (count * 4) = 0) &&
        ((strlen depths).2 || (strlen colors).2)) } := by
  unfold record at h
  replace h := ite_fail h
  obtain ⟨c0, h⟩ := h
  simp only [] at h
  replace h := ite_fail h
  obtain ⟨c1, h⟩ := h
  obtain ⟨hfd, e0⟩ := sysSeek_end s _ rfl c1
  simp only [e0] at h
  replace h := ite_fail h
  obtain ⟨c2, h⟩ := h
  have e1 := sysWrite_app _ _ _ c2 rfl rfl
  simp only [e1] at h
  replace h := ite_fail h
  obtain ⟨c3, h⟩ := h
  have e2 := sysWrite_app _ _ _ c3 rfl rfl
  simp only [e2] at h
  replace h := ite_fail h
  obtain ⟨c4, h⟩ := h
  have e3 := sysWrite_app _ _ _ c4 rfl rfl
  simp only [e3] at h
  replace h := ite_fail h
  obtain ⟨c5, h⟩ := h
  obtain ⟨-, l4, p4, e4⟩ := writen_inv _ _ _ _ rfl c5 rfl
  simp only [e4] at h
  replace h := ite_fail h
  obtain ⟨c6, h⟩ := h
  obtain ⟨-, l5, p5, e5⟩ := writen_inv _ _ _ _ rfl c6 rfl
  simp only [e5] at h
  replace h := ite_fail h
  obtain ⟨c7, h⟩ := h
  obtain ⟨-, l6, p6, e6⟩ := writen_inv _ _ _ _ rfl c7 rfl
  simp only [e6] at h
  replace h := ite_fail h
  obtain ⟨c8, h⟩ := h
  have e7 := sysWrite_app _ _ _ c8 rfl rfl
  have room := sysWrite_room _ _ _ c8 rfl (by simp [be32_length])
  simp only [e7] at h
  replace h := ite_fail h
  obtain ⟨c9, h⟩ := h
  obtain ⟨-, e8⟩ := sysSeek_set _ 12 12 rfl c9
  simp only [e8] at h
  replace h := ite_fail h
  obtain ⟨c10, h⟩ := h
  have e9 := sysWrite_at _ _ _ c10 rfl (by simp; omega)
  simp only [e9] at h
  replace h := ite_fail h
  obtain ⟨c11, h⟩ := h
  obtain ⟨-, e10⟩ := sysSeek_end _ _ rfl c11
  simp only [e10] at h
  clear e0 e1 e2 e3 e4 e5 e6 e7 e8 e9 e10 c1 c2 c3 c4 c5 c6 c7 c8 c9 c10 c11
  have hs1 := (Prod.mk.inj h).2
  clear h
  refine ⟨by simpa using c0, hfd, ⟨l4, l5, l6⟩, ⟨?_, ?_⟩, ?_, ?_⟩
  · rw [List.length_take] at p5; omega
  · rw [List.length_take] at p6; omega
  · simp only [List.length_append, be32_length, be64_length] at room
    simp only [recordBytes, frameSizeOf, List.length_append, be32_length, be64_length]
    omega
  rw [← hs1]
  have hnul : (strlen (info ++ [0])).2 = false := by simp [strlen]
  have ht : ∀ X : List Byte, List.take 12 (s.storage ++ X) = List.take 12 s.storage :=
    fun X => List.take_append_of_le_length (by omega)
  have hd : ∀ X : List Byte, List.drop 16 (s.storage ++ X) = List.drop 16 s.storage ++ X :=
    fun X => List.drop_append_of_le_length (by omega)
  simp only [List.append_assoc, ht, hd, be32_length, hnul, recordBytes, frameSizeOf,
    Recorder.mk.injEq, true_and, and_true]
  constructor
  · simp only [List.length_append, List.length_take, List.length_drop, be32_length]
    omega
  · cases s.fault <;> cases (strlen depths).2 <;> cases (strlen colors).2 <;> simp

/-- What `openFile` for write leaves behind when it reports success. -/
theorem openFile_write_inv (s w : Recorder) (h : openFile s true = (0, w)) :
    ¬ 0 < s.fd ∧ 32 ≤ s.limit ∧
    w = { s with
      fd := 3
      forWrite := true
      startTime := 0
      endTime := 0
      currentTime := 0
      frameCount := 0
      frameNumber := -1
      info := []
      depths := none
      colors := none
      present := true
      storage := header 0 0 0
      offset := 32 } := by
  unfold openFile at h
  replace h := ite_fail h
  obtain ⟨c0, h⟩ := h
  simp only [] at h
  replace h := ite_fail h
  obtain ⟨-, h⟩ := h
  simp only [if_true] at h
  replace h := ite_fail h
  obtain ⟨c1, h⟩ := h
  have e1 := sysWrite_app _ _ _ c1 rfl rfl
  simp only [e1] at h
  replace h := ite_fail h
  obtain ⟨c2, h⟩ := h
  have e2 := sysWrite_app _ _ _ c2 rfl rfl
  simp only [e2] at h
  replace h := ite_fail h
  obtain ⟨c3, h⟩ := h
  have e3 := sysWrite_app _ _ _ c3 rfl rfl
  simp only [e3] at h
  replace h := ite_fail h
  obtain ⟨c4, h⟩ := h
  have e4 := sysWrite_app _ _ _ c4 rfl rfl
  simp only [e4] at h
  replace h := ite_fail h
  obtain ⟨c5, h⟩ := h
  have e5 := sysWrite_app _ _ _ c5 rfl rfl
  have room := sysWrite_room _ _ _ c5 rfl (by decide)
  simp only [e5] at h
  have hw := (Prod.mk.inj h).2
  refine ⟨c0, ?_, ?_⟩
  · simpa using room
  · rw [← hw]
    rfl

theorem header_length (c : Int) (a b : Nat) : (header c a b).length = 32 := rfl

theorem header_take12 (c : Int) (a b : Nat) (body : List Byte) :
    List.take 12 (header c a b ++ body) = magic ++ be32 version := rfl

theorem header_drop16 (c : Int) (a b : Nat) (body : List Byte) :
    List.drop 16 (header c a b ++ body) = be64 a ++ be64 b ++ body := rfl

theorem header_patch (c d : Int) (a b : Nat) (body : List Byte) :
    List.take 12 (header c a b ++ body) ++ be32 d ++ List.drop 16 (header c a b ++ body)
      = header d a b ++ body := rfl

theorem wrap32_id (x : Int) (h1 : -2147483648 ≤ x) (h2 : x < 2147483648) : wrap32 x = x := by
  unfold wrap32; omega

theorem recordAll_inv (fs : List Sample) : ∀ (s : Recorder) (body : List Byte) (a b : Nat),
    s.storage = header s.frameCount a b ++ body → 0 ≤ s.frameCount →
    s.frameCount + fs.length < 2147483648 →
    (∀ rc ∈ (recordAll s fs).1, rc = 0) →
    (recordAll s fs).2.storage
      = header (s.frameCount + fs.length) a b ++ (body ++ recordsFrom s.frameCount fs) ∧
    (recordAll s fs).2.frameCount = s.frameCount + fs.length ∧
    (recordAll s fs).2.fd = s.fd ∧ (recordAll s fs).2.forWrite = s.forWrite ∧
    (recordAll s fs).2.limit = s.limit ∧ (recordAll s fs).2.present = s.present ∧
    (recordAll s fs).2.endTime = ((fs.getLast?).map Sample.time).getD s.endTime ∧
    (recordAll s fs).2.startTime
      = (if s.frameCount = 0 then ((fs.head?).map Sample.time).getD s.startTime else s.startTime) ∧
    (s.storage.length ≤ s.limit → (recordAll s fs).2.storage.length ≤ s.limit) ∧
    (∀ f ∈ fs, Written f) ∧
    ((∀ f ∈ fs, wrap32 (f.count * 4) ≠ 0) → (recordAll s fs).2.fault = s.fault) := by
  induction fs with
  | nil =>
    intro s body a b hst h0 hN hall
    simp [recordAll, recordsFrom, hst]
  | cons f fs ih =>
    intro s body a b hst h0 hN hall
    simp only [List.length_cons, Nat.cast_add, Nat.cast_one] at hN
    have hrc : (record s f.time f.info f.count f.depths f.colors).1 = 0 :=
      hall _ (by simp [recordAll])
    have hrec : record s f.time f.info f.count f.depths f.colors
        = (0, (record s f.time f.info f.count f.depths f.colors).2) := Prod.ext hrc rfl
    generalize (record s f.time f.info f.count f.depths f.colors).2 = s1 at hrec
    have hlen : 16 ≤ s.storage.length := by
      rw [hst, List.length_append, header_length]; omega
    obtain ⟨-, -, ⟨l4, l5, l6⟩, ⟨p5, p6⟩, hroom, e⟩ := record_inv s s1 _ _ _ _ _ hrec hlen
    have hw : wrap32 (s.frameCount + 1) = s.frameCount + 1 := wrap32_id _ (by omega) (by omega)
    have hst1 : s1.storage = header s1.frameCount a b
        ++ (body ++ recordBytes s.frameCount f.time f.info f.count f.depths f.colors) := by
      rw [e]
      simp only [hst, header_take12, header_drop16, List.append_assoc]
      rfl
    have hfc : s1.frameCount = s.frameCount + 1 := by rw [e]; exact hw
    have hall1 : ∀ rc ∈ (recordAll s1 fs).1, rc = 0 := by
      intro rc hmem
      apply hall
      simp only [recordAll, hrec, List.mem_cons]
      right; exact hmem
    obtain ⟨i1, i2, i3, i4, i5, i6, i7, i8, i9, i10, i11⟩ :=
      ih s1 _ a b hst1 (by omega) (by omega) hall1
    have hl1 : s1.limit = s.limit := by rw [e]
    have hroom1 : s1.storage.length ≤ s1.limit := by
      rw [hl1, hst1]
      rw [hst] at hroom
      simp only [List.length_append, header_length] at hroom ⊢
      omega
    have hrun : (recordAll s (f :: fs)).2 = (recordAll s1 fs).2 := by
      simp only [recordAll, hrec]
    rw [hrun]
    refine ⟨?_, ?_, ?_, ?_, ?_, ?_, ?_, ?_, ?_, ?_, ?_⟩
    rotate_right 3
    · intro _
      rw [← hl1]
      exact i9 hroom1
    · intro g hg
      rcases List.mem_cons.mp hg with rfl | hg
      · exact ⟨l4, l5, l6, p5, p6⟩
      · exact i10 g hg
    · intro hc
      rw [i11 (fun g hg => hc g (List.mem_cons_of_mem _ hg)), e]
      have := hc f (List.mem_cons_self _ _)
      simp [this]
    · rw [i1, hfc]
      simp only [recordsFrom, List.append_assoc, List.length_cons, Nat.cast_add, Nat.cast_one]
      congr 2
      omega
    · rw [i2, hfc]; simp only [List.length_cons, Nat.cast_add, Nat.cast_one]; omega
    · rw [i3, e]
    · rw [i4, e]
    · rw [i5, e]
    · rw [i6, e]
    · rw [i7, e]
      cases fs with
      | nil => simp
      | cons g gs =>
        cases hl : (g :: gs).getLast? with
        | none => simp at hl
        | some x => simp [List.getLast?_cons_cons, hl]
    · rw [i8, hfc, e]
      have : ¬ (s.frameCount + 1 = 0) := by omega
      simp [this]

theorem sysSeek_fwd0 (s : Recorder) (n : Int) (hfd : 0 ≤ s.fd) (hn : 0 ≤ n) :
    sysSeek s n 0 = (n, { s with offset := n.toNat }) := by
  unfold sysSeek
  have h1 : ¬ s.fd < 0 := by omega
  have h2 : ¬ n < 0 := by omega
  simp [h1, h2]

theorem sysSeek_fwd1 (s : Recorder) (n : Int) (hfd : 0 ≤ s.fd) (hn : 0 ≤ (s.offset : Int) + n) :
    sysSeek s n 1 = ((s.offset : Int) + n, { s with offset := ((s.offset : Int) + n).toNat }) := by
  unfold sysSeek
  have h1 : ¬ s.fd < 0 := by omega
  have h2 : ¬ ((s.offset : Int) + n < 0) := by omega
  simp [h1, h2]

theorem close_write (s : Recorder) (c : Int) (a b : Nat) (body : List Byte) (hfd : 0 < s.fd)
    (hw : s.forWrite = true) (hst : s.storage = header c a b ++ body)
    (hroom : s.storage.length ≤ s.limit) :
    close s = { s with
      fd := -1
      forWrite := false
      frameCount := 0
      frameNumber := 0
      info := []
      depths := none
      colors := none
      storage := header s.frameCount s.startTime s.endTime ++ body
      offset := 32 } := by
  have hlen : s.storage.length = 32 + body.length := by
    rw [hst, List.length_append, header_length]
  unfold close
  simp only [hfd, hw, and_self, if_true]
  rw [sysSeek_fwd0 s 12 (by omega) (by omega)]
  simp only [Int.reduceNeg, Int.reduceEq, if_false]
  rw [sysWrite_fwd _ _ (by simp only; omega) (by simp [be32_length]; omega) (by simp; omega)]
  simp only [be32_length, Nat.cast_ofNat, ne_eq, not_true_eq_false, if_false]
  rw [sysWrite_fwd _ _ (by simp only; omega) (by simp [be64_length, be32_length]; omega)
    (by simp [be32_length]; omega)]
  simp only [be64_length, Nat.cast_ofNat, ne_eq, not_true_eq_false, if_false]
  rw [sysWrite_fwd _ _ (by simp only; omega) (by simp [be64_length, be32_length]; omega)
    (by simp [be32_length, be64_length]; omega)]
  simp only [hst, be32_length, be64_length, Int.toNat_ofNat]
  rfl

theorem Kept.refl (s : Recorder) : Kept s s := by simp [Kept]

theorem Kept.trans {s t u : Recorder} (h1 : Kept s t) (h2 : Kept t u) : Kept s u := by
  simp only [Kept] at *
  obtain ⟨a1, a2, a3, a4, a5, a6, a7, a8⟩ := h1
  obtain ⟨b1, b2, b3, b4, b5, b6, b7, b8⟩ := h2
  exact ⟨b1.trans a1, b2.trans a2, b3.trans a3, b4.trans a4, b5.trans a5, b6.trans a6,
    b7.trans a7, b8.trans a8⟩

theorem sysRead_kept (s : Recorder) (n : Nat) : Kept s (sysRead s n).2 := by
  unfold sysRead Kept; split <;> simp

theorem sysSeek_kept (s : Recorder) (off w : Int) : Kept s (sysSeek s off w).2 := by
  unfold sysSeek Kept; simp only []; split_ifs <;> simp

@[simp] theorem sysRead_fd (s : Recorder) (n : Nat) : (sysRead s n).2.fd = s.fd :=
  (sysRead_kept s n).1

@[simp] theorem sysRead_forWrite (s : Recorder) (n : Nat) : (sysRead s n).2.forWrite = s.forWrite :=
  (sysRead_kept s n).2.1

@[simp] theorem sysRead_startTime (s : Recorder) (n : Nat) : (sysRead s n).2.startTime = s.startTime :=
  (sysRead_kept s n).2.2.1

@[simp] theorem sysRead_endTime (s : Recorder) (n : Nat) : (sysRead s n).2.endTime = s.endTime :=
  (sysRead_kept s n).2.2.2.1

@[simp] theorem sysRead_frameCount (s : Recorder) (n : Nat) : (sysRead s n).2.frameCount = s.frameCount :=
  (sysRead_kept s n).2.2.2.2.1

@[simp] theorem sysRead_present (s : Recorder) (n : Nat) : (sysRead s n).2.present = s.present :=
  (sysRead_kept s n).2.2.2.2.2.1

@[simp] theorem sysRead_storage (s : Recorder) (n : Nat) : (sysRead s n).2.storage = s.storage :=
  (sysRead_kept s n).2.2.2.2.2.2.1

@[simp] theorem sysRead_limit (s : Recorder) (n : Nat) : (sysRead s n).2.limit = s.limit :=
  (sysRead_kept s n).2.2.2.2.2.2.2

@[simp] theorem sysSeek_fd (s : Recorder) (off w : Int) :
    (sysSeek s off w).2.fd = s.fd :=
  (sysSeek_kept s off w).1

@[simp] theorem sysSeek_forWrite (s : Recorder) (off w : Int) :
    (sysSeek s off w).2.forWrite = s.forWrite :=
  (sysSeek_kept s off w).2.1

@[simp] theorem sysSeek_startTime (s : Recorder) (off w : Int) :
    (sysSeek s off w).2.startTime = s.startTime :=
  (sysSeek_kept s off w).2.2.1

@[simp] theorem sysSeek_endTime (s : Recorder) (off w : Int) :
    (sysSeek s off w).2.endTime = s.endTime :=
  (sysSeek_kept s off w).2.2.2.1

@[simp] theorem sysSeek_frameCount (s : Recorder) (off w : Int) :
    (sysSeek s off w).2.frameCount = s.frameCount :=
  (sysSeek_kept s off w).2.2.2.2.1

@[simp] theorem sysSeek_present (s : Recorder) (off w : Int) :
    (sysSeek s off w).2.present = s.present :=
  (sysSeek_kept s off w).2.2.2.2.2.1

@[simp] theorem sysSeek_storage (s : Recorder) (off w : Int) :
    (sysSeek s off w).2.storage = s.storage :=
  (sysSeek_kept s off w).2.2.2.2.2.2.1

@[simp] theorem sysSeek_limit (s : Recorder) (off w : Int) :
    (sysSeek s off w).2.limit = s.limit :=
  (sysSeek_kept s off w).2.2.2.2.2.2.2

theorem readn_kept (s : Recorder) (data : Option (List Byte)) (size : Int) :
    Kept s (readn s data size).2.2 := by
  unfold readn Kept; simp only []; split_ifs <;> simp

@[simp] theorem readn_fd (s : Recorder) (data : Option (List Byte)) (size : Int) :
    (readn s data size).2.2.fd = s.fd :=
  (readn_kept s data size).1

@[simp] theorem readn_forWrite (s : Recorder) (data : Option (List Byte)) (size : Int) :
    (readn s data size).2.2.forWrite = s.forWrite :=
  (readn_kept s data size).2.1

@[simp] theorem readn_startTime (s : Recorder) (data : Option (List Byte)) (size : Int) :
    (readn s data size).2.2.startTime = s.startTime :=
  (readn_kept s data size).2.2.1

@[simp] theorem readn_endTime (s : Recorder) (data : Option (List Byte)) (size : Int) :
    (readn s data size).2.2.endTime = s.endTime :=
  (readn_kept s data size).2.2.2.1

@[simp] theorem readn_frameCount (s : Recorder) (data : Option (List Byte)) (size : Int) :
    (readn s data size).2.2.frameCount = s.frameCount :=
  (readn_kept s data size).2.2.2.2.1

@[simp] theorem readn_present (s : Recorder) (data : Option (List Byte)) (size : Int) :
    (readn s data size).2.2.present = s.present :=
  (readn_kept s data size).2.2.2.2.2.1

@[simp] theorem readn_storage (s : Recorder) (data : Option (List Byte)) (size : Int) :
    (readn s data size).2.2.storage = s.storage :=
  (readn_kept s data size).2.2.2.2.2.2.1

@[simp] theorem readn_limit (s : Recorder) (data : Option (List Byte)) (size : Int) :
    (readn s data size).2.2.limit = s.limit :=
  (readn_kept s data size).2.2.2.2.2.2.2

theorem ite_kept {s : Recorder} {c : Prop} [Decidable c] {x y : Int × Recorder}
    (hx : Kept s x.2) (hy : Kept s y.2) : Kept s (if c then x else y).2 := by
  split
  · exact hx
  · exact hy

theorem readFrame_kept (skip : Bool) (s : Recorder) : Kept s (readFrame skip s).2 := by
  unfold readFrame
  rcases h1 : sysRead s 4 with ⟨b1, s1⟩
  have k1 : Kept s s1 := by have := sysRead_kept s 4; rwa [h1] at this
  dsimp only []
  refine ite_kept k1 ?_
  rcases h2 : sysRead s1 4 with ⟨b2, s2⟩
  have k2 : Kept s s2 := by have := sysRead_kept s1 4; rw [h2] at this; exact k1.trans this
  dsimp only []
  refine ite_kept k2 ?_
  rcases h3 : sysRead s2 8 with ⟨b3, s3⟩
  have k3 : Kept s s3 := by have := sysRead_kept s2 8; rw [h3] at this; exact k2.trans this
  dsimp only []
  refine ite_kept k3 (ite_kept ?_ ?_)
  · rcases h4 : sysSeek s3 (rd32 b1 - 16) 1 with ⟨k, s4⟩
    have k4 : Kept s s4 := by
      have := sysSeek_kept s3 (rd32 b1 - 16) 1; rw [h4] at this; exact k3.trans this
    dsimp only []
    refine ite_kept k4 ?_
    exact k4
  · rcases h4 : readn s3 (some infoBuffer) 8192 with ⟨rc1, text, s4⟩
    have k4 : Kept s s4 := by
      have := readn_kept s3 (some infoBuffer) 8192; rw [h4] at this; exact k3.trans this
    dsimp only []
    refine ite_kept k4 ?_
    rcases h5 : readn s4 s4.depths 0 with ⟨rc2, dbuf, s5⟩
    have k5 : Kept s s5 := by
      have := readn_kept s4 s4.depths 0; rw [h5] at this; exact k4.trans this
    dsimp only []
    refine ite_kept k5 ?_
    rcases h6 : readn { s5 with depths := dbuf } s5.colors 0 with ⟨rc3, cbuf, s6⟩
    have k6 : Kept s s6 := by
      have := readn_kept { s5 with depths := dbuf } s5.colors 0; rw [h6] at this
      exact k5.trans this
    dsimp only []
    refine ite_kept k6 ?_
    rcases h7 : sysRead { s6 with colors := cbuf } 4 with ⟨b4, s7⟩
    have k7 : Kept s s7 := by
      have := sysRead_kept { s6 with colors := cbuf } 4; rw [h7] at this
      exact k6.trans this
    dsimp only []
    exact ite_kept k7 k7

@[simp] theorem readFrame_fd (skip : Bool) (s : Recorder) :
    (readFrame skip s).2.fd = s.fd :=
  (readFrame_kept skip s).1

@[simp] theorem readFrame_forWrite (skip : Bool) (s : Recorder) :
    (readFrame skip s).2.forWrite = s.forWrite :=
  (readFrame_kept skip s).2.1

@[simp] theorem readFrame_startTime (skip : Bool) (s : Recorder) :
    (readFrame skip s).2.startTime = s.startTime :=
  (readFrame_kept skip s).2.2.1

@[simp] theorem readFrame_endTime (skip : Bool) (s : Recorder) :
    (readFrame skip s).2.endTime = s.endTime :=
  (readFrame_kept skip s).2.2.2.1

@[simp] theorem readFrame_frameCount (skip : Bool) (s : Recorder) :
    (readFrame skip s).2.frameCount = s.frameCount :=
  (readFrame_kept skip s).2.2.2.2.1

@[simp] theorem readFrame_present (skip : Bool) (s : Recorder) :
    (readFrame skip s).2.present = s.present :=
  (readFrame_kept skip s).2.2.2.2.2.1

@[simp] theorem readFrame_storage (skip : Bool) (s : Recorder) :
    (readFrame skip s).2.storage = s.storage :=
  (readFrame_kept skip s).2.2.2.2.2.2.1

@[simp] theorem readFrame_limit (skip : Bool) (s : Recorder) :
    (readFrame skip s).2.limit = s.limit :=
  (readFrame_kept skip s).2.2.2.2.2.2.2

theorem prevFrame_kept (skip : Bool) (s : Recorder) : Kept s (prevFrame skip s).2 := by
  unfold prevFrame
  rcases h1 : sysSeek s (-4) 1 with ⟨k1, s1⟩
  have q1 : Kept s s1 := by have := sysSeek_kept s (-4) 1; rwa [h1] at this
  dsimp only []
  refine ite_kept q1 ?_
  rcases h2 : sysRead s1 4 with ⟨b1, s2⟩
  have q2 : Kept s s2 := by have := sysRead_kept s1 4; rw [h2] at this; exact q1.trans this
  dsimp only []
  refine ite_kept q2 (ite_kept q2 ?_)
  rcases h3 : sysSeek s2 (wrap32 (-(rd32 b1))) 1 with ⟨k2, s3⟩
  have q3 : Kept s s3 := by
    have := sysSeek_kept s2 (wrap32 (-(rd32 b1))) 1; rw [h3] at this; exact q2.trans this
  dsimp only []
  refine ite_kept q3 ?_
  rcases h4 : sysSeek s3 (-4) 1 with ⟨k3, s4⟩
  have q4 : Kept s s4 := by have := sysSeek_kept s3 (-4) 1; rw [h4] at this; exact q3.trans this
  dsimp only []
  refine ite_kept q4 ?_
  rcases h5 : sysRead s4 4 with ⟨b2, s5⟩
  have q5 : Kept s s5 := by have := sysRead_kept s4 4; rw [h5] at this; exact q4.trans this
  dsimp only []
  refine ite_kept q5 (ite_kept q5 ?_)
  rcases h6 : sysSeek s5 (wrap32 (-(rd32 b2))) 1 with ⟨k4, s6⟩
  have q6 : Kept s s6 := by
    have := sysSeek_kept s5 (wrap32 (-(rd32 b2))) 1; rw [h6] at this; exact q5.trans this
  dsimp only []
  refine ite_kept q6 ?_
  exact q6.trans (readFrame_kept _ _)

theorem hops_kept (hop : Bool → Recorder → Int × Recorder)
    (hk : ∀ b s, Kept s (hop b s).2) : ∀ (n : Nat) (s : Recorder), Kept s (hops hop n s).2 := by
  intro n
  induction n with
  | zero => intro s; exact Kept.refl s
  | succ n ih =>
    intro s
    simp only [hops]
    apply ite_kept
    · exact hk _ _
    · exact Kept.trans (hk _ _) (ih _)

theorem walk_kept (off : Int) : ∀ (n : Nat) (s : Recorder), Kept s (walk off n s).2 := by
  intro n
  induction n with
  | zero => intro s; exact Kept.refl s
  | succ n ih =>
    intro s
    simp only [walk]
    generalize hb : (if off < s.frameNumber then prevFrame (n != 0) s else (0, s)) = b
    have kb : Kept s b.2 := by
      rw [← hb]
      apply ite_kept
      · exact prevFrame_kept _ _
      · exact Kept.refl s
    generalize hf : (if off > b.2.frameNumber then nextFrame (n != 0) b.2 else (0, b.2)) = f
    have kf : Kept s f.2 := by
      rw [← hf]
      apply ite_kept
      · exact Kept.trans kb (readFrame_kept _ _)
      · exact kb
    apply ite_kept
    · exact kb
    · apply ite_kept
      · exact kf
      · exact Kept.trans kf (ih _)

theorem seek_kept (s : Recorder) (count whence : Int) : Kept s (seek s count whence).2 := by
  unfold seek
  split
  · exact Kept.refl s
  · simp only []
    apply ite_kept
    · exact Kept.refl s
    · apply ite_kept
      · apply ite_kept
        · simp [Kept]
        · refine Kept.trans ?_ (hops_kept _ (fun b t => readFrame_kept b t) _ _)
          simp [Kept]
      · apply ite_kept
        · apply ite_kept
          · simp [Kept]
          · refine Kept.trans ?_ (hops_kept _ prevFrame_kept _ _)
            simp [Kept]
        · exact walk_kept _ _ _

theorem sysRead_fwd (s : Recorder) (n : Nat) (chunk rest : List Byte) (hfd : 0 ≤ s.fd)
    (h : s.storage.drop s.offset = chunk ++ rest) (hn : chunk.length = n) :
    sysRead s n = (chunk, { s with offset := s.offset + n }) := by
  unfold sysRead
  have h1 : ¬ s.fd < 0 := by omega
  simp only [if_neg h1, h]
  subst hn
  simp

theorem openFile_read_eq (s : Recorder) (c : Int) (a b : Nat) (body : List Byte)
    (hfd : ¬ 0 < s.fd) (hp : s.present = true) (hst : s.storage = header c a b ++ body) :
    openFile s false = first { s with
      fd := 3
      forWrite := false
      startTime := rd64 (be64 a)
      endTime := rd64 (be64 b)
      currentTime := 0
      frameCount := rd32 (be32 c)
      frameNumber := -1
      info := []
      depths := none
      colors := none
      offset := 32 } := by
  unfold openFile
  simp only [if_neg hfd, hp]
  simp only [Bool.true_eq_false, and_false, if_false, Bool.false_eq_true]
  rw [sysRead_fwd _ 8 magic (be32 version ++ (be32 c ++ (be64 a ++ be64 b)) ++ body)
    (by simp) (by simp only [hst]; rfl) rfl]
  dsimp only []
  simp only [show magic.length = 8 from rfl, ne_eq, not_true_eq_false, if_false]
  rw [sysRead_fwd _ 4 (be32 version) ((be32 c ++ (be64 a ++ be64 b)) ++ body)
    (by simp) (by simp only [hst]; rfl) rfl]
  dsimp only []
  simp only [be32_length, ne_eq, not_true_eq_false, if_false]
  rw [sysRead_fwd _ 4 (be32 c) ((be64 a ++ be64 b) ++ body)
    (by simp) (by simp only [hst]; rfl) rfl]
  dsimp only []
  simp only [be32_length, ne_eq, not_true_eq_false, if_false]
  rw [sysRead_fwd _ 8 (be64 a) (be64 b ++ body)
    (by simp) (by simp only [hst]; rfl) rfl]
  dsimp only []
  simp only [be64_length, ne_eq, not_true_eq_false, if_false]
  rw [sysRead_fwd _ 8 (be64 b) body
    (by simp) (by simp only [hst]; rfl) rfl]
  dsimp only []
  simp only [be64_length, ne_eq, not_true_eq_false, if_false]

theorem takeWhile_snoc_nul (info : List Byte) :
    (info ++ [0]).takeWhile (fun b => b != 0) = cstr info := by
  induction info with
  | nil => simp [cstr]
  | cons x xs ih =>
    simp only [cstr] at ih
    by_cases hx : x = 0
    · simp [cstr, hx]
    · simp [cstr, hx, List.takeWhile_cons, ih]

theorem strlen_cstr (info : List Byte) : (strlen (info ++ [0])).1 = (cstr info).length := by
  simp only [strlen, takeWhile_snoc_nul]

theorem take_cstr (info : List Byte) : (info ++ [0]).take (cstr info).length = cstr info := by
  induction info with
  | nil => simp [cstr]
  | cons x xs ih =>
    simp only [cstr] at ih
    by_cases hx : x = 0
    · simp [cstr, hx]
    · simp [cstr, hx, List.takeWhile_cons, ih]

theorem cstr_length_le (info : List Byte) : (cstr info).length ≤ info.length := by
  unfold cstr
  exact (List.takeWhile_sublist _).length_le

/-- State after a successful write session, up to the fields the claims speak of. -/
theorem writeSession_inv (s0 : Recorder) (fs : List Sample) (hopen : (openFile s0 true).1 = 0)
    (hall : ∀ rc ∈ (recordAll (openFile s0 true).2 fs).1, rc = 0)
    (hN : fs.length < 2147483648) :
    (writeSession s0 fs).storage
      = header fs.length (((fs.head?).map Sample.time).getD 0)
          (((fs.getLast?).map Sample.time).getD 0) ++ recordsFrom 0 fs ∧
    (writeSession s0 fs).fd = -1 ∧ (writeSession s0 fs).present = true ∧
    (recordAll (openFile s0 true).2 fs).2.storage
      = header fs.length 0 0 ++ recordsFrom 0 fs ∧
    (recordAll (openFile s0 true).2 fs).2.frameCount = fs.length ∧
    (∀ f ∈ fs, Written f) ∧
    ((∀ f ∈ fs, wrap32 (f.count * 4) ≠ 0) → (writeSession s0 fs).fault = s0.fault) := by
  have ho : openFile s0 true = (0, (openFile s0 true).2) := Prod.ext hopen rfl
  generalize (openFile s0 true).2 = w at ho hall ⊢
  obtain ⟨-, hlim, hw⟩ := openFile_write_inv s0 w ho
  have hwst : w.storage = header w.frameCount 0 0 ++ [] := by rw [hw]; rfl
  have hwfc : w.frameCount = 0 := by rw [hw]
  obtain ⟨i1, i2, i3, i4, i5, i6, i7, i8, i9, i10, i11⟩ :=
    recordAll_inv fs w [] 0 0 hwst (by omega) (by omega) hall
  have hwl : w.storage.length ≤ w.limit := by
    rw [hw]; simpa [header_length] using hlim
  have hcl := close_write (recordAll w fs).2 _ 0 0 _ (by rw [i3, hw]; simp)
    (by rw [i4, hw]) i1 (by rw [i5]; exact i9 hwl)
  unfold writeSession
  rw [ho]
  simp only [hcl, i2, i7, i8, hwfc, i6]
  refine ⟨?_, trivial, ?_, ?_, ?_, i10, ?_⟩
  · simp [hw]
  · rw [hw]
  · rw [i1, hwfc]; simp
  · simp
  · intro hc
    rw [i11 hc, hw]

theorem sampleRecord_eq (ix : Int) (f : Sample) (hw : Written f) (hc1 : 0 < f.count)
    (hc2 : f.count < 536870912) (hi : f.info.length < 2147483648) :
    recordBytes ix f.time f.info f.count f.depths f.colors = sampleRecord ix f ∧
    ((f.depths.take (4 * f.count).toNat).length : Int) = 4 * f.count ∧
    ((f.colors.take (4 * f.count).toNat).length : Int) = 4 * f.count := by
  obtain ⟨-, -, -, p5, p6⟩ := hw
  have hcl := cstr_length_le f.info
  have hw4 : wrap32 (f.count * 4) = 4 * f.count := by unfold wrap32; omega
  have hne : ¬ (4 * f.count = 0) := by omega
  have hfi : fieldLen (f.info ++ [0]) 0 = (cstr f.info).length := by
    simp only [fieldLen, if_true, strlen_cstr]
    exact wrap32_id _ (by omega) (by omega)
  have hfd : fieldLen f.depths (wrap32 (f.count * 4)) = 4 * f.count := by
    simp only [fieldLen, hw4, if_neg hne]
  have hfc : fieldLen f.colors (wrap32 (f.count * 4)) = 4 * f.count := by
    simp only [fieldLen, hw4, if_neg hne]
  rw [hfd] at p5
  rw [hfc] at p6
  have ld : (f.depths.take (4 * f.count).toNat).length = (4 * f.count).toNat := by
    rw [List.length_take]; omega
  have lc : (f.colors.take (4 * f.count).toNat).length = (4 * f.count).toNat := by
    rw [List.length_take]; omega
  refine ⟨?_, by rw [ld]; omega, by rw [lc]; omega⟩
  have e1 : (((cstr f.info).length : Nat) : Int).toNat = (cstr f.info).length := by omega
  have e2 : (((f.depths.take (4 * f.count).toNat).length : Nat) : Int) = 4 * f.count := by
    rw [ld]; omega
  have e3 : (((f.colors.take (4 * f.count).toNat).length : Nat) : Int) = 4 * f.count := by
    rw [lc]; omega
  simp only [recordBytes, sampleRecord, encodeRecord, fieldBytes, hfi, hfd, hfc, e1, e2, e3,
    take_cstr, List.append_assoc]

theorem layoutFrom_eq (fs : List Sample) : ∀ (ix : Int), (∀ f ∈ fs, Written f) →
    (∀ f ∈ fs, 0 < f.count ∧ f.count < 536870912 ∧ f.info.length < 2147483648) →
    recordsFrom ix fs = layoutFrom ix fs := by
  induction fs with
  | nil => intro ix _ _; rfl
  | cons f fs ih =>
    intro ix hw hv
    obtain ⟨c1, c2, c3⟩ := hv f (List.mem_cons_self _ _)
    simp only [recordsFrom, layoutFrom]
    rw [(sampleRecord_eq ix f (hw f (List.mem_cons_self _ _)) c1 c2 c3).1,
      ih (ix + 1) (fun g hg => hw g (List.mem_cons_of_mem _ hg))
        (fun g hg => hv g (List.mem_cons_of_mem _ hg))]

theorem getElem?_patch (A X Y C R : List Byte) (i : Nat) (hxy : X.length = Y.length)
    (hi : i < A.length ∨ A.length + X.length ≤ i) (hlt : i < (A ++ X ++ C).length) :
    (A ++ Y ++ C ++ R)[i]? = (A ++ X ++ C)[i]? := by
  simp only [List.length_append] at hlt
  rcases hi with h | h
  · rw [List.append_assoc, List.append_assoc, List.getElem?_append_left h,
      List.append_assoc, List.getElem?_append_left h]
  · rw [List.getElem?_append_left (by simp only [List.length_append]; omega),
      List.getElem?_append_right (by simp only [List.length_append]; omega),
      List.getElem?_append_right (by simp only [List.length_append]; omega)]
    simp only [List.length_append, hxy]

theorem split_at_count (st : List Byte) :
    st = List.take 12 st ++ List.take 4 (List.drop 12 st) ++ List.drop 16 st := by
  have h1 : List.drop 16 st = List.drop 4 (List.drop 12 st) := by
    rw [List.drop_drop]
  rw [h1, List.append_assoc, List.take_append_drop, List.take_append_drop]

theorem all_zero {rcs : List Int} {n : Nat} (h : rcs = List.replicate n 0) :
    ∀ rc ∈ rcs, rc = 0 := by
  intro rc hrc
  rw [h] at hrc
  exact List.eq_of_mem_replicate hrc

/-! ## C6 -/

set_option maxRecDepth 100000 in
/-- C6, counterexample: on a storage device of 100 bytes the first `record` call
succeeds and the second fails for lack of room, yet after `close` the header holds
frameCount 2, and so does the object after opening for read: the failed call is
counted. -/
theorem frameCount_counts_failed_record :
    (openFile (fresh 100) true).1 = 0 ∧
    (recordAll (openFile (fresh 100) true).2 [sampleA, sampleB]).1 = [0, -1] ∧
    successes (recordAll (openFile (fresh 100) true).2 [sampleA, sampleB]).1 = 1 ∧
    storedCount (writeSession (fresh 100) [sampleA, sampleB]) = 2 ∧
    (openFile (writeSession (fresh 100) [sampleA, sampleB]) false).2.frameCount = 2 := by
  with_unfolding_all decide

/-- C6 (amended): after open for write, `record` calls that all return success, and
close, the frameCount stored in the header, and the frameCount obtained by opening
the container for read, equal the number of `record` calls. -/
theorem frameCount_after_successful_session (s0 : Recorder) (fs : List Sample)
    (hopen : (openFile s0 true).1 = 0)
    (hall : (recordAll (openFile s0 true).2 fs).1 = List.replicate fs.length 0)
    (hN : fs.length < 2147483648) :
    storedCount (writeSession s0 fs) = fs.length ∧
    (openFile (writeSession s0 fs) false).2.frameCount = fs.length := by
  obtain ⟨hst, hfd, hp, -, -⟩ := writeSession_inv s0 fs hopen (all_zero hall) hN
  have hrd : rd32 (be32 (fs.length : Int)) = fs.length := rd32_be32 _ (by omega) (by omega)
  constructor
  · unfold storedCount
    rw [hst]
    exact hrd
  · rw [openFile_read_eq _ _ _ _ _ (by rw [hfd]; decide) hp hst]
    have hk := seek_kept
      { writeSession s0 fs with
        fd := 3
        forWrite := false
        startTime := rd64 (be64 (((fs.head?).map Sample.time).getD 0))
        endTime := rd64 (be64 (((fs.getLast?).map Sample.time).getD 0))
        currentTime := 0
        frameCount := rd32 (be32 (fs.length : Int))
        frameNumber := -1
        info := []
        depths := none
        colors := none
        offset := 32 } 0 0
    unfold first
    rw [hk.2.2.2.2.1]
    exact hrd

set_option maxRecDepth 100000 in
/-- C6, witness: two successful calls on a device with room. -/
theorem frameCount_after_successful_session_witness :
    ((openFile (fresh 1000) true).1 = 0 ∧
      (recordAll (openFile (fresh 1000) true).2 [sampleA, sampleB]).1
        = List.replicate [sampleA, sampleB].length 0 ∧
      [sampleA, sampleB].length < 2147483648) ∧
    storedCount (writeSession (fresh 1000) [sampleA, sampleB]) = [sampleA, sampleB].length ∧
    (openFile (writeSession (fresh 1000) [sampleA, sampleB]) false).2.frameCount
      = [sampleA, sampleB].length :=
  ⟨⟨by with_unfolding_all decide, by with_unfolding_all decide, by decide⟩,
    frameCount_after_successful_session (fresh 1000) [sampleA, sampleB]
      (by with_unfolding_all decide) (by with_unfolding_all decide) (by decide)⟩

/-! ## C8 -/

set_option maxRecDepth 100000 in
/-- C8, counterexample: a `record` call with count 0 whose depth pointer refers to
memory starting with a non-zero byte succeeds, and the depths-size field it wrote
(bytes 53 to 56 of storage) says 1, not `4 * count = 0`: `writen` takes a length of 0
as a request to measure the data with `strlen`. -/
theorem record_without_points_field_size :
    (openFile (fresh 1000) true).1 = 0 ∧
    (recordAll (openFile (fresh 1000) true).2 [sampleZ]).1 = [0] ∧
    (recordAll (openFile (fresh 1000) true).2 [sampleZ]).2.fault = false ∧
    4 * sampleZ.count = 0 ∧
    rd32 (((recordAll (openFile (fresh 1000) true).2 [sampleZ]).2.storage.drop 53).take 4) = 1 := by
  with_unfolding_all decide

/-- C8 (amended): after open for write and successful `record` calls for samples with
`1 ≤ count < 2^29` (so that `4 * count` fits the 32-bit length field) and texts shorter
than `2^31`, frameCount is the number of calls and the storage after the 32-byte header
is exactly the concatenation of the records of the samples: record `k` carries index
`k`, the same size in front and at the end, and a depths field and a colors field of
`4 * count` bytes each. -/
theorem storage_is_record_sequence (s0 : Recorder) (fs : List Sample)
    (hopen : (openFile s0 true).1 = 0)
    (hall : (recordAll (openFile s0 true).2 fs).1 = List.replicate fs.length 0)
    (hN : fs.length < 2147483648)
    (hv : ∀ f ∈ fs, 0 < f.count ∧ f.count < 536870912 ∧ f.info.length < 2147483648) :
    (recordAll (openFile s0 true).2 fs).2.frameCount = fs.length ∧
    (recordAll (openFile s0 true).2 fs).2.storage.take 32 = header fs.length 0 0 ∧
    (recordAll (openFile s0 true).2 fs).2.storage.drop 32 = layoutFrom 0 fs ∧
    ∀ f ∈ fs, ((f.depths.take (4 * f.count).toNat).length : Int) = 4 * f.count ∧
      ((f.colors.take (4 * f.count).toNat).length : Int) = 4 * f.count := by
  replace hall := all_zero hall
  obtain ⟨-, -, -, hst, hfc, -, -⟩ := writeSession_inv s0 fs hopen hall hN
  have ho : openFile s0 true = (0, (openFile s0 true).2) := Prod.ext hopen rfl
  generalize (openFile s0 true).2 = w at ho hall hst hfc ⊢
  obtain ⟨-, -, hw⟩ := openFile_write_inv s0 w ho
  have hwst : w.storage = header w.frameCount 0 0 ++ [] := by rw [hw]; rfl
  obtain ⟨-, -, -, -, -, -, -, -, -, hwr, -⟩ :=
    recordAll_inv fs w [] 0 0 hwst (by rw [hw])
      (by rw [hw]; simp only [zero_add]; omega) hall
  refine ⟨hfc, ?_, ?_, ?_⟩
  · rw [hst]
    exact List.take_left' (header_length _ _ _)
  · rw [hst, ← layoutFrom_eq fs 0 hwr hv]
    exact List.drop_left' (header_length _ _ _)
  · intro f hf
    obtain ⟨c1, c2, c3⟩ := hv f hf
    exact (sampleRecord_eq 0 f (hwr f hf) c1 c2 c3).2

set_option maxRecDepth 100000 in
/-- C8, witness: two samples. -/
theorem storage_is_record_sequence_witness :
    ((openFile (fresh 1000) true).1 = 0 ∧
      (recordAll (openFile (fresh 1000) true).2 [sampleA, sampleB]).1
        = List.replicate [sampleA, sampleB].length 0 ∧
      [sampleA, sampleB].length < 2147483648 ∧
      ∀ f ∈ [sampleA, sampleB],
        0 < f.count ∧ f.count < 536870912 ∧ f.info.length < 2147483648) ∧
    (recordAll (openFile (fresh 1000) true).2 [sampleA, sampleB]).2.storage.drop 32
      = layoutFrom 0 [sampleA, sampleB] :=
  ⟨⟨by with_unfolding_all decide, by with_unfolding_all decide, by decide, by decide⟩,
    (storage_is_record_sequence (fresh 1000) [sampleA, sampleB]
      (by with_unfolding_all decide) (by with_unfolding_all decide) (by decide)
      (by decide)).2.2.1⟩

/-! ## C9 -/

/-- C9: a successful `record` on a container that has its header leaves every byte of
storage that existed before the call unchanged except bytes 12 to 15, which then hold
the new frameCount; the bytes of the new record start exactly at the previous end of
storage. -/
theorem record_keeps_old_bytes (s s1 : Recorder) (time : Nat) (info : List Byte) (count : Int)
    (depths colors : List Byte) (h : record s time info count depths colors = (0, s1))
    (hhdr : 32 ≤ s.storage.length) :
    (∀ i, i < s.storage.length → (i < 12 ∨ 16 ≤ i) → s1.storage[i]? = s.storage[i]?) ∧
    (s1.storage.drop 12).take 4 = be32 s1.frameCount ∧
    s1.storage.drop s.storage.length
      = recordBytes s.frameCount time info count depths colors := by
  obtain ⟨-, -, -, -, -, e⟩ := record_inv s s1 time info count depths colors h (by omega)
  have hs : s1.storage = s.storage.take 12 ++ be32 (wrap32 (s.frameCount + 1))
      ++ s.storage.drop 16 ++ recordBytes s.frameCount time info count depths colors := by
    rw [e]
  have hfc : s1.frameCount = wrap32 (s.frameCount + 1) := by rw [e]
  have h12 : (s.storage.take 12).length = 12 := by rw [List.length_take]; omega
  refine ⟨?_, ?_, ?_⟩
  · intro i hi hr
    rw [hs]
    have hsp := split_at_count s.storage
    have hlen4 : (List.take 4 (List.drop 12 s.storage)).length = 4 := by
      rw [List.length_take, List.length_drop]; omega
    have := getElem?_patch (s.storage.take 12) (List.take 4 (List.drop 12 s.storage))
      (be32 (wrap32 (s.frameCount + 1))) (s.storage.drop 16)
      (recordBytes s.frameCount time info count depths colors) i
      (by rw [hlen4, be32_length]) (by rw [h12, hlen4]; omega) (by rw [← hsp]; exact hi)
    rw [this, ← hsp]
  · rw [hs, hfc]
    simp only [List.append_assoc]
    rw [List.drop_left' h12]
    exact List.take_left' (be32_length _)
  · rw [hs]
    have hl : (s.storage.take 12 ++ be32 (wrap32 (s.frameCount + 1))
        ++ s.storage.drop 16).length = s.storage.length := by
      simp only [List.length_append, h12, be32_length, List.length_drop]
      omega
    exact List.drop_left' hl

set_option maxRecDepth 100000 in
/-- C9, witness: the second `record` call of a session. -/
theorem record_keeps_old_bytes_witness :
    ((record (recordAll (openFile (fresh 1000) true).2 [sampleA]).2 sampleB.time sampleB.info
        sampleB.count sampleB.depths sampleB.colors).1 = 0 ∧
      32 ≤ (recordAll (openFile (fresh 1000) true).2 [sampleA]).2.storage.length) ∧
    (record (recordAll (openFile (fresh 1000) true).2 [sampleA]).2 sampleB.time sampleB.info
        sampleB.count sampleB.depths sampleB.colors).2.storage.drop
        (recordAll (openFile (fresh 1000) true).2 [sampleA]).2.storage.length
      = recordBytes (recordAll (openFile (fresh 1000) true).2 [sampleA]).2.frameCount
          sampleB.time sampleB.info sampleB.count sampleB.depths sampleB.colors :=
  ⟨⟨by with_unfolding_all decide, by with_unfolding_all decide⟩,
    (record_keeps_old_bytes (recordAll (openFile (fresh 1000) true).2 [sampleA]).2 _
      sampleB.time sampleB.info sampleB.count sampleB.depths sampleB.colors
      (Prod.ext (by with_unfolding_all decide) rfl) (by with_unfolding_all decide)).2.2⟩

/-! ## C10 -/

/-- C10: `record` on a container that is not open for write returns -1 and leaves the
object, the storage bytes and the storage offset as they were. -/
theorem record_refused_when_not_for_write (s : Recorder) (time : Nat) (info : List Byte)
    (count : Int) (depths colors : List Byte) (h : s.forWrite = false) :
    record s time info count depths colors = (-1, s) := by
  unfold record
  rw [if_pos h]

set_option maxRecDepth 100000 in
/-- C10, witness: a container opened for read. -/
theorem record_refused_when_not_for_write_witness :
    (openFile (writeSession (fresh 1000) [sampleA]) false).2.forWrite = false ∧
    record (openFile (writeSession (fresh 1000) [sampleA]) false).2 sampleB.time sampleB.info
        sampleB.count sampleB.depths sampleB.colors
      = (-1, (openFile (writeSession (fresh 1000) [sampleA]) false).2) :=
  ⟨by with_unfolding_all decide,
    record_refused_when_not_for_write _ _ _ _ _ _ (by with_unfolding_all decide)⟩

theorem sysRead_inv (s t : Recorder) (n : Nat) (b : List Byte) (hr : sysRead s n = (b, t))
    (hb : b.length = n) (hn : 0 < n) :
    0 ≤ s.fd ∧ s.offset + n ≤ s.storage.length ∧ b = (s.storage.drop s.offset).take n ∧
    t = { s with offset := s.offset + n } := by
  unfold sysRead at hr
  by_cases hfd : s.fd < 0
  · rw [if_pos hfd] at hr
    have := (Prod.mk.inj hr).1
    subst this
    simp at hb
    omega
  · rw [if_neg hfd] at hr
    obtain ⟨e1, e2⟩ := Prod.mk.inj hr
    have hl : ((s.storage.drop s.offset).take n).length = n := by rw [e1]; exact hb
    rw [List.length_take, List.length_drop] at hl
    refine ⟨by omega, by omega, e1.symm, ?_⟩
    rw [← e2, e1, hb]

theorem sysRead_full (s : Recorder) (n : Nat) (hfd : 0 ≤ s.fd)
    (hlen : s.offset + n ≤ s.storage.length) :
    sysRead s n = ((s.storage.drop s.offset).take n, { s with offset := s.offset + n }) := by
  unfold sysRead
  have hfd2 : ¬ s.fd < 0 := by omega
  rw [if_neg hfd2]
  have hl : ((s.storage.drop s.offset).take n).length = n := by
    rw [List.length_take, List.length_drop]; omega
  simp only [hl]

/-- Skip mode on a record whose 16-byte front (size, index, time) is on storage. -/
theorem readFrame_skip_eq (s : Recorder) (hfd : 0 ≤ s.fd)
    (hlen : s.offset + 16 ≤ s.storage.length)
    (hpos : 0 ≤ (s.offset : Int) + rd32 ((s.storage.drop s.offset).take 4)) :
    readFrame true s = (0, { s with
      offset := ((s.offset : Int) + rd32 ((s.storage.drop s.offset).take 4)).toNat
      currentTime := rd64 ((s.storage.drop (s.offset + 8)).take 8)
      frameSize := rd32 ((s.storage.drop s.offset).take 4)
      frameNumber := rd32 ((s.storage.drop (s.offset + 4)).take 4) }) := by
  have r1 := sysRead_full s 4 hfd (by omega)
  generalize hS1 : ({ s with offset := s.offset + 4 } : Recorder) = S1 at r1
  have a1 : S1.fd = s.fd ∧ S1.offset = s.offset + 4 ∧ S1.storage = s.storage := by
    rw [← hS1]; exact ⟨rfl, rfl, rfl⟩
  obtain ⟨f1, o1, st1⟩ := a1
  have sl1 : S1.storage.length = s.storage.length := by rw [st1]
  have r2 := sysRead_full S1 4 (by omega) (by omega)
  generalize hS2 : ({ S1 with offset := S1.offset + 4 } : Recorder) = S2 at r2
  have a2 : S2.fd = s.fd ∧ S2.offset = s.offset + 8 ∧ S2.storage = s.storage := by
    rw [← hS2]; exact ⟨f1, by show S1.offset + 4 = _; omega, st1⟩
  obtain ⟨f2, o2, st2⟩ := a2
  have sl2 : S2.storage.length = s.storage.length := by rw [st2]
  have r3 := sysRead_full S2 8 (by omega) (by omega)
  generalize hS3 : ({ S2 with offset := S2.offset + 8 } : Recorder) = S3 at r3
  have a3 : S3.fd = s.fd ∧ S3.offset = s.offset + 16 ∧ S3.storage = s.storage := by
    rw [← hS3]; exact ⟨f2, by show S2.offset + 8 = _; omega, st2⟩
  obtain ⟨f3, o3, st3⟩ := a3
  have k := sysSeek_fwd1 S3 (rd32 ((s.storage.drop s.offset).take 4) - 16) (by omega) (by omega)
  have l1 : ((s.storage.drop s.offset).take 4).length = 4 := by
    rw [List.length_take, List.length_drop]; omega
  have l2 : ((S1.storage.drop S1.offset).take 4).length = 4 := by
    rw [List.length_take, List.length_drop]; omega
  have l3 : ((S2.storage.drop S2.offset).take 8).length = 8 := by
    rw [List.length_take, List.length_drop]; omega
  have hne : ¬ ((S3.offset : Int) + (rd32 ((s.storage.drop s.offset).take 4) - 16) = -1) := by
    omega
  generalize hS4 : ({ S3 with offset := ((S3.offset : Int)
    + (rd32 ((s.storage.drop s.offset).take 4) - 16)).toNat } : Recorder) = S4 at k
  generalize hv : (S3.offset : Int) + (rd32 ((s.storage.drop s.offset).take 4) - 16) = v
    at k hne
  unfold readFrame
  simp only [if_true]
  simp only [r1]
  simp only [l1, ne_eq, not_true_eq_false, if_false]
  simp only [r2]
  simp only [l2, ne_eq, not_true_eq_false, if_false]
  simp only [r3]
  simp only [l3, ne_eq, not_true_eq_false, if_false]
  simp only [k]
  simp only [hne, if_false]
  rw [← hS4, ← hS3, ← hS2, ← hS1]
  simp only [Prod.mk.injEq, true_and, Recorder.mk.injEq, and_true]
  clear r1 r2 r3 k hS1 hS2 hS3 hS4 hv hne l1 l2 l3 f1 f2 f3 o1 o2 o3 st1 st2 st3 sl1 sl2
  omega

/-- What a successful `readFrame(false)` tells about the front of the record. -/
theorem readFrame_load_inv (s s1 : Recorder) (h : readFrame false s = (0, s1)) :
    0 ≤ s.fd ∧ s.offset + 16 ≤ s.storage.length ∧
    s1.frameNumber = rd32 ((s.storage.drop (s.offset + 4)).take 4) ∧
    s1.currentTime = rd64 ((s.storage.drop (s.offset + 8)).take 8) := by
  unfold readFrame at h
  simp only [Bool.false_eq_true, if_false] at h
  replace h := ite_fail h
  obtain ⟨c1, h⟩ := h
  obtain ⟨hfd, n1, b1, e1⟩ := sysRead_inv s _ 4 _ rfl (not_not.mp c1) (by decide)
  simp only [e1] at h
  replace h := ite_fail h
  obtain ⟨c2, h⟩ := h
  obtain ⟨-, n2, b2, e2⟩ := sysRead_inv _ _ 4 _ rfl (not_not.mp c2) (by decide)
  simp only [e2] at h
  replace h := ite_fail h
  obtain ⟨c3, h⟩ := h
  obtain ⟨-, n3, b3, e3⟩ := sysRead_inv _ _ 8 _ rfl (not_not.mp c3) (by decide)
  simp only [e3] at h
  replace h := ite_fail h
  obtain ⟨-, h⟩ := h
  replace h := ite_fail h
  obtain ⟨-, h⟩ := h
  replace h := ite_fail h
  obtain ⟨-, h⟩ := h
  replace h := ite_fail h
  obtain ⟨-, h⟩ := h
  have hs := (Prod.mk.inj h).2
  simp only at n2 n3 b2 b3
  refine ⟨hfd, by omega, ?_, ?_⟩
  · rw [← hs, b2]
  · rw [← hs, b3]

/-! ## C5 -/

set_option maxRecDepth 100000 in
/-- C5, counterexample: on a record whose leading and trailing size both say 100 while
the record is 41 bytes long, `readFrame(false)` and `readFrame(true)` both succeed,
but the first leaves the storage offset at 73 (after the trailing size) and the second
at 132. -/
theorem readFrame_skip_trusts_size_marker :
    (readFrame false looseState).1 = 0 ∧
    rd32 ((looseState.storage.drop looseState.offset).take 4)
      = (readFrame false looseState).2.frameSize ∧
    (readFrame true looseState).1 = 0 ∧
    (readFrame false looseState).2.offset = 73 ∧
    (readFrame true looseState).2.offset = 132 := by
  with_unfolding_all decide

/-- C5 (amended): when `readFrame(false)` succeeds on the record at the current
offset, the leading size of the record equals its trailing size, and that size is the
number of bytes the record occupies (the distance `readFrame(false)` advanced the
offset), then `readFrame(true)` also succeeds, sets frameNumber, currentTime and
frameSize to the same values, leaves the storage offset at the same place, and leaves
the cached info, depths and colors (and the storage) unchanged. -/
theorem readFrame_skip_agrees (s s1 : Recorder) (h : readFrame false s = (0, s1))
    (hlead : rd32 ((s.storage.drop s.offset).take 4) = s1.frameSize)
    (hsize : s1.frameSize = (s1.offset : Int) - s.offset) :
    (readFrame true s).1 = 0 ∧
    (readFrame true s).2.frameNumber = s1.frameNumber ∧
    (readFrame true s).2.currentTime = s1.currentTime ∧
    (readFrame true s).2.frameSize = s1.frameSize ∧
    (readFrame true s).2.offset = s1.offset ∧
    (readFrame true s).2.info = s.info ∧
    (readFrame true s).2.depths = s.depths ∧
    (readFrame true s).2.colors = s.colors ∧
    (readFrame true s).2.storage = s.storage := by
  obtain ⟨hfd, hlen, hix, ht⟩ := readFrame_load_inv s s1 h
  have hpos : 0 ≤ (s.offset : Int) + rd32 ((s.storage.drop s.offset).take 4) := by
    rw [hlead, hsize]; omega
  rw [readFrame_skip_eq s hfd hlen hpos]
  refine ⟨rfl, hix.symm, ht.symm, hlead, ?_, rfl, rfl, rfl, rfl⟩
  show ((s.offset : Int) + rd32 ((s.storage.drop s.offset).take 4)).toNat = s1.offset
  rw [hlead, hsize]
  omega

set_option maxRecDepth 100000 in
/-- C5, witness: the first record of a two-frame container. -/
theorem readFrame_skip_agrees_witness :
    ((readFrame false atFirstRecord).1 = 0 ∧
      rd32 ((atFirstRecord.storage.drop atFirstRecord.offset).take 4)
        = (readFrame false atFirstRecord).2.frameSize ∧
      (readFrame false atFirstRecord).2.frameSize
        = ((readFrame false atFirstRecord).2.offset : Int) - atFirstRecord.offset) ∧
    (readFrame true atFirstRecord).1 = 0 ∧
    (readFrame true atFirstRecord).2.frameNumber = (readFrame false atFirstRecord).2.frameNumber ∧
    (readFrame true atFirstRecord).2.offset = (readFrame false atFirstRecord).2.offset :=
  have w := readFrame_skip_agrees atFirstRecord (readFrame false atFirstRecord).2
    (Prod.ext (by with_unfolding_all decide) rfl) (by with_unfolding_all decide)
    (by with_unfolding_all decide)
  ⟨⟨by with_unfolding_all decide, by with_unfolding_all decide, by with_unfolding_all decide⟩,
    w.1, w.2.1, w.2.2.2.2.1⟩

theorem drop_add_of_drop {l c r : List Byte} {o : Nat} (h : l.drop o = c ++ r) :
    l.drop (o + c.length) = r := by
  rw [← List.drop_drop, h]
  exact List.drop_left' rfl

/-- `readn` with its size check off (`size = 0`), on a field that is on storage. -/
theorem readn_fwd (s : Recorder) (data : Option (List Byte)) (payload rest : List Byte)
    (hfd : 0 ≤ s.fd)
    (hin : s.storage.drop s.offset = be32 payload.length ++ (payload ++ rest))
    (hpos : 0 < payload.length) (hlt : payload.length < 2147483648)
    (hcap : ∀ b, data = some b → payload.length ≤ b.length) :
    readn s data 0 = (0, some (payload ++ (data.getD []).drop payload.length),
      { s with offset := s.offset + 4 + payload.length }) := by
  have hrd : rd32 (be32 (payload.length : Int)) = payload.length :=
    rd32_be32 _ (by omega) (by omega)
  have r1 := sysRead_fwd s 4 (be32 payload.length) (payload ++ rest) hfd hin rfl
  have hin2 : s.storage.drop (s.offset + 4) = payload ++ rest := by
    have := drop_add_of_drop hin
    rwa [be32_length] at this
  generalize hS1 : ({ s with offset := s.offset + 4 } : Recorder) = S1 at r1
  have a1 : S1.fd = s.fd ∧ S1.offset = s.offset + 4 ∧ S1.storage = s.storage
      ∧ S1.fault = s.fault := by
    rw [← hS1]; exact ⟨rfl, rfl, rfl, rfl⟩
  obtain ⟨f1, o1, st1, fl1⟩ := a1
  have r2 := sysRead_fwd S1 payload.length payload rest (by omega)
    (by rw [o1, st1]; exact hin2) rfl
  generalize hS2 : ({ S1 with offset := S1.offset + payload.length } : Recorder) = S2 at r2
  have hnpos : ¬ ((payload.length : Int) ≤ 0) := by omega
  have htn : ((payload.length : Int)).toNat = payload.length := by omega
  unfold readn
  simp only [r1, be32_length, ne_eq, not_true_eq_false, if_false, hrd, hnpos, htn,
    lt_self_iff_false, false_and, and_false, r2]
  have hlt0 : ¬ ((payload.length : Int) < 0) := by omega
  simp only [hlt0, if_false]
  cases data with
  | none =>
    simp only [List.length_replicate, lt_self_iff_false, decide_False, Bool.or_false,
      Option.getD_none, List.drop_nil, List.append_nil, Prod.mk.injEq, true_and]
    refine ⟨by simp, ?_⟩
    rw [← hS2, ← hS1]
  | some b =>
    have hc := hcap b rfl
    have hnl : ¬ (b.length < payload.length) := by omega
    simp only [hnl, decide_False, Bool.or_false, Option.getD_some, Prod.mk.injEq, true_and]
    rw [← hS2, ← hS1]

theorem takeWhile_text (payload tail : List Byte) (hnul : 0 ∉ payload) :
    (payload ++ 0 :: tail).takeWhile (fun b => b != 0) = payload := by
  induction payload with
  | nil => simp
  | cons x xs ih =>
    have hx : x ≠ 0 := fun h => hnul (by simp [h])
    have hxs : 0 ∉ xs := fun h => hnul (List.mem_cons_of_mem _ h)
    simp [List.takeWhile_cons, hx, ih hxs]

theorem text_buffer (payload : List Byte) (hlt : payload.length < 8192) :
    (payload ++ infoBuffer.drop payload.length).set payload.length 0
      = payload ++ 0 :: List.replicate (8191 - payload.length) 0 := by
  have hz : infoBuffer.drop payload.length
      = 0 :: List.replicate (8191 - payload.length) 0 := by
    unfold infoBuffer
    rw [List.drop_replicate]
    have : 8192 - payload.length = (8191 - payload.length) + 1 := by omega
    rw [this, List.replicate_succ]
  rw [hz, List.set_append_right _ _ (le_refl _)]
  simp

/-- `readn` into the text buffer of `readFrame`, on a field that is on storage. -/
theorem readn_text (s : Recorder) (payload rest : List Byte) (hfd : 0 ≤ s.fd)
    (hin : s.storage.drop s.offset = be32 payload.length ++ (payload ++ rest))
    (hpos : 0 < payload.length) (hlt : payload.length < 8192) :
    readn s (some infoBuffer) 8192
      = (0, some (payload ++ 0 :: List.replicate (8191 - payload.length) 0),
          { s with offset := s.offset + 4 + payload.length }) := by
  have hrd : rd32 (be32 (payload.length : Int)) = payload.length :=
    rd32_be32 _ (by omega) (by omega)
  have r1 := sysRead_fwd s 4 (be32 payload.length) (payload ++ rest) hfd hin rfl
  have hin2 : s.storage.drop (s.offset + 4) = payload ++ rest := by
    have := drop_add_of_drop hin
    rwa [be32_length] at this
  generalize hS1 : ({ s with offset := s.offset + 4 } : Recorder) = S1 at r1
  have a1 : S1.fd = s.fd ∧ S1.offset = s.offset + 4 ∧ S1.storage = s.storage
      ∧ S1.fault = s.fault := by
    rw [← hS1]; exact ⟨rfl, rfl, rfl, rfl⟩
  obtain ⟨f1, o1, st1, fl1⟩ := a1
  have r2 := sysRead_fwd S1 payload.length payload rest (by omega)
    (by rw [o1, st1]; exact hin2) rfl
  generalize hS2 : ({ S1 with offset := S1.offset + payload.length } : Recorder) = S2 at r2
  have hnpos : ¬ ((payload.length : Int) ≤ 0) := by omega
  have htn : ((payload.length : Int)).toNat = payload.length := by omega
  have hbl : infoBuffer.length = 8192 := by
    unfold infoBuffer; exact List.length_replicate _ _
  have hsz : ¬ ((8192 : Int) < payload.length) := by omega
  have hlt2 : (payload.length : Int) < 8192 := by omega
  have hnl : ¬ (8192 < payload.length) := by omega
  have hlen1 : ¬ ((payload ++ infoBuffer.drop payload.length).length ≤ payload.length) := by
    rw [List.length_append, List.length_drop, hbl]; omega
  unfold readn
  simp only [r1, be32_length, ne_eq, not_true_eq_false, if_false, hrd, hnpos, htn, hsz,
    and_false, r2, hlt2, if_true, Option.isSome_some, hbl, hnl, decide_False, Bool.or_false,
    hlen1, text_buffer payload hlt, Prod.mk.injEq, true_and]
  rw [← hS2, ← hS1]

theorem strlen_text (payload tail : List Byte) (hnul : 0 ∉ payload) :
    strlen (payload ++ 0 :: tail) = (payload.length, false) := by
  unfold strlen
  rw [takeWhile_text payload tail hnul]
  simp

theorem encodeRecord_length (sz ix : Int) (t : Nat) (info depths colors : List Byte) :
    (encodeRecord sz ix t info depths colors).length
      = 32 + info.length + depths.length + colors.length := by
  simp only [encodeRecord, List.length_append, be32_length, be64_length]
  omega

/-- `readFrame(false)` on a record that is on storage, with texts and buffers the reader
accepts: the record is materialized and the offset ends after its trailing size. -/
theorem readFrame_load_eq (s : Recorder) (sz ix : Int) (t : Nat)
    (info depths colors rest : List Byte) (hfd : 0 ≤ s.fd)
    (hin : s.storage.drop s.offset = encodeRecord sz ix t info depths colors ++ rest)
    (hsz : -2147483648 ≤ sz ∧ sz < 2147483648) (hix : -2147483648 ≤ ix ∧ ix < 2147483648)
    (ht : t < 18446744073709551616)
    (hi : 0 < info.length ∧ info.length < 8192 ∧ 0 ∉ info)
    (hd : 0 < depths.length ∧ depths.length < 2147483648)
    (hc : 0 < colors.length ∧ colors.length < 2147483648)
    (hdc : ∀ b, s.depths = some b → depths.length ≤ b.length)
    (hcc : ∀ b, s.colors = some b → colors.length ≤ b.length) :
    readFrame false s = (0, { s with
      offset := s.offset + (encodeRecord sz ix t info depths colors).length
      currentTime := t
      frameNumber := ix
      frameSize := sz
      info := info
      depths := some (depths ++ (s.depths.getD []).drop depths.length)
      colors := some (colors ++ (s.colors.getD []).drop colors.length) }) := by
  simp only [encodeRecord, List.append_assoc] at hin
  -- size, index, time
  have r1 := sysRead_fwd s 4 (be32 sz) _ hfd hin rfl
  have d1 := drop_add_of_drop hin
  rw [be32_length] at d1
  generalize hS1 : ({ s with offset := s.offset + 4 } : Recorder) = S1 at r1
  have a1 : S1.fd = s.fd ∧ S1.offset = s.offset + 4 ∧ S1.storage = s.storage := by
    rw [← hS1]; exact ⟨rfl, rfl, rfl⟩
  have r2 := sysRead_fwd S1 4 (be32 ix) _ (by rw [a1.1]; exact hfd)
    (by rw [a1.2.1, a1.2.2]; exact d1) rfl
  have d2 := drop_add_of_drop d1
  rw [be32_length] at d2
  generalize hS2 : ({ S1 with offset := S1.offset + 4 } : Recorder) = S2 at r2
  have a2 : S2.fd = s.fd ∧ S2.offset = s.offset + 4 + 4 ∧ S2.storage = s.storage := by
    rw [← hS2]; exact ⟨a1.1, by show S1.offset + 4 = _; rw [a1.2.1], a1.2.2⟩
  have r3 := sysRead_fwd S2 8 (be64 t) _ (by rw [a2.1]; exact hfd)
    (by rw [a2.2.1, a2.2.2]; exact d2) rfl
  have d3 := drop_add_of_drop d2
  rw [be64_length] at d3
  generalize hS3 : ({ S2 with offset := S2.offset + 8 } : Recorder) = S3 at r3
  have a3 : S3.fd = s.fd ∧ S3.offset = s.offset + 4 + 4 + 8 ∧ S3.storage = s.storage := by
    rw [← hS3]; exact ⟨a2.1, by show S2.offset + 8 = _; rw [a2.2.1], a2.2.2⟩
  -- info
  have n1 := readn_text S3 info _ (by rw [a3.1]; exact hfd)
    (by rw [a3.2.1, a3.2.2]; exact d3) hi.1 hi.2.1
  have d4 := drop_add_of_drop (drop_add_of_drop d3)
  rw [be32_length] at d4
  generalize hS4 : ({ S3 with offset := S3.offset + 4 + info.length } : Recorder) = S4 at n1
  have a4 : S4.fd = s.fd ∧ S4.offset = s.offset + 4 + 4 + 8 + 4 + info.length
      ∧ S4.storage = s.storage := by
    rw [← hS4]; exact ⟨a3.1, by show S3.offset + 4 + info.length = _; rw [a3.2.1], a3.2.2⟩
  have e4 : S4.depths = s.depths := by rw [← hS4, ← hS3, ← hS2, ← hS1]
  -- depths
  have n2 := readn_fwd S4 S4.depths depths _ (by rw [a4.1]; exact hfd)
    (by rw [a4.2.1, a4.2.2]; exact d4) hd.1 hd.2 (by rw [e4]; exact hdc)
  have d5 := drop_add_of_drop (drop_add_of_drop d4)
  rw [be32_length] at d5
  generalize hS5 : ({ S4 with offset := S4.offset + 4 + depths.length } : Recorder) = S5 at n2
  have a5 : S5.fd = s.fd ∧ S5.offset = s.offset + 4 + 4 + 8 + 4 + info.length + 4 + depths.length
      ∧ S5.storage = s.storage := by
    rw [← hS5]; exact ⟨a4.1, by show S4.offset + 4 + depths.length = _; rw [a4.2.1], a4.2.2⟩
  have e5 : S5.colors = s.colors := by rw [← hS5, ← hS4, ← hS3, ← hS2, ← hS1]
  -- colors
  have n3 := readn_fwd
    { S5 with depths := some (depths ++ (S4.depths.getD []).drop depths.length) }
    S5.colors colors _ (by show 0 ≤ S5.fd; rw [a5.1]; exact hfd)
    (by show S5.storage.drop S5.offset = _; rw [a5.2.1, a5.2.2]; exact d5) hc.1 hc.2
    (by rw [e5]; exact hcc)
  have d6 := drop_add_of_drop (drop_add_of_drop d5)
  rw [be32_length] at d6
  generalize hS6 : ({ ({ S5 with depths := some (depths ++ (S4.depths.getD []).drop depths.length) }
      : Recorder) with
      offset := ({ S5 with depths := some (depths ++ (S4.depths.getD []).drop depths.length) }
        : Recorder).offset + 4 + colors.length } : Recorder) = S6 at n3
  have a6 : S6.fd = s.fd ∧ S6.offset
      = s.offset + 4 + 4 + 8 + 4 + info.length + 4 + depths.length + 4 + colors.length
      ∧ S6.storage = s.storage := by
    rw [← hS6]; exact ⟨a5.1, by show S5.offset + 4 + colors.length = _; rw [a5.2.1], a5.2.2⟩
  -- trailing size
  have r4 := sysRead_fwd
    { S6 with colors := some (colors ++ (S5.colors.getD []).drop colors.length) } 4 (be32 sz)
    rest (by show 0 ≤ S6.fd; rw [a6.1]; exact hfd)
    (by show S6.storage.drop S6.offset = _; rw [a6.2.1, a6.2.2]; exact d6) rfl
  have htext := strlen_text info (List.replicate (8191 - info.length) 0) hi.2.2
  have htake : List.take info.length (info ++ 0 :: List.replicate (8191 - info.length) 0)
      = info := List.take_left' rfl
  have h0 : ¬ ((0 : Int) = -1) := by decide
  unfold readFrame
  simp only [Bool.false_eq_true, if_false, r1, r2, r3, n1, n2, n3, r4, be32_length, be64_length, h0,
    ne_eq, not_true_eq_false, rd32_be32 sz hsz.1 hsz.2, rd32_be32 ix hix.1 hix.2, rd64_be64 t ht,
    Option.getD_some, htext, htake, Bool.or_false, Prod.mk.injEq, true_and]
  rw [← hS6, e5, ← hS5, e4, ← hS4, ← hS3, ← hS2, ← hS1]
  simp only [Recorder.mk.injEq, true_and, and_true, encodeRecord_length]
  clear r1 r2 r3 r4 n1 n2 n3 hS1 hS2 hS3 hS4 hS5 hS6 a1 a2 a3 a4 a5 a6 e4 e5 d1 d2 d3 d4 d5 d6
  omega

/-- `next` from a frame that is not the last one is a single non-skip `readFrame`. -/
theorem seek_next_eq (s : Recorder) (h0 : 0 ≤ s.frameNumber)
    (h1 : s.frameNumber + 1 < s.frameCount) (h2 : s.frameCount < 2147483648) :
    seek s 1 1 = (if (readFrame false s).1 = -1 then (-1, (readFrame false s).2)
      else (0, (readFrame false s).2)) := by
  have w1 : wrap32 (s.frameNumber + 1) = s.frameNumber + 1 := wrap32_id _ (by omega) (by omega)
  have w2 : wrap32 (s.frameNumber - (s.frameNumber + 1)) = -1 := by
    rw [wrap32_id _ (by omega) (by omega)]; omega
  have w3 : wrap32 ((Int.natAbs (-1) : Nat) : Int) = 1 := by
    rw [wrap32_id _ (by decide) (by decide)]; rfl
  have w4 : wrap32 (s.frameCount - (s.frameNumber + 1)) = s.frameCount - (s.frameNumber + 1) :=
    wrap32_id _ (by omega) (by omega)
  have c1 : ¬ (s.frameNumber + 1 < 0) := by omega
  have c2 : ¬ (s.frameNumber + 1 ≥ s.frameCount) := by omega
  have c3 : ¬ (s.frameNumber + 1 = s.frameNumber) := by omega
  have c4 : ¬ (s.frameNumber + 1 < 1 ∧ s.frameNumber + 1 ≤ s.frameCount - (s.frameNumber + 1)) := by
    omega
  have c5 : ¬ (s.frameCount - (s.frameNumber + 1) ≤ s.frameNumber + 1
      ∧ s.frameCount - (s.frameNumber + 1) < 1) := by omega
  have c6 : ¬ (s.frameNumber + 1 < s.frameNumber) := by omega
  have c7 : s.frameNumber + 1 > s.frameNumber := by omega
  have t1 : (1 : Int).toNat = 1 := rfl
  have b0 : ((0 : Nat) != 0) = false := rfl
  have z : ¬ ((0 : Int) = -1) := by decide
  unfold seek
  simp only [resolve, clamp, w1, w2, w3, w4, c1, c2, c3, c4, c5, if_false, t1, walk, c6, c7,
    if_true, b0, z, nextFrame, if_neg, one_ne_zero, OfNat.ofNat_ne_zero, reduceCtorEq]

/-- `first` right after the header has been read (frameNumber -1) repositions to byte
32 and is a single non-skip `readFrame`. -/
theorem seek_first_eq (s : Recorder) (hfd : 0 ≤ s.fd) (hfn : s.frameNumber = -1)
    (h1 : 1 ≤ s.frameCount) (h2 : s.frameCount < 2147483648) :
    seek s 0 0 = (if (readFrame false { s with offset := 32 }).1 = -1
      then (-1, (readFrame false { s with offset := 32 }).2)
      else (0, (readFrame false { s with offset := 32 }).2)) := by
  have w2 : wrap32 (-1 - 0) = -1 := by rw [wrap32_id _ (by decide) (by decide)]; rfl
  have w3 : wrap32 ((Int.natAbs (-1) : Nat) : Int) = 1 := by
    rw [wrap32_id _ (by decide) (by decide)]; rfl
  have w4 : wrap32 (s.frameCount - 0) = s.frameCount := by
    rw [wrap32_id _ (by omega) (by omega)]; omega
  have c1 : ¬ ((0 : Int) < 0) := by decide
  have c2 : ¬ ((0 : Int) ≥ s.frameCount) := by omega
  have c3 : ¬ ((0 : Int) = -1) := by decide
  have c4 : (0 : Int) < 1 ∧ 0 ≤ s.frameCount := ⟨by decide, by omega⟩
  have k := sysSeek_fwd0 s 32 hfd (by decide)
  have c5 : ¬ ((32 : Int) = -1) := by decide
  have t1 : ((0 : Int) + 1).toNat = 1 := rfl
  have t2 : (32 : Int).toNat = 32 := rfl
  have b0 : ((0 : Nat) != 0) = false := rfl
  unfold seek
  simp only [resolve, clamp, hfn, w2, w3, w4, c1, c2, c3, c4, if_false, if_true, and_self, k, c5,
    t1, t2, hops, b0, nextFrame]

/-- `first` on a cursor that is on frame 0 is a no-op. -/
theorem seek_first_noop (s : Recorder) (hfn : s.frameNumber = 0) (h1 : 1 ≤ s.frameCount) :
    seek s 0 0 = (0, s) := by
  have c1 : ¬ ((0 : Int) < 0) := by decide
  have c2 : ¬ ((0 : Int) ≥ s.frameCount) := by omega
  unfold seek
  simp only [resolve, clamp, hfn, c1, c2, if_false, if_true]

theorem cstr_of_no_nul (info : List Byte) (h : 0 ∉ info) : cstr info = info := by
  unfold cstr
  induction info with
  | nil => rfl
  | cons x xs ih =>
    have hx : x ≠ 0 := fun e => h (by simp [e])
    have hxs : 0 ∉ xs := fun e => h (List.mem_cons_of_mem _ e)
    simp [List.takeWhile_cons, hx, ih hxs]

theorem sampleRecord_readable (ix : Int) (f : Sample) (h : Readable f) :
    sampleRecord ix f
      = encodeRecord (frameSizeOf f.info f.count) ix f.time f.info f.depths f.colors := by
  obtain ⟨-, -, h3, -, -, h6, h7, -⟩ := h
  unfold sampleRecord
  rw [cstr_of_no_nul _ h3, List.take_of_length_le (by omega), List.take_of_length_le (by omega)]

theorem wrap32_range (x : Int) : -2147483648 ≤ wrap32 x ∧ wrap32 x < 2147483648 := by
  unfold wrap32
  omega

theorem layoutFrom_at (fs : List Sample) (j : Nat) (f : Sample) (ix : Int)
    (hj : fs[j]? = some f) :
    layoutFrom ix (fs.drop j) = sampleRecord ix f ++ layoutFrom (ix + 1) (fs.drop (j + 1)) := by
  have hlt : j < fs.length := by
    rcases Nat.lt_or_ge j fs.length with h | h
    · exact h
    · rw [List.getElem?_eq_none h] at hj; cases hj
  have hf : fs[j] = f := by
    rw [List.getElem?_eq_getElem hlt] at hj
    exact Option.some.inj hj
  rw [List.drop_eq_getElem_cons hlt, hf]
  rfl

/-- Reading record `j` with `readFrame(false)` puts the cursor on frame `j`. -/
theorem readFrame_at (fs : List Sample) (f0 f : Sample) (j : Nat) (s : Recorder)
    (hj : fs[j]? = some f) (hr : Readable f) (hr0 : Readable f0) (hle : f.count ≤ f0.count)
    (hj2 : j < 2147483648) (hfd : 0 ≤ s.fd) (hfc : s.frameCount = fs.length)
    (hfl : s.fault = false)
    (hin : s.storage.drop s.offset = layoutFrom (j : Int) (fs.drop j))
    (hbuf : (s.depths = none ∧ s.colors = none ∧ f = f0) ∨
      ((∃ db, s.depths = some db ∧ db.length = f0.depths.length) ∧
        (∃ cb, s.colors = some cb ∧ cb.length = f0.colors.length))) :
    (readFrame false s).1 = 0 ∧ OnFrame fs f0 j (readFrame false s).2 := by
  rw [layoutFrom_at fs j f j hj, sampleRecord_readable _ f hr] at hin
  obtain ⟨h1, h2, h3, h4, h5, h6, h7, h8⟩ := hr
  obtain ⟨-, -, -, -, -, g6, g7, -⟩ := hr0
  have hdc : ∀ b, s.depths = some b → f.depths.length ≤ b.length := by
    intro b hb
    rcases hbuf with ⟨hn, -, -⟩ | ⟨⟨db, hdb, hl⟩, -⟩
    · rw [hn] at hb; cases hb
    · rw [hdb] at hb; cases hb; omega
  have hcc : ∀ b, s.colors = some b → f.colors.length ≤ b.length := by
    intro b hb
    rcases hbuf with ⟨-, hn, -⟩ | ⟨-, ⟨cb, hcb, hl⟩⟩
    · rw [hn] at hb; cases hb
    · rw [hcb] at hb; cases hb; omega
  have e := readFrame_load_eq s (frameSizeOf f.info f.count) j f.time f.info f.depths f.colors
    _ hfd hin (by unfold frameSizeOf; exact wrap32_range _) (by omega) h8 ⟨h1, h2, h3⟩
    ⟨by omega, by omega⟩ ⟨by omega, by omega⟩ hdc hcc
  have hrest := drop_add_of_drop hin
  rw [e]
  refine ⟨rfl, hfd, hfc, rfl, hfl, ?_, ?_, ?_, ?_⟩
  · show s.storage.drop (s.offset + _) = _
    rw [hrest]
    simp
  · refine ⟨_, rfl, ?_⟩
    rcases hbuf with ⟨hn, -, hf0⟩ | ⟨⟨db, hdb, hl⟩, -⟩
    · rw [hn, hf0]; simp
    · rw [hdb]; simp only [Option.getD_some, List.length_append, List.length_drop]; omega
  · refine ⟨_, rfl, ?_⟩
    rcases hbuf with ⟨-, hn, hf0⟩ | ⟨-, ⟨cb, hcb, hl⟩⟩
    · rw [hn, hf0]; simp
    · rw [hcb]; simp only [Option.getD_some, List.length_append, List.length_drop]; omega
  · intro g hg
    rw [hj] at hg
    cases hg
    refine ⟨rfl, rfl, ?_, ?_⟩
    · exact List.take_left' rfl
    · exact List.take_left' rfl

/-- Positioning on frame 0 from a freshly opened reader loads frame 0. -/
theorem first_at_start (fs : List Sample) (f0 : Sample) (S : Recorder)
    (hf0 : fs[0]? = some f0) (hr0 : Readable f0) (hfd : 0 ≤ S.fd)
    (hfn : S.frameNumber = -1) (hfc : S.frameCount = fs.length)
    (hN : fs.length < 2147483648) (hfl : S.fault = false)
    (hst : S.storage.drop 32 = layoutFrom 0 fs)
    (hd : S.depths = none) (hc : S.colors = none) :
    (first S).1 = 0 ∧ OnFrame fs f0 0 (first S).2 := by
  have hlen : 1 ≤ fs.length := by
    cases fs with
    | nil => simp at hf0
    | cons g gs => simp
  unfold first
  rw [seek_first_eq S hfd hfn (by rw [hfc]; omega) (by rw [hfc]; omega)]
  generalize hT : ({ S with offset := 32 } : Recorder) = T
  have a1 : T.fd = S.fd ∧ T.frameCount = S.frameCount ∧ T.fault = S.fault ∧
      T.storage = S.storage ∧ T.offset = 32 ∧ T.depths = S.depths ∧ T.colors = S.colors := by
    rw [← hT]; exact ⟨rfl, rfl, rfl, rfl, rfl, rfl, rfl⟩
  obtain ⟨t1, t2, t3, t4, t5, t6, t7⟩ := a1
  have hrf := readFrame_at fs f0 f0 0 T hf0 hr0 hr0 (le_refl _) (by decide)
    (by rw [t1]; exact hfd) (by rw [t2]; exact hfc) (by rw [t3]; exact hfl)
    (by rw [t4, t5, hst]; simp)
    (Or.inl ⟨by rw [t6]; exact hd, by rw [t7]; exact hc, rfl⟩)
  have hne : ¬ ((0 : Int) = -1) := by decide
  rw [hrf.1, if_neg hne]
  exact ⟨rfl, hrf.2⟩

/-- After a successful write session with readable samples, opening for read succeeds
and leaves the cursor on frame 0. -/
theorem open_after_session (s0 : Recorder) (fs : List Sample) (f0 : Sample)
    (hopen : (openFile s0 true).1 = 0)
    (hall : (recordAll (openFile s0 true).2 fs).1 = List.replicate fs.length 0)
    (hN : fs.length < 2147483648) (hfault : s0.fault = false)
    (hhead : fs.head? = some f0)
    (hread : ∀ f ∈ fs, Readable f ∧ f.count ≤ f0.count) :
    (openFile (writeSession s0 fs) false).1 = 0 ∧
    OnFrame fs f0 0 (openFile (writeSession s0 fs) false).2 := by
  obtain ⟨hst, hfd, hp, -, -, hwr, hflt⟩ := writeSession_inv s0 fs hopen (all_zero hall) hN
  have hv : ∀ f ∈ fs, 0 < f.count ∧ f.count < 536870912 ∧ f.info.length < 2147483648 := by
    intro f hf
    obtain ⟨⟨-, h2, -, h4, h5, -, -, -⟩, -⟩ := hread f hf
    exact ⟨h4, h5, by omega⟩
  have hcnt : ∀ f ∈ fs, wrap32 (f.count * 4) ≠ 0 := by
    intro f hf
    obtain ⟨h4, h5, -⟩ := hv f hf
    rw [wrap32_id _ (by omega) (by omega)]
    omega
  rw [layoutFrom_eq fs 0 hwr hv] at hst
  have hf0 : fs[0]? = some f0 := by
    cases fs with
    | nil => simp at hhead
    | cons g gs => simpa using hhead
  have hmem : f0 ∈ fs := by
    cases fs with
    | nil => simp at hhead
    | cons g gs =>
      simp at hhead
      simp [hhead]
  have hrd : rd32 (be32 (fs.length : Int)) = fs.length := rd32_be32 _ (by omega) (by omega)
  rw [openFile_read_eq _ _ _ _ _ (by rw [hfd]; decide) hp hst]
  apply first_at_start fs f0 _ hf0 (hread f0 hmem).1
  · show (0 : Int) ≤ 3
    decide
  · rfl
  · exact hrd
  · exact hN
  · show (writeSession s0 fs).fault = false
    rw [hflt hcnt]
    exact hfault
  · show (writeSession s0 fs).storage.drop 32 = _
    rw [hst]
    exact List.drop_left' (header_length _ _ _)
  · rfl
  · rfl

/-- One `next` from frame `k` loads frame `k + 1`. -/
theorem next_on_frame (fs : List Sample) (f0 f : Sample) (k : Nat) (s : Recorder)
    (hon : OnFrame fs f0 k s) (hj : fs[k + 1]? = some f)
    (hr : Readable f) (hr0 : Readable f0) (hle : f.count ≤ f0.count)
    (hN : fs.length < 2147483648) (n : Int) :
    (next s n).1 = 0 ∧ OnFrame fs f0 (k + 1) (next s n).2 := by
  obtain ⟨o1, o2, o3, o4, o5, o6, o7, -⟩ := hon
  have hlt : k + 1 < fs.length := by
    by_contra hc
    rw [List.getElem?_eq_none (by omega)] at hj
    cases hj
  unfold next
  rw [seek_next_eq s (by rw [o3]; omega) (by rw [o3, o2]; omega) (by rw [o2]; omega)]
  have hrf := readFrame_at fs f0 f (k + 1) s hj hr hr0 hle (by omega) o1 o2 o4 o5
    (Or.inr ⟨o6, o7⟩)
  have hne : ¬ ((0 : Int) = -1) := by decide
  rw [hrf.1, if_neg hne]
  exact ⟨rfl, hrf.2⟩

/-- Stepping `k` times from frame 0 lands on frame `k`. -/
theorem stepTo_on_frame (fs : List Sample) (f0 : Sample) (R : Recorder)
    (hon : OnFrame fs f0 0 R) (hr0 : Readable f0)
    (hread : ∀ f ∈ fs, Readable f ∧ f.count ≤ f0.count)
    (hN : fs.length < 2147483648) :
    ∀ k, k < fs.length → (stepTo k R).1 = 0 ∧ OnFrame fs f0 k (stepTo k R).2 := by
  intro k
  induction k with
  | zero =>
    intro hk
    have e : stepTo 0 R = (0, R) := by
      show first R = (0, R)
      unfold first
      exact seek_first_noop R (by rw [hon.2.2.1]; rfl) (by rw [hon.2.1]; omega)
    rw [e]
    exact ⟨rfl, hon⟩
  | succ k ih =>
    intro hk
    obtain ⟨-, ih2⟩ := ih (by omega)
    have hj : fs[k + 1]? = some (fs.get ⟨k + 1, hk⟩) := List.getElem?_eq_getElem hk
    have hm : fs.get ⟨k + 1, hk⟩ ∈ fs := List.get_mem _ _ _
    exact next_on_frame fs f0 _ k _ ih2 hj (hread _ hm).1 hr0 (hread _ hm).2 hN 1

/-! ## C1 -/

set_option maxRecDepth 100000 in
/-- C1 (counterexample): a sample with an empty info text and one point is recorded
successfully, but the container cannot be read back: open for read, which ends with
`first()`, returns -1, and so does a further `first()`. -/
theorem round_trip_fails_on_empty_info :
    (sampleE.depths.length : Int) = 4 * sampleE.count ∧
    (sampleE.colors.length : Int) = 4 * sampleE.count ∧
    (openFile (fresh 1000) true).1 = 0 ∧
    (recordAll (openFile (fresh 1000) true).2 [sampleE]).1 = [0] ∧
    (openFile (writeSession (fresh 1000) [sampleE]) false).1 = -1 ∧
    (first (openFile (writeSession (fresh 1000) [sampleE]) false).2).1 = -1 := by
  refine ⟨by decide, by decide, ?_, ?_, ?_, ?_⟩ <;> with_unfolding_all decide

/-- C1 (amended): open for write, record `N ≥ 1` samples that all return 0, close, open
for read. If every sample has a NUL-free info text of 1 to 8191 bytes, between 1 and
2^29 - 1 points, `4 * count` bytes of depths and of colors and a 64-bit time, and no
sample has more points than the first one, then open for read succeeds, `first()`
followed by `k` calls of `next()` succeeds for every `k < N`, and after it the cursor
holds `frameNumber = k`, `currentTime = time_k`, `info = info_k`, and the depth and
colour buffers start with `depths_k` and `colors_k` byte for byte; no access left a
buffer. -/
theorem round_trip (s0 : Recorder) (fs : List Sample) (f0 : Sample)
    (hopen : (openFile s0 true).1 = 0)
    (hall : (recordAll (openFile s0 true).2 fs).1 = List.replicate fs.length 0)
    (hN : fs.length < 2147483648) (hfault : s0.fault = false)
    (hhead : fs.head? = some f0)
    (hread : ∀ f ∈ fs, Readable f ∧ f.count ≤ f0.count)
    (k : Nat) (f : Sample) (hk : fs[k]? = some f) :
    (openFile (writeSession s0 fs) false).1 = 0 ∧
    (stepTo k (openFile (writeSession s0 fs) false).2).1 = 0 ∧
    (stepTo k (openFile (writeSession s0 fs) false).2).2.frameNumber = k ∧
    (stepTo k (openFile (writeSession s0 fs) false).2).2.currentTime = f.time ∧
    (stepTo k (openFile (writeSession s0 fs) false).2).2.info = f.info ∧
    ((stepTo k (openFile (writeSession s0 fs) false).2).2.depths.getD []).take
      f.depths.length = f.depths ∧
    ((stepTo k (openFile (writeSession s0 fs) false).2).2.colors.getD []).take
      f.colors.length = f.colors ∧
    (stepTo k (openFile (writeSession s0 fs) false).2).2.fault = false := by
  obtain ⟨h1, h2⟩ := open_after_session s0 fs f0 hopen hall hN hfault hhead hread
  have hmem : f0 ∈ fs := by
    cases fs with
    | nil => simp at hhead
    | cons g gs =>
      simp at hhead
      simp [hhead]
  have hlt : k < fs.length := by
    by_contra hc
    rw [List.getElem?_eq_none (by omega)] at hk
    cases hk
  obtain ⟨r1, o1, o2, o3, o4, o5, o6, o7, o8⟩ :=
    stepTo_on_frame fs f0 _ h2 (hread f0 hmem).1 hread hN k hlt
  obtain ⟨q1, q2, q3, q4⟩ := o8 f hk
  exact ⟨h1, r1, o3, q1, q2, q3, q4, o4⟩

set_option maxRecDepth 100000 in
/-- C1 (witness): three samples (2 points, 1 point, 1 point) written to an empty
storage of 1000 bytes; the third is read back after `first()` and two `next()`. -/
theorem round_trip_witness :
    (openFile (writeSession (fresh 1000) [sampleA, sampleB, sampleC]) false).1 = 0 ∧
    (stepTo 2 (openFile (writeSession (fresh 1000) [sampleA, sampleB, sampleC]) false).2).1
      = 0 ∧
    (stepTo 2 (openFile (writeSession (fresh 1000)
      [sampleA, sampleB, sampleC]) false).2).2.frameNumber = (2 : Nat) ∧
    (stepTo 2 (openFile (writeSession (fresh 1000)
      [sampleA, sampleB, sampleC]) false).2).2.currentTime = sampleC.time ∧
    (stepTo 2 (openFile (writeSession (fresh 1000)
      [sampleA, sampleB, sampleC]) false).2).2.info = sampleC.info ∧
    ((stepTo 2 (openFile (writeSession (fresh 1000)
      [sampleA, sampleB, sampleC]) false).2).2.depths.getD []).take
      sampleC.depths.length = sampleC.depths ∧
    ((stepTo 2 (openFile (writeSession (fresh 1000)
      [sampleA, sampleB, sampleC]) false).2).2.colors.getD []).take
      sampleC.colors.length = sampleC.colors ∧
    (stepTo 2 (openFile (writeSession (fresh 1000)
      [sampleA, sampleB, sampleC]) false).2).2.fault = false :=
  round_trip (fresh 1000) [sampleA, sampleB, sampleC] sampleA
    (by with_unfolding_all decide) (by with_unfolding_all decide) (by decide) rfl rfl
    (by
      intro f hf
      simp only [List.mem_cons, List.mem_singleton, List.not_mem_nil, or_false] at hf
      rcases hf with h | h | h <;> subst h <;> exact ⟨by decide, by decide⟩)
    2 sampleC rfl

/-! ## C2, C3, C4 -/

set_option maxRecDepth 100000 in
/-- C2 (counterexample): on a well-formed container of three frames opened for read,
with the cursor on frame 0, `seek(100, FromEnd)`, `seek(2, FromStart)`,
`seek(2, FromCurrent)` and `last()` all return 0 but leave the cursor on frame 1
instead of frame 2: the from-end strategy calls `prevFrame` once from the end of the
file, and `prevFrame` steps back over two records before it reads one. -/
theorem seek_from_end_lands_one_short :
    (openFile (writeSession (fresh 1000) [sampleA, sampleB, sampleC]) false).1 = 0 ∧
    readerABC.storage =
      header 3 sampleA.time sampleC.time ++ layoutFrom 0 [sampleA, sampleB, sampleC] ∧
    readerABC.frameCount = 3 ∧ readerABC.frameNumber = 0 ∧
    (seek readerABC 100 2).1 = 0 ∧ (seek readerABC 100 2).2.frameNumber = 1 ∧
    (seek readerABC 100 2).2.info = sampleB.info ∧
    (seek readerABC 2 0).1 = 0 ∧ (seek readerABC 2 0).2.frameNumber = 1 ∧
    (seek readerABC 2 1).1 = 0 ∧ (seek readerABC 2 1).2.frameNumber = 1 ∧
    (last readerABC).1 = 0 ∧ (last readerABC).2.frameNumber = 1 := by
  refine ⟨?_, ?_, ?_, ?_, ?_, ?_, ?_, ?_, ?_, ?_, ?_, ?_, ?_⟩ <;> with_unfolding_all decide


set_option maxRecDepth 100000 in
/-- C3 (counterexample): on a container without frames opened for read (open returns 0,
`frameCount = 0`, `frameNumber = -1`), a seek whose target is below 0 returns -1:
the target is clamped to 0 and frame 0, which does not exist, is read. A target of 0 or
more is clamped to `frameCount - 1 = -1`, the cursor position, and returns 0. -/
theorem seek_fails_on_empty_container :
    (openFile (writeSession (fresh 1000) []) false).1 = 0 ∧
    readerEmpty.storage = header 0 0 0 ∧
    readerEmpty.frameCount = 0 ∧ readerEmpty.frameNumber = -1 ∧
    (seek readerEmpty (-1) 0).1 = -1 ∧ (seek readerEmpty 0 1).1 = -1 ∧
    (seek readerEmpty (-1) 2).1 = -1 ∧
    (seek readerEmpty 1 0).1 = 0 ∧ (seek readerEmpty 0 0).1 = 0 := by
  refine ⟨?_, ?_, ?_, ?_, ?_, ?_, ?_, ?_, ?_⟩ <;> with_unfolding_all decide


set_option maxRecDepth 100000 in
/-- C4 (counterexample): on a well-formed container whose frame 0 has one point and
whose frame 1 has two, opened for read with the cursor on frame 0, `next()` reads the
8 depth bytes of frame 1 into the 4-byte buffer allocated for frame 0: `readFrame`
passes capacity 0 to `readn`, which then skips its capacity test. -/
theorem next_overruns_buffer :
    (openFile (writeSession (fresh 1000) [sampleB, sampleA]) false).1 = 0 ∧
    readerBA.storage = header 2 sampleB.time sampleA.time ++ layoutFrom 0 [sampleB, sampleA] ∧
    readerBA.frameCount = 2 ∧ readerBA.frameNumber = 0 ∧ readerBA.fault = false ∧
    readerBA.depths.map List.length = some 4 ∧
    readerBA.colors.map List.length = some 4 ∧
    (next readerBA 1).2.fault = true := by
  refine ⟨?_, ?_, ?_, ?_, ?_, ?_, ?_, ?_⟩ <;> decide!
theorem ite_pass {c : Prop} [Decidable c] {x : Recorder} {y : Int × Recorder}
    (h : (if c then ((-1 : Int), x) else y).1 ≠ -1) : ¬ c ∧ y.1 ≠ -1 := by
  by_cases hc : c
  · rw [if_pos hc] at h
    exact absurd rfl h
  · rw [if_neg hc] at h
    exact ⟨hc, h⟩

/-- An open for read that does not fail found the magic tag and all 32 header bytes. -/
theorem openFile_read_inv (s : Recorder) (h : (openFile s false).1 ≠ -1) :
    ¬ 0 < s.fd ∧ s.present = true ∧ s.storage.take 8 = magic ∧ 32 ≤ s.storage.length := by
  unfold openFile at h
  obtain ⟨c0, h⟩ := ite_pass h
  obtain ⟨c1, h⟩ := ite_pass h
  simp only [Bool.false_eq_true, if_false] at h
  obtain ⟨c2, h⟩ := ite_pass h
  obtain ⟨-, n1, b1, e1⟩ := sysRead_inv _ _ 8 _ rfl (not_not.mp c2) (by decide)
  simp only [e1] at h
  obtain ⟨c3, h⟩ := ite_pass h
  obtain ⟨c4, h⟩ := ite_pass h
  obtain ⟨-, n2, b2, e2⟩ := sysRead_inv _ _ 4 _ rfl (not_not.mp c4) (by decide)
  simp only [e2] at h
  obtain ⟨c5, h⟩ := ite_pass h
  obtain ⟨-, n3, b3, e3⟩ := sysRead_inv _ _ 4 _ rfl (not_not.mp c5) (by decide)
  simp only [e3] at h
  obtain ⟨c6, h⟩ := ite_pass h
  obtain ⟨-, n4, b4, e4⟩ := sysRead_inv _ _ 8 _ rfl (not_not.mp c6) (by decide)
  simp only [e4] at h
  obtain ⟨c7, h⟩ := ite_pass h
  obtain ⟨-, n5, b5, e5⟩ := sysRead_inv _ _ 8 _ rfl (not_not.mp c7) (by decide)
  simp only at n5 b1 c1
  have hm := not_not.mp c3
  rw [b1] at hm
  simp only [List.drop_zero] at hm
  refine ⟨c0, ?_, hm, by omega⟩
  cases hp : s.present
  · exact absurd ⟨trivial, hp⟩ c1
  · rfl

/-! ## C11 -/

/-- C11: open for read returns -1 whenever the first 8 bytes of storage are not the
tag "PointCld" and whenever storage is shorter than the 32-byte header. -/
theorem open_read_rejects_bad_header (s : Recorder)
    (h : s.storage.take 8 ≠ magic ∨ s.storage.length < 32) :
    (openFile s false).1 = -1 := by
  by_contra hc
  obtain ⟨-, -, hm, hl⟩ := openFile_read_inv s hc
  rcases h with h | h
  · exact h hm
  · omega
/-- C11, witness: a file of 32 bytes whose tag differs in its last letter. -/
theorem open_read_rejects_bad_header_witness :
    (badTagFile.storage.take 8 ≠ magic ∨ badTagFile.storage.length < 32) ∧
    (openFile badTagFile false).1 = -1 :=
  ⟨Or.inl (by decide), open_read_rejects_bad_header badTagFile (Or.inl (by decide))⟩

/-- A `read` at or behind the end of storage obtains nothing. -/
theorem sysRead_eof (s : Recorder) (n : Nat) (h : s.storage.length ≤ s.offset) :
    sysRead s n = ([], s) := by
  unfold sysRead
  by_cases hfd : s.fd < 0
  · rw [if_pos hfd]
  · rw [if_neg hfd]
    have e : (s.storage.drop s.offset).take n = [] := by
      rw [List.drop_eq_nil_of_le h]
      exact List.take_nil
    simp only [e]
    rfl

/-- `readFrame` at or behind the end of storage fails on its first read. -/
theorem readFrame_eof (skip : Bool) (s : Recorder) (h : s.storage.length ≤ s.offset) :
    readFrame skip s = (-1, s) := by
  unfold readFrame
  rw [sysRead_eof s 4 h]
  rfl

/-- Open for read on a file that holds the tag only: the version cannot be read. -/
theorem openFile_tag_only (s : Recorder) (hfd : ¬ 0 < s.fd) (hp : s.present = true)
    (hst : s.storage = magic) :
    openFile s false = (-1, { s with
      fd := 3
      forWrite := false
      startTime := 0
      endTime := 0
      currentTime := 0
      frameCount := 0
      frameNumber := -1
      info := []
      depths := none
      colors := none
      offset := 8 }) := by
  unfold openFile
  simp only [if_neg hfd, hp]
  simp only [Bool.true_eq_false, and_false, if_false, Bool.false_eq_true]
  rw [sysRead_fwd _ 8 magic [] (by simp) (by simp only [hst]; rfl) rfl]
  dsimp only []
  simp only [show magic.length = 8 from rfl, ne_eq, not_true_eq_false, if_false]
  rw [sysRead_eof _ 4 (by simp only [hst]; decide)]
  dsimp only []
  simp only [List.length_nil, ne_eq]
  rfl
/-- `seek` on a reader without frames (`frameCount = 0`, `frameNumber = -1`) whose
storage ends at or before offset 32: a target of 0 or more is clamped to -1, the cursor
position, and nothing is done; a target below 0 is clamped to 0 and frame 0 is read
from offset 32, which fails. -/
theorem seek_without_frames (T : Recorder) (hfd : 0 ≤ T.fd) (hfc : T.frameCount = 0)
    (hfn : T.frameNumber = -1) (hlen : T.storage.length ≤ 32) (count whence : Int) :
    seek T count whence = (match resolve T count whence with
      | none => (-1, T)
      | some off => if off < 0 then (-1, { T with offset := 32 }) else (0, T)) := by
  unfold seek
  cases hres : resolve T count whence with
  | none => rfl
  | some off =>
    dsimp only []
    have w1 : wrap32 (-1 - 0) = -1 := by with_unfolding_all decide
    have w2 : wrap32 ((1 : Nat) : Int) = 1 := by with_unfolding_all decide
    have w3 : wrap32 (0 - 0) = 0 := by with_unfolding_all decide
    have w4 : wrap32 (0 - 1) = -1 := by with_unfolding_all decide
    by_cases hneg : off < 0
    · have hcl : clamp T off = 0 := by
        unfold clamp
        rw [if_pos hneg]
      rw [hcl, hfn, hfc, w1, w3, if_pos hneg]
      have n1 : Int.natAbs (-1) = 1 := rfl
      rw [n1, w2]
      have c1 : ¬ ((0 : Int) = -1) := by decide
      have c2 : (0 : Int) < 1 ∧ (0 : Int) ≤ 0 := by decide
      rw [if_neg c1, if_pos c2, sysSeek_fwd0 T 32 hfd (by decide)]
      dsimp only []
      have c3 : ¬ ((32 : Int) = -1) := by decide
      rw [if_neg c3]
      have e1 : ((0 : Int) + 1).toNat = 1 := rfl
      rw [e1]
      unfold hops
      unfold nextFrame
      rw [readFrame_eof _ _ (by exact hlen)]
      dsimp only []
      rw [if_pos rfl, hfn, hfc]
      rfl
    · have hcl : clamp T off = -1 := by
        unfold clamp
        rw [if_neg hneg, hfc, if_pos (by omega), w4]
      rw [hcl, hfn, if_neg hneg]
      rfl
/-! ## C12 -/

set_option maxRecDepth 100000 in
/-- C12 (counterexample): open for read on a file that holds the 8-byte tag and nothing
else returns -1, yet afterwards `first()`, `last()`, `next()` and `seek(5, FromStart)`
return 0. -/
theorem calls_succeed_after_failed_open :
    (openFile tagOnlyFile false).1 = -1 ∧
    (first (openFile tagOnlyFile false).2).1 = 0 ∧
    (last (openFile tagOnlyFile false).2).1 = 0 ∧
    (next (openFile tagOnlyFile false).2 1).1 = 0 ∧
    (seek (openFile tagOnlyFile false).2 5 0).1 = 0 := by
  refine ⟨?_, ?_, ?_, ?_, ?_⟩ <;> with_unfolding_all decide

/-- C12 (amended): open for read on a file that holds the 8-byte tag and nothing else
returns -1 and leaves the descriptor open with `frameCount = 0` and `frameNumber = -1`.
After that every `open` and every `record` call returns -1, `prev()` returns -1, and
`seek` returns -1 exactly when the whence is unknown or the resolved target is below 0;
`first()`, `last()`, `next()` and every `seek` whose resolved target is 0 or more return
0 and change nothing. -/
theorem after_failed_open (s : Recorder) (hfd : ¬ 0 < s.fd) (hp : s.present = true)
    (hst : s.storage = magic) :
    (openFile s false).1 = -1 ∧
    (∀ fw, (openFile (openFile s false).2 fw).1 = -1) ∧
    (∀ time info count depths colors,
      (record (openFile s false).2 time info count depths colors).1 = -1) ∧
    (∀ n, (prev (openFile s false).2 n).1 = -1) ∧
    (∀ count whence, (seek (openFile s false).2 count whence).1 =
      (match resolve (openFile s false).2 count whence with
        | none => -1
        | some off => if off < 0 then -1 else 0)) ∧
    (∀ count whence off, resolve (openFile s false).2 count whence = some off → 0 ≤ off →
      seek (openFile s false).2 count whence = (0, (openFile s false).2)) ∧
    first (openFile s false).2 = (0, (openFile s false).2) ∧
    last (openFile s false).2 = (0, (openFile s false).2) ∧
    (∀ n, next (openFile s false).2 n = (0, (openFile s false).2)) := by
  rw [openFile_tag_only s hfd hp hst]
  generalize hT : ({ s with
      fd := 3
      forWrite := false
      startTime := 0
      endTime := 0
      currentTime := 0
      frameCount := 0
      frameNumber := -1
      info := []
      depths := none
      colors := none
      offset := 8 } : Recorder) = T
  have a1 : T.fd = 3 ∧ T.forWrite = false ∧ T.frameCount = 0 ∧ T.frameNumber = -1 ∧
      T.storage = s.storage := by
    rw [← hT]; exact ⟨rfl, rfl, rfl, rfl, rfl⟩
  obtain ⟨t1, t2, t3, t4, t5⟩ := a1
  have hlen : T.storage.length ≤ 32 := by
    rw [t5, hst]; decide
  have hsk := seek_without_frames T (by rw [t1]; decide) t3 t4 hlen
  have w0 : wrap32 (-1 + 1) = 0 := by with_unfolding_all decide
  have w1 : wrap32 (-1 + -1) = -2 := by with_unfolding_all decide
  have w2 : wrap32 (0 + 0) = 0 := by with_unfolding_all decide
  have r0 : resolve T 0 0 = some 0 := rfl
  have r1 : resolve T 1 1 = some 0 := by
    unfold resolve
    rw [t4, w0]
    rfl
  have r2 : resolve T (-1) 1 = some (-2) := by
    unfold resolve
    rw [t4, w1]
    rfl
  have r3 : resolve T 0 2 = some 0 := by
    unfold resolve
    rw [t3, w2]
    rfl
  refine ⟨rfl, ?_, ?_, ?_, ?_, ?_, ?_, ?_, ?_⟩
  · intro fw
    unfold openFile
    rw [if_pos (by rw [t1]; decide)]
  · intro time info count depths colors
    unfold record
    rw [if_pos t2]
  · intro n
    unfold prev
    rw [hsk, r2]
    rfl
  · intro count whence
    rw [hsk]
    cases resolve T count whence with
    | none => rfl
    | some off =>
      dsimp only []
      by_cases h : off < 0
      · rw [if_pos h, if_pos h]
      · rw [if_neg h, if_neg h]
  · intro count whence off hres hoff
    rw [hsk, hres]
    dsimp only []
    rw [if_neg (by omega)]
  · unfold first
    rw [hsk, r0]
    rfl
  · unfold last
    rw [hsk, r3]
    rfl
  · intro n
    unfold next
    rw [hsk, r1]
    rfl

set_option maxRecDepth 100000 in
/-- C12, witness: a fresh object next to a file that holds the tag only. -/
theorem after_failed_open_witness :
    (¬ 0 < tagOnlyFile.fd ∧ tagOnlyFile.present = true ∧ tagOnlyFile.storage = magic) ∧
    (openFile tagOnlyFile false).1 = -1 ∧
    (openFile (openFile tagOnlyFile false).2 true).1 = -1 ∧
    (prev (openFile tagOnlyFile false).2 1).1 = -1 ∧
    first (openFile tagOnlyFile false).2 = (0, (openFile tagOnlyFile false).2) :=
  have w := after_failed_open tagOnlyFile (by decide) rfl rfl
  ⟨⟨by decide, rfl, rfl⟩, w.1, w.2.1 true, w.2.2.2.1 1, w.2.2.2.2.2.2.1⟩
/-- What a successful `record` leaves behind the old end of storage, and on the object. -/
theorem record_appends (s s1 : Recorder) (time : Nat) (info : List Byte) (count : Int)
    (depths colors : List Byte) (h : record s time info count depths colors = (0, s1))
    (hhdr : 16 ≤ s.storage.length) :
    s1.storage.drop s.storage.length
      = recordBytes s.frameCount time info count depths colors ∧
    s1.storage.length
      = s.storage.length + (recordBytes s.frameCount time info count depths colors).length ∧
    s1.frameNumber = s.frameCount ∧ s1.frameSize = frameSizeOf info count ∧
    Written ⟨time, info, count, depths, colors⟩ := by
  obtain ⟨-, -, ⟨w1, w2, w3⟩, ⟨w4, w5⟩, -, e⟩ :=
    record_inv s s1 time info count depths colors h hhdr
  have hs : s1.storage = s.storage.take 12 ++ be32 (wrap32 (s.frameCount + 1))
      ++ s.storage.drop 16 ++ recordBytes s.frameCount time info count depths colors := by
    rw [e]
  have h12 : (s.storage.take 12).length = 12 := by rw [List.length_take]; omega
  have hl : (s.storage.take 12 ++ be32 (wrap32 (s.frameCount + 1))
      ++ s.storage.drop 16).length = s.storage.length := by
    simp only [List.length_append, h12, be32_length, List.length_drop]
    omega
  refine ⟨?_, ?_, ?_, ?_, ⟨w1, w2, w3, w4, w5⟩⟩
  · rw [hs]
    exact List.drop_left' hl
  · rw [hs, List.length_append, hl]
  · rw [e]
  · rw [e]
/-! ## C13 -/

set_option maxRecDepth 100000 in
/-- C13 (counterexample): a frame of 2^30 points, with `4 * count` bytes of depths and
of colors and the one-letter info "a", is recorded successfully, but `readFrame(false)`
at the offset of its record returns -1: the byte count 2^32 reaches `writen` as 0, so
the fields are written with the length `strlen` finds, here 0. -/
theorem readFrame_fails_on_huge_count :
    (0 < sampleHuge.info.length ∧ sampleHuge.info.length < 8192 ∧ 0 ∉ sampleHuge.info) ∧
    1 ≤ sampleHuge.count ∧
    (sampleHuge.depths.length : Int) = 4 * sampleHuge.count ∧
    (sampleHuge.colors.length : Int) = 4 * sampleHuge.count ∧
    (openFile (fresh 1000) true).2.storage.length = 32 ∧
    (record (openFile (fresh 1000) true).2 sampleHuge.time sampleHuge.info
      sampleHuge.count sampleHuge.depths sampleHuge.colors).1 = 0 ∧
    (readFrame false (sysSeek (record (openFile (fresh 1000) true).2 sampleHuge.time
      sampleHuge.info sampleHuge.count sampleHuge.depths sampleHuge.colors).2 32 0).2).1
      = -1 := by
  refine ⟨by decide, by decide, ?_, ?_, by decide!, by decide!, by decide!⟩
  · unfold sampleHuge
    simp only [List.length_replicate]
    rfl
  · unfold sampleHuge
    simp only [List.length_replicate]
    rfl

/-- C13 (amended): let `record(time, info, count, depths, colors)` return 0, with info
a NUL-free text of 1 to 8191 bytes, `1 ≤ count < 2^29`, depths and colors of
`4 * count` bytes each and the frame index in the `int` range. Then `readFrame(false)`,
applied at the offset where the record was written by a reader on the same storage
whose depth and colour buffers are unallocated or at least `4 * count` bytes long,
returns 0 and yields `frameNumber` = the index record assigned, `currentTime = time`,
the info, the depths and the colors byte for byte, `frameSize` = the size marker
record wrote, and leaves the offset right after the trailing size (the end of
storage); no access left a buffer. -/
theorem readFrame_inverts_record (s s1 r : Recorder) (time : Nat) (info : List Byte)
    (count : Int) (depths colors : List Byte)
    (h : record s time info count depths colors = (0, s1))
    (hhdr : 32 ≤ s.storage.length)
    (hix : -2147483648 ≤ s.frameCount ∧ s.frameCount < 2147483648)
    (hr : Readable ⟨time, info, count, depths, colors⟩)
    (hfd : 0 ≤ r.fd) (hst : r.storage = s1.storage) (hoff : r.offset = s.storage.length)
    (hdb : ∀ b, r.depths = some b → depths.length ≤ b.length)
    (hcb : ∀ b, r.colors = some b → colors.length ≤ b.length) :
    (readFrame false r).1 = 0 ∧
    (readFrame false r).2.frameNumber = s1.frameNumber ∧
    (readFrame false r).2.currentTime = time ∧
    (readFrame false r).2.info = info ∧
    ((readFrame false r).2.depths.getD []).take depths.length = depths ∧
    ((readFrame false r).2.colors.getD []).take colors.length = colors ∧
    (readFrame false r).2.frameSize = s1.frameSize ∧
    (readFrame false r).2.frameSize = rd32 ((s1.storage.drop s.storage.length).take 4) ∧
    (readFrame false r).2.offset = s1.storage.length ∧
    (readFrame false r).2.fault = r.fault := by
  obtain ⟨a1, a2, a3, a4, hw⟩ :=
    record_appends s s1 time info count depths colors h (by omega)
  have hr2 := hr
  obtain ⟨h1, h2, h3, h4, h5, h6, h7, h8⟩ := hr2
  simp only at h1 h2 h3 h4 h5 h6 h7 h8
  obtain ⟨e1, -, -⟩ := sampleRecord_eq s.frameCount ⟨time, info, count, depths, colors⟩ hw
    h4 h5 (by simp only; omega)
  have e2 := sampleRecord_readable s.frameCount ⟨time, info, count, depths, colors⟩ hr
  simp only at e1 e2
  rw [e1, e2] at a1 a2
  have hin : r.storage.drop r.offset
      = encodeRecord (frameSizeOf info count) s.frameCount time info depths colors ++ [] := by
    rw [hst, hoff, a1, List.append_nil]
  have hsz := wrap32_range (wrap32 ((strlen (info ++ [0])).1 + count * 8) + 32)
  have hrf := readFrame_load_eq r (frameSizeOf info count) s.frameCount time info depths
    colors [] hfd hin hsz hix h8 ⟨h1, h2, h3⟩ ⟨by omega, by omega⟩ ⟨by omega, by omega⟩
    hdb hcb
  have hmark : rd32 ((s1.storage.drop s.storage.length).take 4) = frameSizeOf info count := by
    rw [a1]
    unfold encodeRecord
    rw [List.take_left' (be32_length _)]
    exact rd32_be32 _ hsz.1 hsz.2
  rw [hrf]
  refine ⟨rfl, a3.symm, rfl, rfl, ?_, ?_, a4.symm, hmark.symm, ?_, rfl⟩
  · exact List.take_left' rfl
  · exact List.take_left' rfl
  · show r.offset + _ = _
    rw [hoff, a2]

set_option maxRecDepth 100000 in
/-- C13, witness: `sampleA` recorded as the first frame after open for write, read back
from offset 32 through the same descriptor. -/
theorem readFrame_inverts_record_witness :
    (record (openFile (fresh 1000) true).2 sampleA.time sampleA.info sampleA.count
      sampleA.depths sampleA.colors).1 = 0 ∧
    Readable ⟨sampleA.time, sampleA.info, sampleA.count, sampleA.depths, sampleA.colors⟩ ∧
    (readFrame false (sysSeek (record (openFile (fresh 1000) true).2 sampleA.time
      sampleA.info sampleA.count sampleA.depths sampleA.colors).2 32 0).2).1 = 0 ∧
    (readFrame false (sysSeek (record (openFile (fresh 1000) true).2 sampleA.time
      sampleA.info sampleA.count sampleA.depths sampleA.colors).2 32 0).2).2.info
      = sampleA.info ∧
    ((readFrame false (sysSeek (record (openFile (fresh 1000) true).2 sampleA.time
      sampleA.info sampleA.count sampleA.depths sampleA.colors).2 32 0).2).2.depths.getD
      []).take sampleA.depths.length = sampleA.depths :=
  have w := readFrame_inverts_record (openFile (fresh 1000) true).2
    (record (openFile (fresh 1000) true).2 sampleA.time sampleA.info sampleA.count
      sampleA.depths sampleA.colors).2
    (sysSeek (record (openFile (fresh 1000) true).2 sampleA.time sampleA.info sampleA.count
      sampleA.depths sampleA.colors).2 32 0).2
    sampleA.time sampleA.info sampleA.count sampleA.depths sampleA.colors
    (Prod.ext (by decide!) rfl) (by decide!) (by decide!) (by decide)
    (by decide!) (by decide!) (by decide!)
    (fun b hb => absurd hb (by
      rw [show (sysSeek (record (openFile (fresh 1000) true).2 sampleA.time sampleA.info
        sampleA.count sampleA.depths sampleA.colors).2 32 0).2.depths = none from by decide!]
      exact fun e => Option.noConfusion e))
    (fun b hb => absurd hb (by
      rw [show (sysSeek (record (openFile (fresh 1000) true).2 sampleA.time sampleA.info
        sampleA.count sampleA.depths sampleA.colors).2 32 0).2.colors = none from by decide!]
      exact fun e => Option.noConfusion e))
  ⟨by decide!, by decide, w.1, w.2.2.2.1, w.2.2.2.2.1⟩
/-- `lseek(fd, n, SEEK_CUR)` to a known target offset. -/
theorem sysSeek_rel (s : Recorder) (n : Int) (m : Nat) (hfd : 0 ≤ s.fd)
    (hm : (s.offset : Int) + n = m) :
    sysSeek s n 1 = ((m : Int), { s with offset := m }) := by
  rw [sysSeek_fwd1 s n hfd (by omega), hm]
  rfl

/-- A `read` of a chunk that is on storage, to a known target offset. -/
theorem sysRead_to (s : Recorder) (n m : Nat) (chunk rest : List Byte) (hfd : 0 ≤ s.fd)
    (h : s.storage.drop s.offset = chunk ++ rest) (hn : chunk.length = n)
    (hm : s.offset + n = m) :
    sysRead s n = (chunk, { s with offset := m }) := by
  rw [sysRead_fwd s n chunk rest hfd h hn, hm]

/-- `prevFrame` with the offset behind two consecutive records, each closed by a size
marker that states its length: the two backward seeks end at the start of the first of
the two, and `readFrame` is applied there. -/
theorem prevFrame_back (skip : Bool) (r : Recorder) (pre bodyA bodyB rest : List Byte)
    (szA szB : Int) (hfd : 0 ≤ r.fd)
    (hst : r.storage = pre ++ ((bodyA ++ be32 szA) ++ ((bodyB ++ be32 szB) ++ rest)))
    (hoff : r.offset = pre.length + (bodyA.length + 4) + (bodyB.length + 4))
    (hA : szA = (bodyA.length : Int) + 4) (hB : szB = (bodyB.length : Int) + 4)
    (hA2 : szA < 2147483648) (hB2 : szB < 2147483648) :
    prevFrame skip r = readFrame skip { r with offset := pre.length } := by
  have dA : r.storage.drop (pre.length + bodyA.length)
      = be32 szA ++ ((bodyB ++ be32 szB) ++ rest) := by
    have e : r.storage = (pre ++ bodyA) ++ (be32 szA ++ ((bodyB ++ be32 szB) ++ rest)) := by
      rw [hst]
      simp only [List.append_assoc]
    rw [e]
    exact List.drop_left' (by rw [List.length_append])
  have dB : r.storage.drop (pre.length + (bodyA.length + 4) + bodyB.length)
      = be32 szB ++ rest := by
    have e : r.storage = (pre ++ (bodyA ++ be32 szA) ++ bodyB) ++ (be32 szB ++ rest) := by
      rw [hst]
      simp only [List.append_assoc]
    rw [e]
    exact List.drop_left' (by simp only [List.length_append, be32_length])
  have vA : rd32 (be32 szA) = szA := rd32_be32 _ (by omega) hA2
  have vB : rd32 (be32 szB) = szB := rd32_be32 _ (by omega) hB2
  have wA : wrap32 (-szA) = -szA := wrap32_id _ (by omega) (by omega)
  have wB : wrap32 (-szB) = -szB := wrap32_id _ (by omega) (by omega)
  -- step 1: back over the trailing size of the second record
  have k1 := sysSeek_rel r (-4) (pre.length + (bodyA.length + 4) + bodyB.length) hfd
    (by rw [hoff]; push_cast; omega)
  generalize hS1 : ({ r with offset := pre.length + (bodyA.length + 4) + bodyB.length }
    : Recorder) = S1 at k1
  have a1 : S1.fd = r.fd ∧ S1.storage = r.storage ∧
      S1.offset = pre.length + (bodyA.length + 4) + bodyB.length := by
    rw [← hS1]; exact ⟨rfl, rfl, rfl⟩
  obtain ⟨f1, st1, o1⟩ := a1
  have r1 := sysRead_to S1 4 (pre.length + (bodyA.length + 4) + (bodyB.length + 4))
    (be32 szB) rest (by omega) (by rw [st1, o1]; exact dB) rfl (by omega)
  generalize hS2 : ({ S1 with offset := pre.length + (bodyA.length + 4) + (bodyB.length + 4) }
    : Recorder) = S2 at r1
  have a2 : S2.fd = r.fd ∧ S2.storage = r.storage ∧
      S2.offset = pre.length + (bodyA.length + 4) + (bodyB.length + 4) := by
    rw [← hS2]; exact ⟨f1, st1, rfl⟩
  obtain ⟨f2, st2, o2⟩ := a2
  have k2 := sysSeek_rel S2 (-szB) (pre.length + (bodyA.length + 4)) (by omega)
    (by rw [o2, hB]; push_cast; omega)
  generalize hS3 : ({ S2 with offset := pre.length + (bodyA.length + 4) } : Recorder) = S3
    at k2
  have a3 : S3.fd = r.fd ∧ S3.storage = r.storage ∧
      S3.offset = pre.length + (bodyA.length + 4) := by
    rw [← hS3]; exact ⟨f2, st2, rfl⟩
  obtain ⟨f3, st3, o3⟩ := a3
  have k3 := sysSeek_rel S3 (-4) (pre.length + bodyA.length) (by omega)
    (by rw [o3]; push_cast; omega)
  generalize hS4 : ({ S3 with offset := pre.length + bodyA.length } : Recorder) = S4 at k3
  have a4 : S4.fd = r.fd ∧ S4.storage = r.storage ∧ S4.offset = pre.length + bodyA.length := by
    rw [← hS4]; exact ⟨f3, st3, rfl⟩
  obtain ⟨f4, st4, o4⟩ := a4
  have r2 := sysRead_to S4 4 (pre.length + (bodyA.length + 4)) (be32 szA)
    ((bodyB ++ be32 szB) ++ rest) (by omega) (by rw [st4, o4]; exact dA) rfl (by omega)
  generalize hS5 : ({ S4 with offset := pre.length + (bodyA.length + 4) } : Recorder) = S5
    at r2
  have a5 : S5.fd = r.fd ∧ S5.storage = r.storage ∧
      S5.offset = pre.length + (bodyA.length + 4) := by
    rw [← hS5]; exact ⟨f4, st4, rfl⟩
  obtain ⟨f5, st5, o5⟩ := a5
  have k4 := sysSeek_rel S5 (-szA) pre.length (by omega) (by rw [o5, hA]; push_cast; omega)
  have n1 : ¬ (((pre.length + (bodyA.length + 4) + bodyB.length : Nat) : Int) = -1) := by omega
  have n2 : ¬ (((pre.length + (bodyA.length + 4) : Nat) : Int) = -1) := by omega
  have n3 : ¬ (((pre.length + bodyA.length : Nat) : Int) = -1) := by omega
  have n4 : ¬ ((pre.length : Int) = -1) := by omega
  have z1 : ¬ szB = 0 := by omega
  have z2 : ¬ szA = 0 := by omega
  unfold prevFrame
  simp only [k1]
  simp only [n1, if_false]
  simp only [r1]
  simp only [be32_length, ne_eq, not_true_eq_false, if_false, vB, z1, wB]
  simp only [k2]
  simp only [n2, if_false]
  simp only [k3]
  simp only [n3, if_false]
  simp only [r2]
  simp only [be32_length, ne_eq, not_true_eq_false, if_false, vA, z2, wA]
  simp only [k4]
  simp only [n4, if_false]
  rw [← hS5, ← hS4, ← hS3, ← hS2, ← hS1]
/-- A record is its front followed by the trailing size marker. -/
theorem encodeRecord_split (sz ix : Int) (t : Nat) (info depths colors : List Byte) :
    encodeRecord sz ix t info depths colors
      = (be32 sz ++ (be32 ix ++ (be64 t ++ (be32 info.length ++ (info ++ (be32 depths.length
          ++ (depths ++ (be32 colors.length ++ colors)))))))) ++ be32 sz := by
  unfold encodeRecord
  simp only [List.append_assoc]

/-- Length of the record of a sample whose size markers are exact. -/
theorem sampleRecord_length (ix : Int) (f : Sample) (h : Framed f) :
    frameSizeOf f.info f.count = ((cstr f.info).length : Int) + 8 * f.count + 32 ∧
    ((sampleRecord ix f).length : Int) = frameSizeOf f.info f.count := by
  obtain ⟨h1, h2, h3, h4, -⟩ := h
  have e1 : frameSizeOf f.info f.count = ((cstr f.info).length : Int) + 8 * f.count + 32 := by
    unfold frameSizeOf
    have i1 : wrap32 (((cstr f.info).length : Int) + f.count * 8)
        = ((cstr f.info).length : Int) + f.count * 8 := wrap32_id _ (by omega) (by omega)
    rw [strlen_cstr, i1, wrap32_id _ (by omega) (by omega)]
    omega
  refine ⟨e1, ?_⟩
  rw [e1]
  unfold sampleRecord
  rw [encodeRecord_length, List.length_take, List.length_take]
  have m1 : min (4 * f.count).toNat f.depths.length = (4 * f.count).toNat := by omega
  have m2 : min (4 * f.count).toNat f.colors.length = (4 * f.count).toNat := by omega
  rw [m1, m2]
  push_cast
  omega

/-- The layout of a concatenation. -/
theorem layoutFrom_append (a : List Sample) : ∀ (ix : Int) (b : List Sample),
    layoutFrom ix (a ++ b) = layoutFrom ix a ++ layoutFrom (ix + a.length) b := by
  induction a with
  | nil =>
    intro ix b
    simp [layoutFrom]
  | cons x xs ih =>
    intro ix b
    have e : ix + 1 + (xs.length : Int) = ix + ((xs.length + 1 : Nat) : Int) := by
      push_cast
      omega
    show sampleRecord ix x ++ layoutFrom (ix + 1) (xs ++ b)
      = (sampleRecord ix x ++ layoutFrom (ix + 1) xs)
        ++ layoutFrom (ix + ((xs.length + 1 : Nat) : Int)) b
    rw [ih, e, List.append_assoc]

/-- The container splits at record `j`. -/
theorem layoutFrom_split (fs : List Sample) (j : Nat) (f : Sample) (hj : fs[j]? = some f) :
    layoutFrom 0 fs = layoutFrom 0 (fs.take j)
      ++ (sampleRecord j f ++ layoutFrom ((j : Int) + 1) (fs.drop (j + 1))) := by
  have hlt : j < fs.length := by
    by_contra hc
    rw [List.getElem?_eq_none (by omega)] at hj
    cases hj
  have e := layoutFrom_append (fs.take j) 0 (fs.drop j)
  rw [List.take_append_drop] at e
  rw [e, List.length_take, Nat.min_eq_left (by omega), Int.zero_add,
    layoutFrom_at fs j f j hj]

/-- Consecutive record starts differ by the length of the record between them. -/
theorem recordStart_succ (fs : List Sample) (j : Nat) (f : Sample) (hj : fs[j]? = some f) :
    recordStart fs (j + 1) = recordStart fs j + (sampleRecord j f).length := by
  have hlt : j < fs.length := by
    by_contra hc
    rw [List.getElem?_eq_none (by omega)] at hj
    cases hj
  unfold recordStart
  have e1 : fs.take (j + 1) = fs.take j ++ [f] := by
    rw [List.take_succ, hj]
    rfl
  have e2 := layoutFrom_append (fs.take j) 0 [f]
  rw [e1, e2, List.length_append, List.length_take, Nat.min_eq_left (by omega)]
  simp only [layoutFrom, List.append_nil, Int.zero_add]
  omega
/-- Skip mode on a record whose size marker states its length. -/
theorem readFrame_skip_at (s : Recorder) (sz ix : Int) (t : Nat)
    (info depths colors rest : List Byte) (hfd : 0 ≤ s.fd)
    (hin : s.storage.drop s.offset = encodeRecord sz ix t info depths colors ++ rest)
    (hsz : sz = ((encodeRecord sz ix t info depths colors).length : Int))
    (hsz2 : sz < 2147483648)
    (hix : -2147483648 ≤ ix ∧ ix < 2147483648) (ht : t < 18446744073709551616) :
    readFrame true s = (0, { s with
      offset := s.offset + (encodeRecord sz ix t info depths colors).length
      currentTime := t
      frameSize := sz
      frameNumber := ix }) := by
  have hl := encodeRecord_length sz ix t info depths colors
  have hlen : s.offset + 16 ≤ s.storage.length := by
    have e := congrArg List.length hin
    rw [List.length_drop, List.length_append, hl] at e
    omega
  have hpos : 0 ≤ (s.offset : Int) + sz := by omega
  have e : ((s.offset : Int) + sz).toNat
      = s.offset + (encodeRecord sz ix t info depths colors).length := by
    omega
  have hin2 : s.storage.drop s.offset = be32 sz ++ (be32 ix ++ (be64 t ++
      ((be32 info.length ++ (info ++ (be32 depths.length ++ (depths ++ (be32 colors.length
        ++ (colors ++ be32 sz)))))) ++ rest))) := by
    rw [hin]
    unfold encodeRecord
    simp only [List.append_assoc]
  have d4 : s.storage.drop (s.offset + 4) = be32 ix ++ (be64 t ++
      ((be32 info.length ++ (info ++ (be32 depths.length ++ (depths ++ (be32 colors.length
        ++ (colors ++ be32 sz)))))) ++ rest)) := drop_add_of_drop hin2
  have d8 : s.storage.drop (s.offset + 8) = be64 t ++
      ((be32 info.length ++ (info ++ (be32 depths.length ++ (depths ++ (be32 colors.length
        ++ (colors ++ be32 sz)))))) ++ rest) := drop_add_of_drop d4
  have v1 : rd32 ((s.storage.drop s.offset).take 4) = sz := by
    rw [hin2, List.take_left' (be32_length _)]
    exact rd32_be32 _ (by omega) hsz2
  have v2 : rd32 ((s.storage.drop (s.offset + 4)).take 4) = ix := by
    rw [d4, List.take_left' (be32_length _)]
    exact rd32_be32 _ hix.1 hix.2
  have v3 : rd64 ((s.storage.drop (s.offset + 8)).take 8) = t := by
    rw [d8, List.take_left' (be64_length _)]
    exact rd64_be64 _ ht
  rw [readFrame_skip_eq s hfd hlen (by rw [v1]; exact hpos), v1, v2, v3, e]
/-- On a well-formed container, `prevFrame` called at the end of record `j + 1` applies
`readFrame` at the start of record `j`, where the record of `fs[j]` lies. -/
theorem prevFrame_at (skip : Bool) (r : Recorder) (H : List Byte) (fs : List Sample)
    (j : Nat) (f : Sample) (hfd : 0 ≤ r.fd) (hH : H.length = 32)
    (hst : r.storage = H ++ layoutFrom 0 fs) (hfr : ∀ g ∈ fs, Framed g)
    (hf : fs[j]? = some f) (hj : j + 1 < fs.length)
    (hoff : r.offset = recordStart fs (j + 2)) :
    prevFrame skip r = readFrame skip { r with offset := recordStart fs j } ∧
    r.storage.drop (recordStart fs j)
      = sampleRecord j f ++ layoutFrom ((j : Int) + 1) (fs.drop (j + 1)) := by
  have hg : fs[j + 1]? = some (fs.get ⟨j + 1, hj⟩) := List.getElem?_eq_getElem hj
  generalize fs.get ⟨j + 1, hj⟩ = g at hg
  have mf : f ∈ fs := List.getElem?_mem hf
  have mg : g ∈ fs := List.getElem?_mem hg
  obtain ⟨sf1, sf2⟩ := sampleRecord_length j f (hfr f mf)
  obtain ⟨sg1, sg2⟩ := sampleRecord_length ((j : Int) + 1) g (hfr g mg)
  obtain ⟨-, -, -, bf, -⟩ := hfr f mf
  obtain ⟨-, -, -, bg, -⟩ := hfr g mg
  have o1 := recordStart_succ fs j f hf
  have o2 := recordStart_succ fs (j + 1) g hg
  have hpre : (H ++ layoutFrom 0 (fs.take j)).length = recordStart fs j := by
    unfold recordStart
    rw [List.length_append, hH]
  have lf := encodeRecord_length (frameSizeOf f.info f.count) j f.time (cstr f.info)
    (f.depths.take (4 * f.count).toNat) (f.colors.take (4 * f.count).toNat)
  have lg := encodeRecord_length (frameSizeOf g.info g.count) ((j : Int) + 1) g.time
    (cstr g.info) (g.depths.take (4 * g.count).toNat) (g.colors.take (4 * g.count).toNat)
  have s1 := layoutFrom_split fs j f hf
  have s2 := layoutFrom_at fs (j + 1) g ((j : Int) + 1) hg
  have hdrop : r.storage.drop (recordStart fs j)
      = sampleRecord j f ++ layoutFrom ((j : Int) + 1) (fs.drop (j + 1)) := by
    rw [hst, s1, ← List.append_assoc]
    exact List.drop_left' hpre
  refine ⟨?_, hdrop⟩
  have ef := encodeRecord_split (frameSizeOf f.info f.count) j f.time (cstr f.info)
    (f.depths.take (4 * f.count).toNat) (f.colors.take (4 * f.count).toNat)
  have eg := encodeRecord_split (frameSizeOf g.info g.count) ((j : Int) + 1) g.time
    (cstr g.info) (g.depths.take (4 * g.count).toNat) (g.colors.take (4 * g.count).toNat)
  generalize hbA : be32 (frameSizeOf f.info f.count) ++ (be32 (j : Int) ++ (be64 f.time ++
    (be32 (cstr f.info).length ++ (cstr f.info ++
      (be32 (f.depths.take (4 * f.count).toNat).length ++
        (f.depths.take (4 * f.count).toNat ++
          (be32 (f.colors.take (4 * f.count).toNat).length ++
            f.colors.take (4 * f.count).toNat))))))) = bodyA at ef
  generalize hbB : be32 (frameSizeOf g.info g.count) ++ (be32 ((j : Int) + 1) ++ (be64 g.time ++
    (be32 (cstr g.info).length ++ (cstr g.info ++
      (be32 (g.depths.take (4 * g.count).toNat).length ++
        (g.depths.take (4 * g.count).toNat ++
          (be32 (g.colors.take (4 * g.count).toNat).length ++
            g.colors.take (4 * g.count).toNat))))))) = bodyB at eg
  have ef2 : sampleRecord j f = bodyA ++ be32 (frameSizeOf f.info f.count) := ef
  have eg2 : sampleRecord ((j : Int) + 1) g = bodyB ++ be32 (frameSizeOf g.info g.count) := eg
  have la : ((bodyA.length : Int) + 4) = frameSizeOf f.info f.count := by
    rw [← sf2, ef2, List.length_append, be32_length]
    push_cast
    rfl
  have lb : ((bodyB.length : Int) + 4) = frameSizeOf g.info g.count := by
    rw [← sg2, eg2, List.length_append, be32_length]
    push_cast
    rfl
  have lenA : (sampleRecord j f).length = bodyA.length + 4 := by
    rw [ef2, List.length_append, be32_length]
  have lenB : (sampleRecord ((j : Int) + 1) g).length = bodyB.length + 4 := by
    rw [eg2, List.length_append, be32_length]
  have hs : r.storage = (H ++ layoutFrom 0 (fs.take j))
      ++ ((bodyA ++ be32 (frameSizeOf f.info f.count))
        ++ ((bodyB ++ be32 (frameSizeOf g.info g.count))
          ++ layoutFrom ((j : Int) + 1 + 1) (fs.drop (j + 1 + 1)))) := by
    rw [hst, s1, s2, ef2, eg2]
    simp only [List.append_assoc]
  have hcast : (((j + 1 : Nat) : Int)) = (j : Int) + 1 := by push_cast; rfl
  rw [hcast] at o2
  have hoff2 : r.offset = (H ++ layoutFrom 0 (fs.take j)).length + (bodyA.length + 4)
      + (bodyB.length + 4) := by
    rw [hoff, hpre, o2, o1, lenA, lenB]
  have h1 : frameSizeOf f.info f.count < 2147483648 := by rw [sf1]; exact bf
  have h2 : frameSizeOf g.info g.count < 2147483648 := by rw [sg1]; exact bg
  rw [prevFrame_back skip r _ bodyA bodyB _ _ _ hfd hs hoff2 la.symm lb.symm h1 h2, hpre]
/-! ## C14 -/

set_option maxRecDepth 100000 in
/-- C14 (counterexample): three frames are recorded successfully, the middle one with
an empty info; the container opens for read. With the offset at the end of record 2,
`prevFrame(true)` returns 0 and sets `frameNumber = 1`, but `prevFrame(false)` returns
-1: `readn` rejects the info field of length 0. -/
theorem prevFrame_load_fails_on_empty_info :
    (recordAll (openFile (fresh 1000) true).2 [sampleB, sampleE, sampleC]).1 = [0, 0, 0] ∧
    (openFile (writeSession (fresh 1000) [sampleB, sampleE, sampleC]) false).1 = 0 ∧
    readerBEC.storage = header 3 sampleB.time sampleC.time
      ++ layoutFrom 0 [sampleB, sampleE, sampleC] ∧
    readerBEC.offset = recordStart [sampleB, sampleE, sampleC] 3 ∧
    (prevFrame true readerBEC).1 = 0 ∧
    (prevFrame true readerBEC).2.frameNumber = 1 ∧
    (prevFrame false readerBEC).1 = -1 := by
  refine ⟨?_, ?_, ?_, ?_, ?_, ?_, ?_⟩ <;> decide!

/-- C14 (amended): in a well-formed container (a 32-byte header followed by the records
of `fs`, each with exact size markers) of fewer than 2^31 frames, let the offset stand
at the end of record `j + 1`. Then `prevFrame(true)` returns 0, sets `frameNumber = j`
with the time and the size of record `j`, leaves the offset at the end of record `j`
(the start of record `j + 1`) and does not touch info, depths and colors.
`prevFrame(false)` does the same and loads info, depths and colors of record `j`,
provided frame `j` has a NUL-free info of 1 to 8191 bytes and at least one point and
the depth and colour buffers are unallocated or large enough for it. -/
theorem prevFrame_moves_back_one (skip : Bool) (r : Recorder) (H : List Byte)
    (fs : List Sample) (j : Nat) (f : Sample) (hfd : 0 ≤ r.fd) (hH : H.length = 32)
    (hst : r.storage = H ++ layoutFrom 0 fs) (hfr : ∀ g ∈ fs, Framed g)
    (hN : fs.length < 2147483648)
    (hf : fs[j]? = some f) (hj : j + 1 < fs.length)
    (hoff : r.offset = recordStart fs (j + 2))
    (hload : skip = false → Readable f ∧
      (∀ b, r.depths = some b → f.depths.length ≤ b.length) ∧
      (∀ b, r.colors = some b → f.colors.length ≤ b.length)) :
    (prevFrame skip r).1 = 0 ∧
    (prevFrame skip r).2.frameNumber = j ∧
    (prevFrame skip r).2.currentTime = f.time ∧
    (prevFrame skip r).2.frameSize = frameSizeOf f.info f.count ∧
    (prevFrame skip r).2.frameSize = (sampleRecord j f).length ∧
    (prevFrame skip r).2.offset = recordStart fs (j + 1) ∧
    (prevFrame skip r).2.storage = r.storage ∧
    (prevFrame skip r).2.fault = r.fault ∧
    (skip = true → (prevFrame skip r).2.info = r.info ∧
      (prevFrame skip r).2.depths = r.depths ∧ (prevFrame skip r).2.colors = r.colors) ∧
    (skip = false → (prevFrame skip r).2.info = f.info ∧
      ((prevFrame skip r).2.depths.getD []).take f.depths.length = f.depths ∧
      ((prevFrame skip r).2.colors.getD []).take f.colors.length = f.colors) := by
  obtain ⟨hp, hdrop⟩ := prevFrame_at skip r H fs j f hfd hH hst hfr hf hj hoff
  have mf : f ∈ fs := List.getElem?_mem hf
  obtain ⟨sf1, sf2⟩ := sampleRecord_length j f (hfr f mf)
  obtain ⟨-, -, -, bf, bt⟩ := hfr f mf
  have o1 := recordStart_succ fs j f hf
  have hsz := wrap32_range (wrap32 ((strlen (f.info ++ [0])).1 + f.count * 8) + 32)
  have hix : -2147483648 ≤ (j : Int) ∧ (j : Int) < 2147483648 := by omega
  rw [hp]
  generalize hS : ({ r with offset := recordStart fs j } : Recorder) = S
  have a1 : S.fd = r.fd ∧ S.storage = r.storage ∧ S.offset = recordStart fs j ∧
      S.fault = r.fault ∧ S.info = r.info ∧ S.depths = r.depths ∧ S.colors = r.colors := by
    rw [← hS]; exact ⟨rfl, rfl, rfl, rfl, rfl, rfl, rfl⟩
  obtain ⟨t1, t2, t3, t4, t5, t6, t7⟩ := a1
  cases skip with
  | true =>
    have hin : S.storage.drop S.offset
        = encodeRecord (frameSizeOf f.info f.count) j f.time (cstr f.info)
            (f.depths.take (4 * f.count).toNat) (f.colors.take (4 * f.count).toNat)
          ++ layoutFrom ((j : Int) + 1) (fs.drop (j + 1)) := by
      rw [t2, t3]
      exact hdrop
    rw [readFrame_skip_at S _ _ _ _ _ _ _ (by rw [t1]; exact hfd) hin sf2.symm hsz.2 hix bt]
    refine ⟨rfl, rfl, rfl, rfl, sf2.symm, ?_, t2, t4, ?_, ?_⟩
    · show S.offset + _ = _
      rw [t3]
      exact o1.symm
    · intro _
      exact ⟨t5, t6, t7⟩
    · intro h
      cases h
  | false =>
    obtain ⟨hr, hdb, hcb⟩ := hload rfl
    have e2 := sampleRecord_readable j f hr
    obtain ⟨h1, h2, h3, h4, h5, h6, h7, h8⟩ := hr
    have hin : S.storage.drop S.offset
        = encodeRecord (frameSizeOf f.info f.count) j f.time f.info f.depths f.colors
          ++ layoutFrom ((j : Int) + 1) (fs.drop (j + 1)) := by
      rw [t2, t3, ← e2]
      exact hdrop
    rw [readFrame_load_eq S _ _ _ _ _ _ _ (by rw [t1]; exact hfd) hin hsz hix h8 ⟨h1, h2, h3⟩
      ⟨by omega, by omega⟩ ⟨by omega, by omega⟩ (by rw [t6]; exact hdb) (by rw [t7]; exact hcb)]
    refine ⟨rfl, rfl, rfl, rfl, sf2.symm, ?_, t2, t4, ?_, ?_⟩
    · show S.offset + _ = _
      rw [t3, ← e2]
      exact o1.symm
    · intro h
      cases h
    · intro _
      exact ⟨rfl, List.take_left' rfl, List.take_left' rfl⟩
set_option maxRecDepth 100000 in
/-- C14, witness: `prevFrame(false)` from the end of record 2 of a three-frame
container loads record 1. -/
theorem prevFrame_moves_back_one_witness :
    (readerABCEnd.storage = header 3 sampleA.time sampleC.time
        ++ layoutFrom 0 [sampleA, sampleB, sampleC] ∧
      readerABCEnd.offset = recordStart [sampleA, sampleB, sampleC] (1 + 2) ∧
      Readable sampleB) ∧
    (prevFrame false readerABCEnd).1 = 0 ∧
    (prevFrame false readerABCEnd).2.frameNumber = (1 : Nat) ∧
    (prevFrame false readerABCEnd).2.offset = recordStart [sampleA, sampleB, sampleC] (1 + 1) :=
  have w := prevFrame_moves_back_one false readerABCEnd (header 3 sampleA.time sampleC.time)
    [sampleA, sampleB, sampleC] 1 sampleB (by decide!) rfl (by decide!)
    (by
      intro g hg
      simp only [List.mem_cons, List.mem_singleton, List.not_mem_nil, or_false] at hg
      rcases hg with h | h | h <;> subst h <;> decide)
    (by decide) rfl (by decide) (by decide!)
    (fun _ => ⟨by decide,
      fun b hb => by
        rw [show readerABCEnd.depths = some [63, 128, 0, 0, 64, 0, 0, 0] from by decide!] at hb
        cases hb
        decide,
      fun b hb => by
        rw [show readerABCEnd.colors = some [0, 0, 0, 0, 1, 1, 1, 1] from by decide!] at hb
        cases hb
        decide⟩)
  ⟨⟨by decide!, by decide!, by decide⟩, w.1, w.2.1, w.2.2.2.2.2.1⟩
/-! ## C20 -/

/-- C20: on a reader with `F ≥ 1` frames (`F` in the `int` range), `next()` with the
cursor on the last frame (`frameNumber = F - 1`) and `prev()` with the cursor on frame 0
return 0 and leave the whole object, cursor fields and storage offset included,
unchanged, whatever count argument they are given. -/
theorem stepping_past_an_end_is_a_noop (s : Recorder) (n : Int)
    (h1 : 1 ≤ s.frameCount) (h2 : s.frameCount < 2147483648) :
    (s.frameNumber = s.frameCount - 1 → next s n = (0, s)) ∧
    (s.frameNumber = 0 → prev s n = (0, s)) := by
  constructor
  · intro hfn
    have w1 : wrap32 (s.frameCount - 1 + 1) = s.frameCount := by
      rw [wrap32_id _ (by omega) (by omega)]
      omega
    have w2 : wrap32 (s.frameCount - 1) = s.frameCount - 1 := wrap32_id _ (by omega) (by omega)
    have c1 : ¬ (s.frameCount < 0) := by omega
    have c2 : s.frameCount ≥ s.frameCount := le_refl _
    unfold next seek
    simp only [resolve, clamp, hfn, w1, w2, c1, c2, if_false, if_true, one_ne_zero]
  · intro hfn
    have w1 : wrap32 (0 + -1) = -1 := by with_unfolding_all decide
    have c1 : (-1 : Int) < 0 := by decide
    have c3 : ¬ ((-1 : Int) = 0) := by decide
    have c4 : ¬ ((1 : Int) = 0) := by decide
    unfold prev seek
    simp only [resolve, clamp, hfn, w1, c1, c3, c4, if_false, if_true]

set_option maxRecDepth 100000 in
/-- C20, witness: a three-frame container with the cursor on frame 2; `next()` changes
nothing. -/
theorem stepping_past_an_end_is_a_noop_witness :
    (1 ≤ readerABCLast.frameCount ∧ readerABCLast.frameCount < 2147483648 ∧
      readerABCLast.frameNumber = readerABCLast.frameCount - 1) ∧
    next readerABCLast 1 = (0, readerABCLast) :=
  ⟨⟨by decide!, by decide!, by decide!⟩,
    (stepping_past_an_end_is_a_noop readerABCLast 1 (by decide!) (by decide!)).1 (by decide!)⟩
/-! ## C19 -/

/-- C19: a successful open for write leaves storage holding exactly 32 bytes: the tag
"PointCld", version 1 and frameCount 0 as big-endian 32-bit integers, startTime 0 and
endTime 0 as 64-bit patterns, with the offset at 32. The frameCount field is at offset
12: a following successful `record` changes the header only in bytes 12 to 15 (to
count 1) and puts its record at offset 32, a following `close` rewrites bytes 12 to 31
(count and the two times), and the from-start strategy of `seek` (here `first()` on a
reader that has not read a frame) repositions to offset 32 before it reads. -/
theorem open_write_lays_header (s w : Recorder) (h : openFile s true = (0, w)) :
    w.storage = magic ++ (be32 1 ++ (be32 0 ++ (be64 0 ++ be64 0))) ∧
    w.storage.length = 32 ∧ w.offset = 32 ∧
    w.storage.take 8 = [80, 111, 105, 110, 116, 67, 108, 100] ∧
    (w.storage.drop 8).take 4 = [0, 0, 0, 1] ∧
    (w.storage.drop 12).take 4 = [0, 0, 0, 0] ∧
    (w.storage.drop 16).take 8 = [0, 0, 0, 0, 0, 0, 0, 0] ∧
    w.storage.drop 24 = [0, 0, 0, 0, 0, 0, 0, 0] ∧
    (∀ time info count depths colors w1,
      record w time info count depths colors = (0, w1) →
      w1.storage = magic ++ (be32 1 ++ (be32 1 ++ (be64 0 ++ be64 0)))
        ++ recordBytes 0 time info count depths colors ∧
      (close w1).storage = magic ++ (be32 1 ++ (be32 1 ++ (be64 time ++ be64 time)))
        ++ recordBytes 0 time info count depths colors) ∧
    (∀ t : Recorder, 0 ≤ t.fd → t.frameNumber = -1 → 1 ≤ t.frameCount →
      t.frameCount < 2147483648 →
      first t = (if (readFrame false { t with offset := 32 }).1 = -1
        then (-1, (readFrame false { t with offset := 32 }).2)
        else (0, (readFrame false { t with offset := 32 }).2))) := by
  obtain ⟨-, -, e⟩ := openFile_write_inv s w h
  have hst : w.storage = header 0 0 0 := by rw [e]
  have hoff : w.offset = 32 := by rw [e]
  have hfd : w.fd = 3 := by rw [e]
  have hfc : w.frameCount = 0 := by rw [e]
  refine ⟨hst, by rw [hst]; rfl, hoff, by rw [hst]; rfl, by rw [hst]; rfl, by rw [hst]; rfl,
    by rw [hst]; rfl, by rw [hst]; rfl, ?_, ?_⟩
  · intro time info count depths colors w1 hr
    obtain ⟨r1, r2, -, -, room, e1⟩ :=
      record_inv w w1 time info count depths colors hr (by rw [hst]; decide)
    have w0 : wrap32 (0 + 1) = 1 := by with_unfolding_all decide
    have hs1 : w1.storage = header 1 0 0 ++ recordBytes 0 time info count depths colors := by
      rw [e1]
      show w.storage.take 12 ++ be32 (wrap32 (w.frameCount + 1)) ++ w.storage.drop 16
        ++ recordBytes w.frameCount time info count depths colors = _
      rw [hfc, hst, w0]
      rfl
    refine ⟨hs1, ?_⟩
    have hc := close_write w1 1 0 0 (recordBytes 0 time info count depths colors)
      (by rw [e1]; show 0 < w.fd; rw [hfd]; decide) (by rw [e1]; exact r1) hs1
      (by
        rw [hs1, List.length_append, header_length]
        rw [hst, header_length, hfc] at room
        have hl : w1.limit = w.limit := by rw [e1]
        rw [hl]
        exact room)
    rw [hc]
    show header w1.frameCount w1.startTime w1.endTime ++ _ = _
    have f1 : w1.frameCount = 1 := by
      rw [e1]
      show wrap32 (w.frameCount + 1) = 1
      rw [hfc, w0]
    have f2 : w1.startTime = time := by
      rw [e1]
      show (if w.frameCount = 0 then time else w.startTime) = time
      rw [if_pos hfc]
    have f3 : w1.endTime = time := by rw [e1]
    rw [f1, f2, f3]
    rfl
  · intro t h0 h1 h2 h3
    unfold first
    exact seek_first_eq t h0 h1 h2 h3

set_option maxRecDepth 100000 in
/-- C19, witness: open for write on a fresh object with room for 1000 bytes. -/
theorem open_write_lays_header_witness :
    (openFile (fresh 1000) true).1 = 0 ∧
    (openFile (fresh 1000) true).2.storage.length = 32 ∧
    (openFile (fresh 1000) true).2.storage.take 8 = [80, 111, 105, 110, 116, 67, 108, 100] ∧
    ((openFile (fresh 1000) true).2.storage.drop 12).take 4 = [0, 0, 0, 0] :=
  have w := open_write_lays_header (fresh 1000) (openFile (fresh 1000) true).2
    (Prod.ext (by decide!) rfl)
  ⟨by decide!, w.2.1, w.2.2.2.1, w.2.2.2.2.2.1⟩
/-! ## C17 -/

set_option maxRecDepth 100000 in
/-- C17 (counterexample): for a frame with the one-letter info "a" and 2 points, the
leading and the trailing size marker that `record` writes both hold 49, not
`1 + 8 * 2 + 24 = 41`. -/
theorem size_marker_is_not_plus_24 :
    (recordAll (openFile (fresh 1000) true).2 [sampleA]).1 = [0] ∧
    (sampleA.info.length : Int) + 8 * sampleA.count + 24 = 41 ∧
    rd32 (((recordAll (openFile (fresh 1000) true).2 [sampleA]).2.storage.drop 32).take 4)
      = 49 ∧
    rd32 ((recordAll (openFile (fresh 1000) true).2 [sampleA]).2.storage.drop
      ((recordAll (openFile (fresh 1000) true).2 [sampleA]).2.storage.length - 4)) = 49 := by
  refine ⟨?_, ?_, ?_, ?_⟩ <;> decide!

/-- C17 (amended): the size a successful `record` writes as leading and as trailing
marker, and keeps in `frameSize`, is `strlen(info) + 8 * count + 32` computed in 32
bits: the overhead counts six 32-bit fields (the two size markers, the index and the
three length prefixes) and the 8-byte time. For an info without NUL byte, a count of 0
or more and a sum that fits an `int`, that is `len(info) + 8 * count + 32`. -/
theorem size_marker_value (s s1 : Recorder) (time : Nat) (info : List Byte) (count : Int)
    (depths colors : List Byte) (h : record s time info count depths colors = (0, s1))
    (hhdr : 16 ≤ s.storage.length) :
    rd32 ((s1.storage.drop s.storage.length).take 4)
      = wrap32 (wrap32 (((cstr info).length : Int) + count * 8) + 32) ∧
    rd32 (s1.storage.drop (s1.storage.length - 4))
      = wrap32 (wrap32 (((cstr info).length : Int) + count * 8) + 32) ∧
    s1.frameSize = wrap32 (wrap32 (((cstr info).length : Int) + count * 8) + 32) ∧
    (0 ∉ info → 0 ≤ count → (info.length : Int) + 8 * count + 32 < 2147483648 →
      wrap32 (wrap32 (((cstr info).length : Int) + count * 8) + 32)
        = (info.length : Int) + 8 * count + 32) := by
  obtain ⟨a1, a2, -, a4, -⟩ := record_appends s s1 time info count depths colors h hhdr
  have hsz : frameSizeOf info count
      = wrap32 (wrap32 (((cstr info).length : Int) + count * 8) + 32) := by
    unfold frameSizeOf
    rw [strlen_cstr]
  have hr := wrap32_range (wrap32 (((cstr info).length : Int) + count * 8) + 32)
  have hv : rd32 (be32 (frameSizeOf info count))
      = wrap32 (wrap32 (((cstr info).length : Int) + count * 8) + 32) := by
    rw [hsz]
    exact rd32_be32 _ hr.1 hr.2
  obtain ⟨X, hX⟩ : ∃ X, recordBytes s.frameCount time info count depths colors
      = X ++ be32 (frameSizeOf info count) := ⟨_, rfl⟩
  obtain ⟨Y, hY⟩ : ∃ Y, recordBytes s.frameCount time info count depths colors
      = be32 (frameSizeOf info count) ++ Y := by
    unfold recordBytes
    simp only [List.append_assoc]
    exact ⟨_, rfl⟩
  refine ⟨?_, ?_, ?_, ?_⟩
  · rw [a1, hY, List.take_left' (be32_length _)]
    exact hv
  · rw [hX] at a1 a2
    have e := drop_add_of_drop a1
    have hl : s1.storage.length - 4 = s.storage.length + X.length := by
      rw [a2, List.length_append, be32_length]
      omega
    rw [hl, e]
    exact hv
  · rw [a4, hsz]
  · intro hn hc hb
    rw [cstr_of_no_nul info hn]
    have i1 : wrap32 ((info.length : Int) + count * 8) = (info.length : Int) + count * 8 :=
      wrap32_id _ (by omega) (by omega)
    rw [i1, wrap32_id _ (by omega) (by omega)]
    omega

set_option maxRecDepth 100000 in
/-- C17, witness: `sampleA` recorded as the first frame; the marker holds
`1 + 8 * 2 + 32 = 49`. -/
theorem size_marker_value_witness :
    (record (openFile (fresh 1000) true).2 sampleA.time sampleA.info sampleA.count
      sampleA.depths sampleA.colors).1 = 0 ∧
    rd32 (((record (openFile (fresh 1000) true).2 sampleA.time sampleA.info sampleA.count
      sampleA.depths sampleA.colors).2.storage.drop
        (openFile (fresh 1000) true).2.storage.length).take 4)
      = wrap32 (wrap32 (((cstr sampleA.info).length : Int) + sampleA.count * 8) + 32) ∧
    wrap32 (wrap32 (((cstr sampleA.info).length : Int) + sampleA.count * 8) + 32)
      = (sampleA.info.length : Int) + 8 * sampleA.count + 32 :=
  have w := size_marker_value (openFile (fresh 1000) true).2
    (record (openFile (fresh 1000) true).2 sampleA.time sampleA.info sampleA.count
      sampleA.depths sampleA.colors).2
    sampleA.time sampleA.info sampleA.count sampleA.depths sampleA.colors
    (Prod.ext (by decide!) rfl) (by decide!)
  ⟨by decide!, w.1, w.2.2.2 (by decide) (by decide) (by decide)⟩
/-- `seek` is the branch `choose` names, executed by `perform`. -/
theorem seek_dispatch (s : Recorder) (count whence : Int) :
    seek s count whence = (match resolve s count whence with
      | none => (-1, s)
      | some off0 => perform s (clamp s off0) (choose s.frameNumber s.frameCount (clamp s off0)))
    := by
  unfold seek
  cases resolve s count whence with
  | none => rfl
  | some off0 =>
    dsimp only []
    generalize clamp s off0 = off
    unfold choose distStart distCurrent distEnd
    by_cases c0 : off = s.frameNumber
    · rw [if_pos c0, if_pos c0]
      rfl
    · rw [if_neg c0, if_neg c0]
      by_cases c1 : off < wrap32 (Int.natAbs (wrap32 (s.frameNumber - off)))
          ∧ off ≤ wrap32 (s.frameCount - off)
      · rw [if_pos c1, if_pos c1]
        rfl
      · rw [if_neg c1, if_neg c1]
        by_cases c2 : wrap32 (s.frameCount - off) ≤ off
            ∧ wrap32 (s.frameCount - off) < wrap32 (Int.natAbs (wrap32 (s.frameNumber - off)))
        · rw [if_pos c2, if_pos c2]
          rfl
        · rw [if_neg c2, if_neg c2]
          rfl

/-- In the `int` range of a non-empty container the three distances are the plain
differences. -/
theorem dist_values (fn fc off : Int) (h2 : fc < 2147483648)
    (h3 : 0 ≤ fn) (h4 : fn < fc) (h5 : 0 ≤ off) (h6 : off < fc) :
    distCurrent fn off = (Int.natAbs (fn - off) : Int) ∧ distEnd fc off = fc - off := by
  unfold distCurrent distEnd
  rw [wrap32_id (fn - off) (by omega) (by omega), wrap32_id (fc - off) (by omega) (by omega),
    wrap32_id _ (by omega) (by omega)]
  exact ⟨rfl, rfl⟩

/-- The clamped target lies in `[0, frameCount - 1]` when there is a frame. -/
theorem clamp_range (s : Recorder) (off0 : Int) (h1 : 1 ≤ s.frameCount)
    (h2 : s.frameCount < 2147483648) :
    0 ≤ clamp s off0 ∧ clamp s off0 < s.frameCount := by
  unfold clamp
  by_cases c1 : off0 < 0
  · rw [if_pos c1]
    omega
  · rw [if_neg c1]
    by_cases c2 : off0 ≥ s.frameCount
    · rw [if_pos c2, wrap32_id _ (by omega) (by omega)]
      omega
    · rw [if_neg c2]
      omega

/-- The branch chosen for a target other than the cursor has the least distance. -/
theorem choose_min (fn fc off : Int) (hne : off ≠ fn) :
    choose fn fc off ≠ Strategy.stay ∧
    hopDistance fn fc off (choose fn fc off)
      = min (distStart off) (min (distCurrent fn off) (distEnd fc off)) := by
  unfold choose
  rw [if_neg hne]
  by_cases c1 : distStart off < distCurrent fn off ∧ distStart off ≤ distEnd fc off
  · rw [if_pos c1]
    refine ⟨by decide, ?_⟩
    show distStart off = _
    omega
  · rw [if_neg c1]
    by_cases c2 : distEnd fc off ≤ distStart off ∧ distEnd fc off < distCurrent fn off
    · rw [if_pos c2]
      refine ⟨by decide, ?_⟩
      show distEnd fc off = _
      omega
    · rw [if_neg c2]
      refine ⟨by decide, ?_⟩
      show distCurrent fn off = _
      omega

/-! ## C16 -/

/-- C16: on a reader with `F ≥ 1` frames and the cursor on a frame, for a `seek` whose
clamped target `off` differs from `frameNumber`: `off` lies in `[0, F - 1]`, `seek`
executes the branch that its chain of tests selects, and the distance of that branch
(`off` for from-start, `F - off` for from-end, `|frameNumber - off|` for from-current)
is the minimum of the three distances. -/
theorem seek_picks_cheapest (s : Recorder) (count whence off0 : Int)
    (h1 : 1 ≤ s.frameCount) (h2 : s.frameCount < 2147483648)
    (h3 : 0 ≤ s.frameNumber) (h4 : s.frameNumber < s.frameCount)
    (hres : resolve s count whence = some off0)
    (hne : clamp s off0 ≠ s.frameNumber) :
    (0 ≤ clamp s off0 ∧ clamp s off0 < s.frameCount) ∧
    seek s count whence
      = perform s (clamp s off0) (choose s.frameNumber s.frameCount (clamp s off0)) ∧
    choose s.frameNumber s.frameCount (clamp s off0) ≠ Strategy.stay ∧
    distStart (clamp s off0) = clamp s off0 ∧
    distCurrent s.frameNumber (clamp s off0)
      = (Int.natAbs (s.frameNumber - clamp s off0) : Int) ∧
    distEnd s.frameCount (clamp s off0) = s.frameCount - clamp s off0 ∧
    hopDistance s.frameNumber s.frameCount (clamp s off0)
        (choose s.frameNumber s.frameCount (clamp s off0))
      = min (clamp s off0) (min (Int.natAbs (s.frameNumber - clamp s off0) : Int)
          (s.frameCount - clamp s off0)) := by
  have hr := clamp_range s off0 h1 h2
  have hd := dist_values s.frameNumber s.frameCount (clamp s off0) h2 h3 h4 hr.1 hr.2
  have hm := choose_min s.frameNumber s.frameCount (clamp s off0) hne
  have hs := seek_dispatch s count whence
  rw [hres] at hs
  refine ⟨hr, hs, hm.1, rfl, hd.1, hd.2, ?_⟩
  rw [hm.2, hd.1, hd.2]
  rfl

set_option maxRecDepth 100000 in
/-- C16, witness: three frames, cursor on frame 0, `seek(2, FromStart)`: the distances
are 2, 2 and 1 and the from-end branch is taken. -/
theorem seek_picks_cheapest_witness :
    (clamp readerABC 2 ≠ readerABC.frameNumber) ∧
    choose readerABC.frameNumber readerABC.frameCount (clamp readerABC 2)
      = Strategy.fromEnd ∧
    hopDistance readerABC.frameNumber readerABC.frameCount (clamp readerABC 2)
        (choose readerABC.frameNumber readerABC.frameCount (clamp readerABC 2))
      = min (clamp readerABC 2) (min (Int.natAbs (readerABC.frameNumber - clamp readerABC 2) : Int)
          (readerABC.frameCount - clamp readerABC 2)) :=
  have w := seek_picks_cheapest readerABC 2 0 2 (by decide!) (by decide!) (by decide!)
    (by decide!) rfl (by decide!)
  ⟨by decide!, by decide!, w.2.2.2.2.2.2⟩

/-- A `read` on a bad descriptor obtains nothing. -/
theorem sysRead_bad (s : Recorder) (n : Nat) (h : s.fd < 0) : sysRead s n = ([], s) := by
  unfold sysRead
  rw [if_pos h]

/-- What a `read` obtains on a good descriptor. -/
theorem sysRead_got (s : Recorder) (n : Nat) (h : 0 ≤ s.fd) :
    (sysRead s n).1 = (s.storage.drop s.offset).take n := by
  unfold sysRead
  rw [if_neg (by omega)]

/-- The failure cases of `readn`. -/
theorem readn_fails (s : Recorder) (data : Option (List Byte)) (size : Int)
    (h : s.fd < 0 ∨ s.storage.length < s.offset + 4 ∨
      rd32 ((s.storage.drop s.offset).take 4) ≤ 0 ∨
      (data.isSome = true ∧ 0 < size ∧ size < rd32 ((s.storage.drop s.offset).take 4)) ∨
      s.storage.length < s.offset + 4 + (rd32 ((s.storage.drop s.offset).take 4)).toNat) :
    (readn s data size).1 = -1 := by
  unfold readn
  dsimp only []
  by_cases hfd : s.fd < 0
  · rw [sysRead_bad s 4 hfd]
    rfl
  · have hfd2 : 0 ≤ s.fd := by omega
    by_cases h4 : s.storage.length < s.offset + 4
    · have hl : ¬ ((sysRead s 4).1.length = 4) := by
        rw [sysRead_got s 4 hfd2, List.length_take, List.length_drop]
        omega
      rw [if_pos hl]
    · have r1 := sysRead_full s 4 hfd2 (by omega)
      generalize hS1 : ({ s with offset := s.offset + 4 } : Recorder) = S1 at r1
      have a1 : S1.fd = s.fd ∧ S1.offset = s.offset + 4 ∧ S1.storage = s.storage := by
        rw [← hS1]; exact ⟨rfl, rfl, rfl⟩
      obtain ⟨f1, o1, st1⟩ := a1
      have l4 : ((s.storage.drop s.offset).take 4).length = 4 := by
        rw [List.length_take, List.length_drop]; omega
      rw [r1]
      dsimp only []
      rw [if_neg (by rw [l4]; exact fun c => c rfl)]
      generalize rd32 ((s.storage.drop s.offset).take 4) = L at h
      by_cases c1 : L ≤ 0
      · rw [if_pos c1]
      · rw [if_neg c1]
        by_cases c2 : data.isSome = true ∧ 0 < size ∧ size < L
        · rw [if_pos c2]
        · rw [if_neg c2]
          have hshort : s.storage.length < s.offset + 4 + L.toNat := by
            rcases h with h | h | h | h | h
            · exact absurd h hfd
            · exact absurd h h4
            · exact absurd h c1
            · exact absurd h c2
            · exact h
          have hg : ¬ (((sysRead S1 L.toNat).1.length : Int) = L) := by
            rw [sysRead_got S1 _ (by omega), List.length_take, List.length_drop, o1, st1]
            omega
          rw [if_pos hg]

/-- Storing at index `n` does not change the first `n` elements. -/
theorem take_set_self (l : List Byte) : ∀ (n : Nat) (a : Byte),
    (l.set n a).take n = l.take n := by
  induction l with
  | nil =>
    intro n a
    rfl
  | cons x xs ih =>
    intro n a
    cases n with
    | zero => rfl
    | succ k =>
      show x :: (xs.set k a).take k = x :: xs.take k
      rw [ih]

/-- The success case of `readn`. -/
theorem readn_succeeds (s : Recorder) (data : Option (List Byte)) (size : Int)
    (hfd : 0 ≤ s.fd) (hpos : 0 < rd32 ((s.storage.drop s.offset).take 4))
    (hguard : ¬ (data.isSome = true ∧ 0 < size ∧
      size < rd32 ((s.storage.drop s.offset).take 4)))
    (hlen : s.offset + 4 + (rd32 ((s.storage.drop s.offset).take 4)).toNat
      ≤ s.storage.length) :
    (readn s data size).1 = 0 ∧
    ((readn s data size).2.1.getD []).take (rd32 ((s.storage.drop s.offset).take 4)).toNat
      = (s.storage.drop (s.offset + 4)).take
          (rd32 ((s.storage.drop s.offset).take 4)).toNat ∧
    (readn s data size).2.2.offset
      = s.offset + 4 + (rd32 ((s.storage.drop s.offset).take 4)).toNat ∧
    (readn s data size).2.2.storage = s.storage ∧
    ((∀ b, data = some b → (rd32 ((s.storage.drop s.offset).take 4)).toNat ≤ b.length ∧
        (rd32 ((s.storage.drop s.offset).take 4) < size →
          (rd32 ((s.storage.drop s.offset).take 4)).toNat < b.length)) →
      (data = none → ¬ rd32 ((s.storage.drop s.offset).take 4) < size) →
      (readn s data size).2.2.fault = s.fault) := by
  have l4 : ((s.storage.drop s.offset).take 4).length = 4 := by
    rw [List.length_take, List.length_drop]; omega
  have h4 : s.offset + 4 ≤ s.storage.length := by omega
  generalize hL : rd32 ((s.storage.drop s.offset).take 4) = L at hpos hguard hlen
  have lg : ((s.storage.drop (s.offset + 4)).take L.toNat).length = L.toNat := by
    rw [List.length_take, List.length_drop]; omega
  have hLn : ((L.toNat : Nat) : Int) = L := by omega
  have c1 : ¬ (L ≤ 0) := by omega
  have r1 := sysRead_full s 4 hfd h4
  generalize hS1 : ({ s with offset := s.offset + 4 } : Recorder) = S1 at r1
  have a1 : S1.fd = s.fd ∧ S1.offset = s.offset + 4 ∧ S1.storage = s.storage ∧
      S1.fault = s.fault := by
    rw [← hS1]; exact ⟨rfl, rfl, rfl, rfl⟩
  obtain ⟨f1, o1, st1, fl1⟩ := a1
  have r2 := sysRead_full S1 L.toNat (by rw [f1]; exact hfd) (by rw [o1, st1]; exact hlen)
  generalize hS2 : ({ S1 with offset := S1.offset + L.toNat } : Recorder) = S2 at r2
  have a2 : S2.offset = s.offset + 4 + L.toNat ∧ S2.storage = s.storage ∧
      S2.fault = s.fault := by
    rw [← hS2]; exact ⟨by show S1.offset + L.toNat = _; rw [o1], st1, fl1⟩
  obtain ⟨o2, st2, fl2⟩ := a2
  have hG0 : (S1.storage.drop S1.offset).take L.toNat
      = (s.storage.drop (s.offset + 4)).take L.toNat := by rw [o1, st1]
  rw [hG0] at r2
  generalize hG : (s.storage.drop (s.offset + 4)).take L.toNat = got at r2 lg
  unfold readn
  dsimp only []
  rw [r1]
  dsimp only []
  rw [if_neg (by rw [l4]; exact fun c => c rfl), hL, if_neg c1, if_neg hguard]
  generalize hR : sysRead S1 L.toNat = R
  have hR2 : R = (got, S2) := hR.symm.trans r2
  clear r1 r2 hR hS1 hS2
  subst hR2
  dsimp only []
  rw [if_neg (by rw [lg, hLn]; exact fun c => c rfl)]
  by_cases c3 : L < size
  · rw [if_pos c3]
    dsimp only []
    refine ⟨rfl, ?_, ?_, ?_, ?_⟩
    · rw [Option.getD_some, take_set_self]
      exact List.take_left' lg
    · exact o2
    · exact st2
    · intro hb hn
      cases data with
      | none => exact absurd c3 (hn rfl)
      | some b =>
        obtain ⟨b1, b2⟩ := hb b rfl
        have b3 := b2 c3
        have d1 : ¬ (b.length < got.length) := by omega
        have d2 : ¬ ((got ++ List.drop got.length b).length ≤ L.toNat) := by
          rw [List.length_append, List.length_drop]
          omega
        dsimp only []
        rw [fl2]
        simp only [d1, d2, decide_False, Bool.or_false]
  · rw [if_neg c3]
    dsimp only []
    refine ⟨rfl, ?_, ?_, ?_, ?_⟩
    · rw [Option.getD_some]
      exact List.take_left' lg
    · exact o2
    · exact st2
    · intro hb hn
      cases data with
      | none =>
        have d1 : ¬ ((List.replicate L.toNat (0 : Byte)).length < got.length) := by
          rw [List.length_replicate]
          omega
        dsimp only []
        rw [fl2]
        simp only [d1, decide_False, Bool.or_false]
      | some b =>
        obtain ⟨b1, -⟩ := hb b rfl
        have d1 : ¬ (b.length < got.length) := by omega
        dsimp only []
        rw [fl2]
        simp only [d1, decide_False, Bool.or_false]

/-! ## C18 -/

set_option maxRecDepth 100000 in
/-- C18 (counterexample): the stored length is 8, a buffer (of 8 bytes) is supplied and
maxSize is 0, so the length exceeds maxSize; `readn` does not fail, it returns 0 with
the 8 payload bytes in the buffer. -/
theorem readn_ignores_zero_maxSize :
    rd32 ((fieldFile.storage.drop fieldFile.offset).take 4) = 8 ∧
    (readn fieldFile (some (List.replicate 8 0)) 0).1 = 0 ∧
    (readn fieldFile (some (List.replicate 8 0)) 0).2.1 = some [1, 2, 3, 4, 5, 6, 7, 8] ∧
    (readn fieldFile (some (List.replicate 8 0)) 0).2.2.offset = 12 ∧
    (readn fieldFile (some (List.replicate 8 0)) 0).2.2.fault = false := by
  refine ⟨?_, ?_, ?_, ?_, ?_⟩ <;> decide!

/-- C18 (amended): on a valid descriptor `readn` returns -1 exactly when the 4-byte
length cannot be read in full, when the length it decodes is 0 or less as a signed
value, when a buffer is supplied, maxSize is greater than 0 and the length exceeds
maxSize, or when fewer than that many payload bytes remain. In every other case it
returns 0, the buffer starts with exactly the next `length` bytes of storage, and the
offset has advanced by `4 + length`; when the supplied buffer has room for them (and for
the NUL that is stored behind them if `length < maxSize`), no access leaves the
buffer. -/
theorem readn_outcome (s : Recorder) (data : Option (List Byte)) (size : Int)
    (hfd : 0 ≤ s.fd) :
    ((readn s data size).1 = -1 ↔
      (s.storage.length < s.offset + 4 ∨
        rd32 ((s.storage.drop s.offset).take 4) ≤ 0 ∨
        (data.isSome = true ∧ 0 < size ∧ size < rd32 ((s.storage.drop s.offset).take 4)) ∨
        s.storage.length
          < s.offset + 4 + (rd32 ((s.storage.drop s.offset).take 4)).toNat)) ∧
    ((readn s data size).1 ≠ -1 →
      (readn s data size).1 = 0 ∧
      ((readn s data size).2.1.getD []).take (rd32 ((s.storage.drop s.offset).take 4)).toNat
        = (s.storage.drop (s.offset + 4)).take
            (rd32 ((s.storage.drop s.offset).take 4)).toNat ∧
      ((s.storage.drop (s.offset + 4)).take
        (rd32 ((s.storage.drop s.offset).take 4)).toNat).length
        = (rd32 ((s.storage.drop s.offset).take 4)).toNat ∧
      (readn s data size).2.2.offset
        = s.offset + 4 + (rd32 ((s.storage.drop s.offset).take 4)).toNat ∧
      (readn s data size).2.2.storage = s.storage ∧
      ((∀ b, data = some b → (rd32 ((s.storage.drop s.offset).take 4)).toNat ≤ b.length ∧
          (rd32 ((s.storage.drop s.offset).take 4) < size →
            (rd32 ((s.storage.drop s.offset).take 4)).toNat < b.length)) →
        (data = none → ¬ rd32 ((s.storage.drop s.offset).take 4) < size) →
        (readn s data size).2.2.fault = s.fault)) := by
  have key : ¬ (s.storage.length < s.offset + 4 ∨
        rd32 ((s.storage.drop s.offset).take 4) ≤ 0 ∨
        (data.isSome = true ∧ 0 < size ∧ size < rd32 ((s.storage.drop s.offset).take 4)) ∨
        s.storage.length
          < s.offset + 4 + (rd32 ((s.storage.drop s.offset).take 4)).toNat) →
      0 < rd32 ((s.storage.drop s.offset).take 4) ∧
      ¬ (data.isSome = true ∧ 0 < size ∧
        size < rd32 ((s.storage.drop s.offset).take 4)) ∧
      s.offset + 4 + (rd32 ((s.storage.drop s.offset).take 4)).toNat ≤ s.storage.length := by
    intro hn
    refine ⟨?_, ?_, ?_⟩
    · by_contra c
      exact hn (Or.inr (Or.inl (by omega)))
    · intro c
      exact hn (Or.inr (Or.inr (Or.inl c)))
    · by_contra c
      exact hn (Or.inr (Or.inr (Or.inr (by omega))))
  have hcases : (readn s data size).1 ≠ -1 →
      ¬ (s.storage.length < s.offset + 4 ∨
        rd32 ((s.storage.drop s.offset).take 4) ≤ 0 ∨
        (data.isSome = true ∧ 0 < size ∧ size < rd32 ((s.storage.drop s.offset).take 4)) ∨
        s.storage.length
          < s.offset + 4 + (rd32 ((s.storage.drop s.offset).take 4)).toNat) := by
    intro hne hc
    exact hne (readn_fails s data size (Or.inr hc))
  constructor
  · constructor
    · intro hrc
      by_contra hn
      obtain ⟨k1, k2, k3⟩ := key hn
      have := (readn_succeeds s data size hfd k1 k2 k3).1
      rw [hrc] at this
      exact absurd this (by decide)
    · intro hc
      exact readn_fails s data size (Or.inr hc)
  · intro hne
    obtain ⟨k1, k2, k3⟩ := key (hcases hne)
    obtain ⟨q1, q2, q3, q4, q5⟩ := readn_succeeds s data size hfd k1 k2 k3
    refine ⟨q1, q2, ?_, q3, q4, q5⟩
    rw [List.length_take, List.length_drop]
    omega

set_option maxRecDepth 100000 in
/-- C18, witness: a field of 8 bytes read without a buffer. -/
theorem readn_outcome_witness :
    0 ≤ fieldFile.fd ∧
    (readn fieldFile none 0).1 = 0 ∧
    (readn fieldFile none 0).2.2.offset
      = fieldFile.offset + 4
        + (rd32 ((fieldFile.storage.drop fieldFile.offset).take 4)).toNat :=
  have w := (readn_outcome fieldFile none 0 (by decide)).2 (by decide!)
  ⟨by decide, w.1, w.2.2.2.1⟩

end PointCloudRecorder
